import Mathlib

/-!
# Studio chaincode (src/Studio/main.go): materials, wands and their index lists

A shallow embedding of the chaincode `Studio` and theorems about it.

The chaincode runs against three collaborators that are not part of the repository:
the ledger stub (`GetState`, `PutState`, `DelState`), the composite-key helpers of the
shim, and `encoding/json`.  They are modelled below, each under a doc comment that says
what is modelled; the chaincode functions themselves are translated from the source,
statement by statement.

Conventions of the embedding

* A Go `string` is a Lean `String`.
* A Go slice is `Slice α = Option (List α)`; `none` is the `nil` slice (which
  `json.Marshal` writes as `null`, while an empty non-nil slice is written `[]`).
* A `[]byte` value is a `Bytes`: the document the bytes spell.  Only the documents this
  chaincode itself writes occur (a chaincode namespace is written by that chaincode only).
* An operation takes the store and the arguments and returns the response together with
  the store it leaves behind.  A Go run-time panic (index out of range) is the response
  `Response.GoPanic`.
-/

namespace Studio

/-! ## Data model -/

/-- Go slice: `none` is the nil slice, `some l` a non-nil slice with elements `l`. -/
abbrev Slice (α : Type) := Option (List α)

/-- Elements of a slice (`range` over a nil slice visits nothing). -/
def Slice.toList {α : Type} : Slice α → List α
  | none => []
  | some l => l

/-- Go `append(s, x)`: the result is never nil. -/
def Slice.append {α : Type} (s : Slice α) (x : α) : Slice α :=
  some (Slice.toList s ++ [x])

/-- Go `len(s)`. -/
def Slice.len {α : Type} (s : Slice α) : Nat := (Slice.toList s).length

/-- The struct `Material` of the source (field `Type` is spelled `Typ`). -/
structure Material where
  ObjectType : String
  ID : String
  Typ : String
  Supplier : String
deriving DecidableEq, Repr

/-- The struct `Wand` of the source (field `Type` is spelled `Typ`). -/
structure Wand where
  ObjectType : String
  ID : String
  Typ : String
  Color : String
  Size : Int
  Materials : Slice String
deriving DecidableEq, Repr

/-- Modelled from the spec: the byte strings held by the key-value store.  A value is
represented by the document it spells; the constructors are the documents this chaincode
writes: a marshalled `Material`, a marshalled `Wand`, a marshalled non-nil `[]string`
(a JSON array), the text `null` (a marshalled nil slice) and the one-byte value `0x00`. -/
inductive Bytes where
  | material (m : Material)
  | wand (w : Wand)
  | strings (l : List String)
  | null
  | sentinel
deriving DecidableEq, Repr

/-- Errors returned by the library calls the chaincode makes. -/
inductive LibError where
  | jsonSyntax
  | jsonType
  | atoiSyntax
  | atoiRange
  | compositeKeyAttribute
deriving DecidableEq, Repr

/-- One piece of an error message: the source builds every message by concatenating
string literals, argument strings, `string(bytes)` and `err.Error()`. -/
inductive Frag where
  | str (s : String)
  | bytes (b : Bytes)
  | err (e : LibError)
deriving DecidableEq, Repr

/-- Payload of a successful response. -/
inductive Payload where
  | nil
  | bytes (b : Bytes)
  | materials (ms : Slice Material)
  | wands (ws : Slice Wand)
  | numMaterials (n : Int)
  | numWands (n : Int)
  | materialsAndIndexList (ms : Slice Material) (indexList : Slice String)
deriving DecidableEq, Repr

/-- Outcome of an invocation: `shim.Success(payload)`, `shim.Error(message)` with the
message kept as the pieces the source concatenates, or a Go run-time panic. -/
inductive Response where
  | Success (payload : Payload)
  | Error (msg : List Frag)
  | GoPanic
deriving DecidableEq, Repr

/-- The response is a `shim.Success`. -/
def Response.isSuccess : Response → Bool
  | Response.Success _ => true
  | _ => false

/-! ## The ledger stub -/

/-- Modelled from the spec: the key-value store ("exposes get, put, delete"), a map from
keys to values; a read sees the writes made before it, writes stay when the invocation
fails later, and no call fails (the branches of the source on a store error are not
reached and are left out). -/
abbrev Store := String → Option Bytes

/-- The store with no record. -/
def emptyStore : Store := fun _ => none

/-- Modelled from the spec: `stub.GetState(key)`; `none` is the nil result of an absent key. -/
def GetState (stub : Store) (key : String) : Option Bytes := stub key

/-- Modelled from the spec: `stub.PutState(key, value)`. -/
def PutState (stub : Store) (key : String) (value : Bytes) : Store :=
  fun k => if k = key then some value else stub k

/-- Modelled from the spec: `stub.DelState(key)`. -/
def DelState (stub : Store) (key : String) : Store :=
  fun k => if k = key then none else stub k

/-! ## encoding/json -/

/-- Modelled from the spec: `json.Marshal` of a `[]string`: `null` for the nil slice, an
array otherwise. -/
def marshalStrings : Slice String → Bytes
  | none => Bytes.null
  | some l => Bytes.strings l

/-- Modelled from the spec: `json.Unmarshal(bytes, &list)` for a nil `list []string`.
Nil input is a syntax error, `null` leaves the slice nil, an array of strings is read
back, an object is a type error, the byte `0x00` is a syntax error. -/
def unmarshalStrings : Option Bytes → Except LibError (Slice String)
  | none => Except.error LibError.jsonSyntax
  | some Bytes.null => Except.ok none
  | some (Bytes.strings l) => Except.ok (some l)
  | some (Bytes.material _) => Except.error LibError.jsonType
  | some (Bytes.wand _) => Except.error LibError.jsonType
  | some Bytes.sentinel => Except.error LibError.jsonSyntax

/-- The guarded decoding of `initMaterial` and `initWand`:
`var list []string; if bytes != nil { json.Unmarshal(bytes, &list) }`. -/
def unmarshalIfPresent : Option Bytes → Except LibError (Slice String)
  | none => Except.ok none
  | some b => unmarshalStrings (some b)

/-- Modelled from the spec: `json.Unmarshal(bytes, &m)` for a zero `m Material`.  Object
keys that name no field of `Material` are ignored, so a marshalled `Wand` decodes too;
`null` leaves the zero value; an array is a type error. -/
def unmarshalMaterial : Bytes → Except LibError Material
  | Bytes.material m => Except.ok m
  | Bytes.wand w => Except.ok { ObjectType := w.ObjectType, ID := w.ID, Typ := w.Typ, Supplier := "" }
  | Bytes.null => Except.ok { ObjectType := "", ID := "", Typ := "", Supplier := "" }
  | Bytes.strings _ => Except.error LibError.jsonType
  | Bytes.sentinel => Except.error LibError.jsonSyntax

/-- Modelled from the spec: `json.Unmarshal(bytes, &w)` for a zero `w Wand`.  A marshalled
`Material` decodes with the fields it lacks left zero. -/
def unmarshalWand : Bytes → Except LibError Wand
  | Bytes.wand w => Except.ok w
  | Bytes.material m =>
      Except.ok { ObjectType := m.ObjectType, ID := m.ID, Typ := m.Typ, Color := "", Size := 0,
                  Materials := none }
  | Bytes.null =>
      Except.ok { ObjectType := "", ID := "", Typ := "", Color := "", Size := 0, Materials := none }
  | Bytes.strings _ => Except.error LibError.jsonType
  | Bytes.sentinel => Except.error LibError.jsonSyntax

/-! ## Composite keys (shim) -/

/-- U+0000, the separator of composite keys. -/
def minUnicodeRuneValue : Char := Char.ofNat 0

/-- U+10FFFF. -/
def maxUnicodeRuneValue : Char := Char.ofNat 0x10FFFF

/-- Modelled from the spec: the shim rejects an attribute that contains U+0000 or U+10FFFF. -/
def validateCompositeKeyAttribute (str : String) : Except LibError Unit :=
  if str.data.any (fun r => r = minUnicodeRuneValue || r = maxUnicodeRuneValue) then
    Except.error LibError.compositeKeyAttribute
  else Except.ok ()

/-- The loop of `CreateCompositeKey` over the attributes: each is validated and appended,
followed by U+0000. -/
def compositeKeyAttributes (ck : String) : List String → Except LibError String
  | [] => Except.ok ck
  | att :: rest =>
    match validateCompositeKeyAttribute att with
    | Except.error e => Except.error e
    | Except.ok _ => compositeKeyAttributes (ck ++ att ++ String.singleton minUnicodeRuneValue) rest

/-- Modelled from the spec: `stub.CreateCompositeKey(objectType, attributes)`, the key
`U+0000 objectType U+0000 attribute U+0000 ... attribute U+0000`. -/
def CreateCompositeKey (objectType : String) (attributes : List String) : Except LibError String :=
  match validateCompositeKeyAttribute objectType with
  | Except.error e => Except.error e
  | Except.ok _ =>
    compositeKeyAttributes
      (String.singleton minUnicodeRuneValue ++ objectType ++ String.singleton minUnicodeRuneValue)
      attributes

/-- The components of a composite key after its first position: every stretch that is
closed by U+0000; what follows the last U+0000 is dropped. -/
def splitComponents : List Char → List Char → List String
  | [], _ => []
  | c :: cs, cur =>
    if c = minUnicodeRuneValue then String.mk cur.reverse :: splitComponents cs []
    else splitComponents cs (c :: cur)

/-- Modelled from the spec: `stub.SplitCompositeKey(key)`: the first position is skipped,
the first component is the object type, the others are the attributes.  A key without
any component makes the shim index an empty slice: `none` is that panic.  The shim scans
bytes from index 1 and a zero byte occurs in UTF-8 only as U+0000, so scanning characters
gives the same attributes; only the object type, which no caller reads, can differ (when
the first character takes more than one byte). -/
def SplitCompositeKey (compositeKey : String) : Option (String × List String) :=
  match splitComponents compositeKey.data.tail [] with
  | [] => none
  | objectType :: attributes => some (objectType, attributes)

/-! ## strconv -/

/-- Value of a run of ASCII digits, `none` when a character is not a digit. -/
def parseDigits : List Char → Nat → Option Nat
  | [], acc => some acc
  | c :: cs, acc =>
    if 48 ≤ c.toNat ∧ c.toNat ≤ 57 then parseDigits cs (acc * 10 + (c.toNat - 48)) else none

/-- Modelled from the spec: `strconv.Atoi`: an optional sign and at least one decimal
digit, the value within the 64-bit `int`. -/
def Atoi (s : String) : Except LibError Int :=
  match s.data with
  | [] => Except.error LibError.atoiSyntax
  | c :: cs =>
    let neg : Bool := c = '-'
    let ds : List Char := if c = '-' ∨ c = '+' then cs else c :: cs
    match ds with
    | [] => Except.error LibError.atoiSyntax
    | _ :: _ =>
      match parseDigits ds 0 with
      | none => Except.error LibError.atoiSyntax
      | some n =>
        let v : Int := if neg then -(n : Int) else (n : Int)
        if v < -(2 : Int) ^ 63 ∨ (2 : Int) ^ 63 ≤ v then Except.error LibError.atoiRange
        else Except.ok v

/-- Go `int` arithmetic: the result of an addition wrapped into the signed 64-bit range. -/
def wrapInt64 (x : Int) : Int := (x + (2 : Int) ^ 63) % (2 : Int) ^ 64 - (2 : Int) ^ 63

/-! ## The chaincode -/

/-- Function `Init` of the source: each index list is created (as a marshalled nil slice) when absent. -/
def Init (stub : Store) : Response × Store :=
  let stub1 :=
    match GetState stub "materialIndexList" with
    | none => PutState stub "materialIndexList" (marshalStrings none)
    | some _ => stub
  let stub2 :=
    match GetState stub1 "wandsIndexList" with
    | none => PutState stub1 "wandsIndexList" (marshalStrings none)
    | some _ => stub1
  (Response.Success Payload.nil, stub2)

/-- Function `initMaterial` of the source: create a new material, store it, index it. -/
def initMaterial (stub : Store) (args : List String) : Response × Store :=
  match args with
  | [materialID, materialType, materialSupplier] =>
    if materialID = "" then
      (Response.Error [Frag.str "Material ID cannot be empty"], stub)
    else
      match GetState stub materialID with
      | some _ =>
        (Response.Error [Frag.str "This material already exists: ", Frag.str materialID], stub)
      | none =>
        let material : Material :=
          { ObjectType := "Material", ID := materialID, Typ := materialType,
            Supplier := materialSupplier }
        let materialJSONasBytes := Bytes.material material
        let stub1 := PutState stub material.ID materialJSONasBytes
        match CreateCompositeKey "type~ID" [material.Typ, material.ID] with
        | Except.error e => (Response.Error [Frag.err e], stub1)
        | Except.ok typeIndexKey =>
          let indexListBytes := GetState stub1 "materialIndexList"
          match unmarshalIfPresent indexListBytes with
          | Except.error e => (Response.Error [Frag.err e], stub1)
          | Except.ok indexList =>
            let indexList := Slice.append indexList typeIndexKey
            let updatedIndexListBytes := marshalStrings indexList
            let stub2 := PutState stub1 "materialIndexList" updatedIndexListBytes
            let stub3 := PutState stub2 typeIndexKey Bytes.sentinel
            (Response.Success (Payload.bytes updatedIndexListBytes), stub3)
  | _ =>
    (Response.Error [Frag.str "Incorrect number of arguments. Expecting ID, Type and Supplier"],
      stub)

/-- Function `readMaterial` of the source: the bytes stored under the id. -/
def readMaterial (stub : Store) (args : List String) : Response × Store :=
  match args with
  | [ID] =>
    match GetState stub ID with
    | none => (Response.Error [Frag.str "Material does not exist: ", Frag.str ID], stub)
    | some valAsbytes => (Response.Success (Payload.bytes valAsbytes), stub)
  | _ =>
    (Response.Error [Frag.str "Incorrect number of arguments. Expecting ID of the material to query"],
      stub)

/-- Function `getTotalNumberOfMaterials` of the source: the length of the material index list. -/
def getTotalNumberOfMaterials (stub : Store) : Response × Store :=
  let materialIndexListBytes := GetState stub "materialIndexList"
  match unmarshalStrings materialIndexListBytes with
  | Except.error e =>
    (Response.Error [Frag.str "Failed to unmarshal material index list: ", Frag.err e], stub)
  | Except.ok materialIndexList =>
    let numMaterials := Slice.len materialIndexList
    (Response.Success (Payload.numMaterials (numMaterials : Int)), stub)

/-- The loop of `deleteMaterial` over the index list: at the first position `i` whose
entry equals the key, the list becomes `indexList[:i]` followed by `indexList[i+1:]` and
the loop ends; without such a position the list is left as it is.  The third argument is
the part of the list still to visit, the fourth the position reached. -/
def removeIndexLoop (typeIDIndexKey : String) (indexList : List String) :
    List String → Nat → List String
  | [], _ => indexList
  | index :: rest, i =>
    if index = typeIDIndexKey then indexList.take i ++ indexList.drop (i + 1)
    else removeIndexLoop typeIDIndexKey indexList rest (i + 1)

/-- Function `deleteMaterial` of the source: remove the record, then its entry of the material index list. -/
def deleteMaterial (stub : Store) (args : List String) : Response × Store :=
  match args with
  | [materialID] =>
    match GetState stub materialID with
    | none => (Response.Error [Frag.str "Material does not exist: ", Frag.str materialID], stub)
    | some valAsbytes =>
      match unmarshalMaterial valAsbytes with
      | Except.error _ =>
        (Response.Error [Frag.str "Failed to decode JSON of: ", Frag.bytes valAsbytes], stub)
      | Except.ok materialToDelete =>
        let stub1 := DelState stub materialID
        match CreateCompositeKey "type~ID" [materialToDelete.Typ, materialToDelete.ID] with
        | Except.error e => (Response.Error [Frag.err e], stub1)
        | Except.ok typeIDIndexKey =>
          let indexListBytes := GetState stub1 "materialIndexList"
          match unmarshalStrings indexListBytes with
          | Except.error e =>
            (Response.Error [Frag.str "Failed to unmarshal index list: ", Frag.err e], stub1)
          | Except.ok indexList =>
            let indexList : Slice String :=
              match indexList with
              | none => none
              | some l => some (removeIndexLoop typeIDIndexKey l l 0)
            let updatedIndexListBytes := marshalStrings indexList
            let stub2 := PutState stub1 "materialIndexList" updatedIndexListBytes
            (Response.Success Payload.nil, stub2)
  | _ =>
    (Response.Error [Frag.str "Incorrect number of arguments. Material ID must be passed."], stub)

/-- The loop `for i := 5; i < 5+num_materials; i++` of `initWand`: the first argument
after `args` is the number of iterations left, the second the index `i`; `none` is the
panic of `args[i]` out of range. -/
def materialsLoop (args : List String) : Nat → Nat → Slice String → Option (Slice String)
  | 0, _, materials => some materials
  | k + 1, i, materials =>
    match args[i]? with
    | none => none
    | some a => materialsLoop args k (i + 1) (Slice.append materials a)

/-- Outcome of the inner loop of `initWand` for one material id. -/
inductive Scan where
  | found (materialIndexList : List String)
  | notFound
  | panicked
deriving DecidableEq, Repr

/-- The inner loop of `initWand`: every entry visited is split, its second attribute is
compared with the material id, and the first entry that matches is cut out of the list.
A key that has no second attribute makes `composite_parts[1]` panic. -/
def removeMaterialLoop (materialID : String) (materialIndexList : List String) :
    List String → Nat → Scan
  | [], _ => Scan.notFound
  | compositeKey :: rest, i =>
    match SplitCompositeKey compositeKey with
    | none => Scan.panicked
    | some (_, composite_parts) =>
      match composite_parts[1]? with
      | none => Scan.panicked
      | some listID =>
        if listID = materialID then
          Scan.found (materialIndexList.take i ++ materialIndexList.drop (i + 1))
        else removeMaterialLoop materialID materialIndexList rest (i + 1)

/-- The outer loop of `initWand` over `wand.Materials`: the index list after all the
removals, or the response with which the loop returns early. -/
def consumeMaterials : List String → Slice String → Except Response (Slice String)
  | [], materialIndexList => Except.ok materialIndexList
  | materialID :: rest, materialIndexList =>
    match removeMaterialLoop materialID (Slice.toList materialIndexList)
        (Slice.toList materialIndexList) 0 with
    | Scan.panicked => Except.error Response.GoPanic
    | Scan.notFound =>
      Except.error (Response.Error
        [Frag.str "Material ID not found in the material index list: ", Frag.str materialID])
    | Scan.found l => consumeMaterials rest (some l)

/-- Function `initWand` of the source: create a new wand, store it, index it, and take its materials out of the
material index list. -/
def initWand (stub : Store) (args : List String) : Response × Store :=
  match args with
  | wandID :: wandType :: wandColor :: arg3 :: arg4 :: _ :: _ =>
    match Atoi arg3 with
    | Except.error _ => (Response.Error [Frag.str "Size must be an integer."], stub)
    | Except.ok wandSize =>
      match Atoi arg4 with
      | Except.error e =>
        (Response.Error [Frag.str "Erro ao converter num_materials para inteiro: ", Frag.err e],
          stub)
      | Except.ok num_materials =>
        match materialsLoop args (wrapInt64 (5 + num_materials) - 5).toNat 5 none with
        | none => (Response.GoPanic, stub)
        | some materials =>
          if wandID = "" then (Response.Error [Frag.str "Wand ID cannot be empty"], stub)
          else
            match GetState stub wandID with
            | some _ =>
              (Response.Error [Frag.str "This wand already exists: ", Frag.str wandID], stub)
            | none =>
              let wand : Wand :=
                { ObjectType := "Wand", ID := wandID, Typ := wandType, Color := wandColor,
                  Size := wandSize, Materials := materials }
              let wandJSONasBytes := Bytes.wand wand
              let stub1 := PutState stub wandID wandJSONasBytes
              match CreateCompositeKey "type~ID" [wand.Typ, wand.ID] with
              | Except.error e => (Response.Error [Frag.err e], stub1)
              | Except.ok typeIndexKey =>
                let wandsIndexListBytes := GetState stub1 "wandsIndexList"
                match unmarshalIfPresent wandsIndexListBytes with
                | Except.error e =>
                  (Response.Error [Frag.str "Error decoding wand index list: ", Frag.err e], stub1)
                | Except.ok wandsIndexList =>
                  let wandsIndexList := Slice.append wandsIndexList typeIndexKey
                  let wandsIndexListBytes := marshalStrings wandsIndexList
                  let stub2 := PutState stub1 "wandsIndexList" wandsIndexListBytes
                  let materialIndexListBytes := GetState stub2 "materialIndexList"
                  match unmarshalStrings materialIndexListBytes with
                  | Except.error e =>
                    (Response.Error
                      [Frag.str "Failed to unmarshal material index list: ", Frag.err e], stub2)
                  | Except.ok materialIndexList =>
                    match consumeMaterials (Slice.toList wand.Materials) materialIndexList with
                    | Except.error r => (r, stub2)
                    | Except.ok materialIndexList =>
                      let updatedMaterialIndexListBytes := marshalStrings materialIndexList
                      let stub3 := PutState stub2 "materialIndexList" updatedMaterialIndexListBytes
                      (Response.Success Payload.nil, stub3)
  | _ =>
    (Response.Error
      [Frag.str "Incorrect number of arguments. Expecting ID, Type, Color, Size and a list of Materials."],
      stub)

/-- Function `readWand` of the source: the bytes stored under the id. -/
def readWand (stub : Store) (args : List String) : Response × Store :=
  match args with
  | [ID] =>
    match GetState stub ID with
    | none => (Response.Error [Frag.str "Wand does not exist: ", Frag.str ID], stub)
    | some valAsbytes => (Response.Success (Payload.bytes valAsbytes), stub)
  | _ =>
    (Response.Error [Frag.str "Incorrect number of arguments. Expecting ID of the wand to query"],
      stub)

/-- The loop of `deletewand` over the wand index list: `updatedIndexList` starts nil and
is assigned only at the first position whose entry equals the key. -/
def updatedIndexListLoop (typeIDIndexKey : String) (indexList : List String) :
    List String → Nat → Slice String
  | [], _ => none
  | index :: rest, i =>
    if index = typeIDIndexKey then some (indexList.take i ++ indexList.drop (i + 1))
    else updatedIndexListLoop typeIDIndexKey indexList rest (i + 1)

/-- The last loop of `deletewand`: `DelState` for each material id in turn. -/
def deleteMaterialsLoop : List String → Store → Store
  | [], stub => stub
  | materialID :: rest, stub => deleteMaterialsLoop rest (DelState stub materialID)

/-- Function `deletewand` of the source: remove the record, rewrite the wand index list, delete the records of
the materials the wand lists. -/
def deletewand (stub : Store) (args : List String) : Response × Store :=
  match args with
  | [wandID] =>
    match GetState stub wandID with
    | none => (Response.Error [Frag.str "Wand does not exist: ", Frag.str wandID], stub)
    | some valAsbytes =>
      match unmarshalWand valAsbytes with
      | Except.error e =>
        (Response.Error
          [Frag.str "Failed to decode JSON of: ", Frag.bytes valAsbytes, Frag.str ": ", Frag.err e],
          stub)
      | Except.ok wandToDelete =>
        let stub1 := DelState stub wandID
        match CreateCompositeKey "type~ID" [wandToDelete.Typ, wandToDelete.ID] with
        | Except.error e => (Response.Error [Frag.err e], stub1)
        | Except.ok typeIDIndexKey =>
          let indexListBytes := GetState stub1 "wandsIndexList"
          match unmarshalStrings indexListBytes with
          | Except.error e =>
            (Response.Error [Frag.str "Failed to unmarshal index list: ", Frag.err e], stub1)
          | Except.ok indexList =>
            let updatedIndexList :=
              updatedIndexListLoop typeIDIndexKey (Slice.toList indexList) (Slice.toList indexList) 0
            let updatedIndexListBytes := marshalStrings updatedIndexList
            let stub2 := PutState stub1 "wandsIndexList" updatedIndexListBytes
            let stub3 := deleteMaterialsLoop (Slice.toList wandToDelete.Materials) stub2
            (Response.Success Payload.nil, stub3)
  | _ =>
    (Response.Error [Frag.str "Incorrect number of arguments. Wand ID must be passed."], stub)

/-- Function `getMaterialIndexList` of the source: the bytes of the material index list
(a nil payload when the record is absent). -/
def getMaterialIndexList (stub : Store) : Response × Store :=
  match GetState stub "materialIndexList" with
  | none => (Response.Success Payload.nil, stub)
  | some materialIndexListBytes => (Response.Success (Payload.bytes materialIndexListBytes), stub)

/-- The loop of `getMaterialsByType` over the index list: every entry is split, the
record under its second attribute is fetched and decoded, and the material is kept when
its `Type` equals the requested one.  A missing record ends the loop with an error. -/
def materialsByTypeLoop (stub : Store) (typeIndex : String) :
    List String → Slice Material → Except Response (Slice Material)
  | [], materials => Except.ok materials
  | compositeKey :: rest, materials =>
    match SplitCompositeKey compositeKey with
    | none => Except.error Response.GoPanic
    | some (_, composite_parts) =>
      match composite_parts[1]? with
      | none => Except.error Response.GoPanic
      | some materialID =>
        match GetState stub materialID with
        | none =>
          Except.error (Response.Error [Frag.str "Material not found: ", Frag.str materialID])
        | some materialBytes =>
          match unmarshalMaterial materialBytes with
          | Except.error e =>
            Except.error (Response.Error
              [Frag.str "Failed to unmarshal material details: ", Frag.str "0", Frag.err e])
          | Except.ok material =>
            if material.Typ = typeIndex then
              materialsByTypeLoop stub typeIndex rest (Slice.append materials material)
            else materialsByTypeLoop stub typeIndex rest materials

/-- Function `getMaterialsByType` of the source: the materials of the given type at the
material index list. -/
def getMaterialsByType (stub : Store) (args : List String) : Response × Store :=
  match args with
  | [typeIndex] =>
    let materialIndexListBytes := GetState stub "materialIndexList"
    match unmarshalStrings materialIndexListBytes with
    | Except.error e =>
      (Response.Error [Frag.str "Failed to unmarshal material index list: ", Frag.err e], stub)
    | Except.ok materialIndexList =>
      match materialsByTypeLoop stub typeIndex (Slice.toList materialIndexList) none with
      | Except.error r => (r, stub)
      | Except.ok materials => (Response.Success (Payload.materials materials), stub)
  | _ =>
    (Response.Error
      [Frag.str "Incorrect number of arguments. Expecting type of the material to query"], stub)

/-- The loop of `getAllMaterials` (and of `getAllMaterialsAndIndexList`) over the index
list: an entry whose record is missing is passed over. -/
def allMaterialsLoop (stub : Store) :
    List String → Slice Material → Except Response (Slice Material)
  | [], materials => Except.ok materials
  | compositeKey :: rest, materials =>
    match SplitCompositeKey compositeKey with
    | none => Except.error Response.GoPanic
    | some (_, composite_parts) =>
      match composite_parts[1]? with
      | none => Except.error Response.GoPanic
      | some materialID =>
        match GetState stub materialID with
        | none => allMaterialsLoop stub rest materials
        | some materialBytes =>
          match unmarshalMaterial materialBytes with
          | Except.error e =>
            Except.error (Response.Error
              [Frag.str "Failed to unmarshal material details: ", Frag.err e])
          | Except.ok material => allMaterialsLoop stub rest (Slice.append materials material)

/-- Function `getAllMaterials` of the source: the materials at the material index list. -/
def getAllMaterials (stub : Store) : Response × Store :=
  let materialIndexListBytes := GetState stub "materialIndexList"
  match unmarshalStrings materialIndexListBytes with
  | Except.error e =>
    (Response.Error [Frag.str "Failed to unmarshal material index list: ", Frag.err e], stub)
  | Except.ok materialIndexList =>
    match allMaterialsLoop stub (Slice.toList materialIndexList) none with
    | Except.error r => (r, stub)
    | Except.ok materials => (Response.Success (Payload.materials materials), stub)

/-- The loop of `getNumberMaterialsByType` over the index list: every entry is split and
counted when its first attribute equals the requested type.  A key that has no attribute
makes `composite_parts[0]` panic. -/
def numberMaterialsLoop (typeIndex : String) : List String → Int → Except Response Int
  | [], numMaterials => Except.ok numMaterials
  | compositeKey :: rest, numMaterials =>
    match SplitCompositeKey compositeKey with
    | none => Except.error Response.GoPanic
    | some (_, composite_parts) =>
      match composite_parts[0]? with
      | none => Except.error Response.GoPanic
      | some materialType =>
        if materialType = typeIndex then numberMaterialsLoop typeIndex rest (numMaterials + 1)
        else numberMaterialsLoop typeIndex rest numMaterials

/-- Function `getNumberMaterialsByType` of the source: the number of entries of the given
type at the material index list. -/
def getNumberMaterialsByType (stub : Store) (args : List String) : Response × Store :=
  match args with
  | [typeIndex] =>
    let materialIndexListBytes := GetState stub "materialIndexList"
    match unmarshalStrings materialIndexListBytes with
    | Except.error e =>
      (Response.Error [Frag.str "Failed to unmarshal material index list: ", Frag.err e], stub)
    | Except.ok materialIndexList =>
      match numberMaterialsLoop typeIndex (Slice.toList materialIndexList) 0 with
      | Except.error r => (r, stub)
      | Except.ok numMaterials => (Response.Success (Payload.numMaterials numMaterials), stub)
  | _ =>
    (Response.Error
      [Frag.str "Incorrect number of arguments. Expecting type of the material to query"], stub)

/-- Function `getAllMaterialsAndIndexList` of the source: the materials at the material
index list together with the list. -/
def getAllMaterialsAndIndexList (stub : Store) : Response × Store :=
  let materialIndexListBytes := GetState stub "materialIndexList"
  match unmarshalStrings materialIndexListBytes with
  | Except.error e =>
    (Response.Error [Frag.str "Failed to unmarshal material index list: ", Frag.err e], stub)
  | Except.ok materialIndexList =>
    match allMaterialsLoop stub (Slice.toList materialIndexList) none with
    | Except.error r => (r, stub)
    | Except.ok allMaterials =>
      (Response.Success (Payload.materialsAndIndexList allMaterials materialIndexList), stub)

/-- The loop of `getWandsByType` over the wand index list: the record of every entry is
fetched and decoded, and the wand is kept when its `Type` equals the requested one.  A
missing record ends the loop with an error. -/
def wandsByTypeLoop (stub : Store) (typeIndex : String) :
    List String → Slice Wand → Except Response (Slice Wand)
  | [], wands => Except.ok wands
  | compositeKey :: rest, wands =>
    match SplitCompositeKey compositeKey with
    | none => Except.error Response.GoPanic
    | some (_, composite_parts) =>
      match composite_parts[1]? with
      | none => Except.error Response.GoPanic
      | some wandID =>
        match GetState stub wandID with
        | none => Except.error (Response.Error [Frag.str "Wand not found: ", Frag.str wandID])
        | some wandBytes =>
          match unmarshalWand wandBytes with
          | Except.error e =>
            Except.error (Response.Error
              [Frag.str "Failed to unmarshal wand details: ", Frag.err e])
          | Except.ok wand =>
            if wand.Typ = typeIndex then
              wandsByTypeLoop stub typeIndex rest (Slice.append wands wand)
            else wandsByTypeLoop stub typeIndex rest wands

/-- Function `getWandsByType` of the source: the wands of the given type at the wand index
list. -/
def getWandsByType (stub : Store) (args : List String) : Response × Store :=
  match args with
  | [typeIndex] =>
    let wandsIndexListBytes := GetState stub "wandsIndexList"
    match unmarshalStrings wandsIndexListBytes with
    | Except.error e =>
      (Response.Error [Frag.str "Failed to unmarshal wands index list: ", Frag.err e], stub)
    | Except.ok wandsIndexList =>
      match wandsByTypeLoop stub typeIndex (Slice.toList wandsIndexList) none with
      | Except.error r => (r, stub)
      | Except.ok wands => (Response.Success (Payload.wands wands), stub)
  | _ =>
    (Response.Error
      [Frag.str "Incorrect number of arguments. Expecting type of the wand to query"], stub)

/-- The loop of `getAllWands` over the wand index list: the record of every entry is
fetched and decoded; a missing record ends the loop with an error. -/
def allWandsLoop (stub : Store) : List String → Slice Wand → Except Response (Slice Wand)
  | [], wands => Except.ok wands
  | compositeKey :: rest, wands =>
    match SplitCompositeKey compositeKey with
    | none => Except.error Response.GoPanic
    | some (_, composite_parts) =>
      match composite_parts[1]? with
      | none => Except.error Response.GoPanic
      | some wandID =>
        match GetState stub wandID with
        | none => Except.error (Response.Error [Frag.str "Wand not found: ", Frag.str wandID])
        | some wandBytes =>
          match unmarshalWand wandBytes with
          | Except.error e =>
            Except.error (Response.Error
              [Frag.str "Failed to unmarshal wand details: ", Frag.err e])
          | Except.ok wand => allWandsLoop stub rest (Slice.append wands wand)

/-- Function `getAllWands` of the source: the wands at the wand index list. -/
def getAllWands (stub : Store) : Response × Store :=
  let wandsIndexListBytes := GetState stub "wandsIndexList"
  match unmarshalStrings wandsIndexListBytes with
  | Except.error e =>
    (Response.Error [Frag.str "Failed to unmarshal wands index list: ", Frag.err e], stub)
  | Except.ok wandsIndexList =>
    match allWandsLoop stub (Slice.toList wandsIndexList) none with
    | Except.error r => (r, stub)
    | Except.ok wands => (Response.Success (Payload.wands wands), stub)

/-- The loop of `getNumberwandsByType` over the wand index list: the record of every entry
is fetched and decoded, and counted when its `Type` equals the requested one; a missing
record ends the loop with an error. -/
def numberWandsLoop (stub : Store) (typeIndex : String) : List String → Int → Except Response Int
  | [], num_wands => Except.ok num_wands
  | compositeKey :: rest, num_wands =>
    match SplitCompositeKey compositeKey with
    | none => Except.error Response.GoPanic
    | some (_, composite_parts) =>
      match composite_parts[1]? with
      | none => Except.error Response.GoPanic
      | some wandID =>
        match GetState stub wandID with
        | none => Except.error (Response.Error [Frag.str "wand not found: ", Frag.str wandID])
        | some wandBytes =>
          match unmarshalWand wandBytes with
          | Except.error e =>
            Except.error (Response.Error
              [Frag.str "Failed to unmarshal wand details: ", Frag.err e])
          | Except.ok wand =>
            if wand.Typ = typeIndex then numberWandsLoop stub typeIndex rest (num_wands + 1)
            else numberWandsLoop stub typeIndex rest num_wands

/-- Function `getNumberwandsByType` of the source: the number of wands of the given type
at the wand index list. -/
def getNumberwandsByType (stub : Store) (args : List String) : Response × Store :=
  match args with
  | [typeIndex] =>
    let wandsIndexListBytes := GetState stub "wandsIndexList"
    match unmarshalStrings wandsIndexListBytes with
    | Except.error e =>
      (Response.Error [Frag.str "Failed to unmarshal wand index list: ", Frag.err e], stub)
    | Except.ok wandsIndexList =>
      match numberWandsLoop stub typeIndex (Slice.toList wandsIndexList) 0 with
      | Except.error r => (r, stub)
      | Except.ok num_wands => (Response.Success (Payload.numWands num_wands), stub)
  | _ =>
    (Response.Error
      [Frag.str "Incorrect number of arguments. Expecting type of the wands to query the number"],
      stub)

/-- Function `getTotalNumberOfWands` of the source: the length of the wand index list. -/
def getTotalNumberOfWands (stub : Store) : Response × Store :=
  let wandsIndexListBytes := GetState stub "wandsIndexList"
  match unmarshalStrings wandsIndexListBytes with
  | Except.error e =>
    (Response.Error [Frag.str "Failed to unmarshal wand index list: ", Frag.err e], stub)
  | Except.ok wandsIndexList =>
    let num_wands := Slice.len wandsIndexList
    (Response.Success (Payload.numWands (num_wands : Int)), stub)

/-- Function `Invoke` of the source: the switch on the function name. -/
def Invoke (stub : Store) (function : String) (args : List String) : Response × Store :=
  if function = "initMaterial" then initMaterial stub args
  else if function = "readMaterial" then readMaterial stub args
  else if function = "getMaterialsByType" then getMaterialsByType stub args
  else if function = "getAllMaterials" then getAllMaterials stub
  else if function = "getNumberMaterialsByType" then getNumberMaterialsByType stub args
  else if function = "getTotalNumberOfMaterials" then getTotalNumberOfMaterials stub
  else if function = "deleteMaterial" then deleteMaterial stub args
  else if function = "getAllMaterialsAndIndexList" then getAllMaterialsAndIndexList stub
  else if function = "getMaterialIndexList" then getMaterialIndexList stub
  else if function = "initWand" then initWand stub args
  else if function = "readWand" then readWand stub args
  else if function = "getWandsByType" then getWandsByType stub args
  else if function = "getAllWands" then getAllWands stub
  else if function = "getNumberWandsByType" then getNumberwandsByType stub args
  else if function = "getTotalNumberOfWands" then getTotalNumberOfWands stub
  else if function = "deleteWand" then deletewand stub args
  else (Response.Error [Frag.str "Received unknown function invocation"], stub)

end Studio

/-! ## Reading the store -/

namespace Studio

/-- The list spelled by the record under `key`, when that record can be decoded as a list
of strings (`null` spells the empty list). -/
def storedList (stub : Store) (key : String) : Option (List String) :=
  match unmarshalStrings (stub key) with
  | Except.ok l => some (Slice.toList l)
  | Except.error _ => none

/-- The id part of an index entry: the second attribute of the decoded composite key. -/
def entryID (compositeKey : String) : Option String :=
  match SplitCompositeKey compositeKey with
  | none => none
  | some (_, composite_parts) => composite_parts[1]?

/-- The specification of the removal made for one material id: the list without the first
entry whose decoded id part equals the id, all other entries kept in their order. -/
def removeFirstWithID (materialID : String) : List String → List String
  | [] => []
  | entry :: rest =>
    if entryID entry = some materialID then rest
    else entry :: removeFirstWithID materialID rest

/-- The message with which `initWand` reports a material id that is not indexed. -/
def materialNotIndexed (materialID : String) : Response :=
  Response.Error
    [Frag.str "Material ID not found in the material index list: ", Frag.str materialID]

/-! ## Scenarios -/

/-- The initialised store: `Init` on the store with no record. -/
def initialised : Store := (Init emptyStore).2

/-- Scenario B, first step: material `M1` of type `wood` from supplier `S1`. -/
def scenarioB1 : Store := (initMaterial initialised ["M1", "wood", "S1"]).2

/-- Scenario B, second step: material `M2` of type `wood` from supplier `S1`. -/
def scenarioB2 : Store := (initMaterial scenarioB1 ["M2", "wood", "S1"]).2

/-- The arguments of the wand of scenario B. -/
def wandW1Args : List String := ["W1", "standard", "brown", "10", "2", "M1", "M2"]

/-- Scenario B, third step: wand `W1` made of `M1` and `M2`. -/
def scenarioB3 : Store := (initWand scenarioB2 wandW1Args).2

/-- The composite key of a type and an id (the empty string when the shim rejects them). -/
def typeIDKey (ty id : String) : String :=
  match CreateCompositeKey "type~ID" [ty, id] with
  | Except.ok key => key
  | Except.error _ => ""

/-- A store with the wands `W1` and `W2` in which only `W2` is indexed. -/
def unindexedWandStore : Store :=
  PutState
    (PutState
      (PutState emptyStore "W1" (Bytes.wand ⟨"Wand", "W1", "standard", "brown", 10, none⟩))
      "W2" (Bytes.wand ⟨"Wand", "W2", "standard", "black", 12, none⟩))
    "wandsIndexList" (Bytes.strings [typeIDKey "standard" "W2"])

/-! ## Reading the index lists -/

/-- The type part of an index entry: the first attribute of the decoded composite key. -/
def entryType (compositeKey : String) : Option String :=
  match SplitCompositeKey compositeKey with
  | none => none
  | some (_, composite_parts) => composite_parts[0]?

/-- The material on record for an index entry: the record under the id part of the entry,
decoded as a `Material`; `none` when the entry has no id part, the record is missing or
it does not decode. -/
def entryMaterial (stub : Store) (entry : String) : Option Material :=
  match entryID entry with
  | none => none
  | some id =>
    match stub id with
    | none => none
    | some b =>
      match unmarshalMaterial b with
      | Except.ok m => some m
      | Except.error _ => none

/-- The wand on record for an index entry: the record under the id part of the entry,
decoded as a `Wand`. -/
def entryWand (stub : Store) (entry : String) : Option Wand :=
  match entryID entry with
  | none => none
  | some id =>
    match stub id with
    | none => none
    | some b =>
      match unmarshalWand b with
      | Except.ok w => some w
      | Except.error _ => none

/-- The Go slice that holds the elements appended one by one to a nil slice: nil when
nothing was appended. -/
def sliceOf {α : Type} : List α → Slice α
  | [] => none
  | x :: xs => some (x :: xs)

/-- The material index list of a store, taken as empty when the record is absent or is
not a list. -/
def materialIndex (stub : Store) : List String :=
  (storedList stub "materialIndexList").getD []

/-- The wand index list of a store, taken as empty when the record is absent or is not a
list. -/
def wandIndex (stub : Store) : List String :=
  (storedList stub "wandsIndexList").getD []

/-! ## Histories of calls -/

/-- A call of one of the four operations that write entities, with its arguments. -/
inductive Call where
  | initMaterial (args : List String)
  | deleteMaterial (args : List String)
  | initWand (args : List String)
  | deleteWand (args : List String)
deriving DecidableEq, Repr

/-- The operation of the chaincode that a call invokes. -/
def Call.run : Call → Store → Response × Store
  | Call.initMaterial args, stub => Studio.initMaterial stub args
  | Call.deleteMaterial args, stub => Studio.deleteMaterial stub args
  | Call.initWand args, stub => Studio.initWand stub args
  | Call.deleteWand args, stub => Studio.deletewand stub args

/-- The material ids an `initWand` call references: what the argument loop of the source
collects from the arguments. -/
def wandMaterials (args : List String) : List String :=
  match args with
  | _ :: _ :: _ :: _ :: arg4 :: _ =>
    match Atoi arg4 with
    | Except.error _ => []
    | Except.ok num_materials =>
      match materialsLoop args (wrapInt64 (5 + num_materials) - 5).toNat 5 none with
      | none => []
      | some materials => Slice.toList materials
  | _ => []

/-- The ids that have an entry in the material index list. -/
def indexedIDs (stub : Store) : List String :=
  (materialIndex stub).filterMap entryID

/-- A call is admitted when a delete is applied to an id of its own kind
(`deleteMaterial` to a Material record, `deleteWand` to a Wand record) and the wand to
delete lists no id that has an entry in the material index list at that moment. -/
def Call.admitted : Call → Store → Bool
  | Call.deleteMaterial [id], stub =>
    match stub id with
    | some (Bytes.material _) => true
    | _ => false
  | Call.deleteWand [id], stub =>
    match stub id with
    | some (Bytes.wand w) => (Slice.toList w.Materials).all (fun m => !(indexedIDs stub).contains m)
    | _ => false
  | Call.deleteMaterial _, _ => false
  | Call.deleteWand _, _ => false
  | _, _ => true

/-- The store reached by a sequence of calls, each admitted and successful; `none` when a
call is not admitted or does not succeed. -/
def runCalls : List Call → Store → Option Store
  | [], stub => some stub
  | c :: cs, stub =>
    if c.admitted stub && (c.run stub).1.isSuccess then runCalls cs (c.run stub).2 else none

/-- The books kept along a history of successful calls: the materials created and not
since deleted nor consumed by a wand creation, in the order of their creation; the number
of material creations; the number of material deletions that hit a material still in the
books; the number of material ids consumed by wand creations. -/
structure Books where
  available : List Material
  created : Nat
  deletedAvailable : Nat
  consumed : Nat
deriving DecidableEq, Repr

/-- The books after one more successful call. -/
def Books.record (b : Books) : Call → Books
  | Call.initMaterial [id, ty, sup] =>
    { available := b.available ++ [⟨"Material", id, ty, sup⟩], created := b.created + 1,
      deletedAvailable := b.deletedAvailable, consumed := b.consumed }
  | Call.deleteMaterial [id] =>
    { available := b.available.filter (fun m => m.ID ≠ id), created := b.created,
      deletedAvailable :=
        b.deletedAvailable + (if id ∈ b.available.map (fun m => m.ID) then 1 else 0),
      consumed := b.consumed }
  | Call.initWand args =>
    { available := b.available.filter (fun m => m.ID ∉ wandMaterials args),
      created := b.created, deletedAvailable := b.deletedAvailable,
      consumed := b.consumed + (wandMaterials args).length }
  | _ => b

/-- The books at the initialised store. -/
def Books.empty : Books := { available := [], created := 0, deletedAvailable := 0, consumed := 0 }

/-- The books after a history of successful calls from the initialised store. -/
def booksAfter (calls : List Call) : Books := calls.foldl Books.record Books.empty

/-! ## More scenarios -/

/-- A history with a `deleteWand` on the id of a material: `M1` is created, removed by
`deleteWand(M1)`, and created again with another type. -/
def retypedCalls : List Call :=
  [Call.initMaterial ["M1", "wood", "S1"], Call.deleteWand ["M1"],
   Call.initMaterial ["M1", "stone", "S2"]]

/-- The store after `retypedCalls` (every call run, whatever its response). -/
def retypedStore : Store :=
  (initMaterial (deletewand (initMaterial initialised ["M1", "wood", "S1"]).2 ["M1"]).2
    ["M1", "stone", "S2"]).2

/-- A history in which every delete is applied to an id of its own kind: `M1` is created,
consumed by the wand `W1`, deleted, created again, and then `W1` is deleted. -/
def recreatedCalls : List Call :=
  [Call.initMaterial ["M1", "wood", "S1"],
   Call.initWand ["W1", "standard", "brown", "10", "1", "M1"],
   Call.deleteMaterial ["M1"],
   Call.initMaterial ["M1", "wood", "S1"],
   Call.deleteWand ["W1"]]

/-- The store reached by a history, each call run on the store left by the one before
(whatever its response). -/
def runAll : List Call → Store → Store
  | [], stub => stub
  | c :: cs, stub => runAll cs (c.run stub).2

/-- A store in which the first index entry points at the record of the wand index list
(an array, which does not decode as a `Material`) and the second at the missing `M1`. -/
def undecodableFirstStore : Store :=
  PutState
    (PutState emptyStore "wandsIndexList" (Bytes.strings []))
    "materialIndexList"
    (Bytes.strings [typeIDKey "wood" "wandsIndexList", typeIDKey "wood" "M1"])

/-- Scenario B followed by `deleteMaterial(W1)`: the record of the wand is gone and its
entry of the wand index list stays. -/
def danglingWandStore : Store := (deleteMaterial scenarioB3 ["W1"]).2

/-- A history that leaves the record of the wand index list (an array) under an id that
has an entry in the material index list, followed by an entry whose record is missing:
the key `wandsIndexList` is freed, a material is created under it and removed again, `M1`
is created and removed by `deleteWand(M1)`, and the creation of `W1` writes the wand index
list anew. -/
def driftCalls : List Call :=
  [Call.deleteMaterial ["wandsIndexList"],
   Call.initMaterial ["wandsIndexList", "wood", "S1"],
   Call.deleteWand ["wandsIndexList"],
   Call.initMaterial ["M1", "wood", "S1"],
   Call.deleteWand ["M1"],
   Call.initWand ["W1", "standard", "brown", "10", "0", "-"]]

/-- The store after `driftCalls` from the initialised store. -/
def driftStore : Store := runAll driftCalls initialised

/-- A history with a `deleteWand` on the id of a material. -/
def crossKindCalls : List Call :=
  [Call.initMaterial ["M1", "wood", "S1"], Call.deleteWand ["M1"]]

/-- Whether every call of a history succeeds, each run on the store left by the one
before. -/
def succeedAll : List Call → Store → Bool
  | [], _ => true
  | c :: cs, stub => (c.run stub).1.isSuccess && succeedAll cs (c.run stub).2

/-- The history of scenario B. -/
def scenarioBCalls : List Call :=
  [Call.initMaterial ["M1", "wood", "S1"], Call.initMaterial ["M2", "wood", "S1"],
   Call.initWand wandW1Args]

/-- A history of admitted calls: three materials are created, the first is consumed by
the wand `W1`, the second is deleted, and `W1` is deleted. -/
def workshopCalls : List Call :=
  [Call.initMaterial ["M1", "wood", "S1"],
   Call.initMaterial ["M2", "stone", "S1"],
   Call.initMaterial ["M3", "wood", "S2"],
   Call.initWand ["W1", "standard", "brown", "10", "1", "M1"],
   Call.deleteMaterial ["M2"],
   Call.deleteWand ["W1"]]

/-- The store after `workshopCalls` from the initialised store. -/
def workshopStore : Store := runAll workshopCalls initialised

/-! ## The books and the store -/

/-- The composite key of a material: the key of its type and its id. -/
def materialKey (m : Material) : String := typeIDKey m.Typ m.ID

/-- The books agree with a store: the material index list holds the composite keys of the
materials in the books, in their order; each of them has its record under its id and
attributes the shim accepts; their ids are pairwise distinct; every Material record is
stored under its own id; the wand index list is readable; no Wand record lists the key of
an index list among its materials; and the counts add up. -/
structure Agrees (stub : Store) (b : Books) : Prop where
  valid : ∀ m, m ∈ b.available →
    validateCompositeKeyAttribute m.Typ = Except.ok () ∧
    validateCompositeKeyAttribute m.ID = Except.ok ()
  index : storedList stub "materialIndexList" = some (b.available.map materialKey)
  body : ∀ m, m ∈ b.available → stub m.ID = some (Bytes.material m)
  nodup : (b.available.map (fun m => m.ID)).Nodup
  ids : ∀ k m, stub k = some (Bytes.material m) → m.ID = k
  wandIndexReadable : (storedList stub "wandsIndexList").isSome = true
  wandMaterials : ∀ k w, stub k = some (Bytes.wand w) →
    "materialIndexList" ∉ Slice.toList w.Materials ∧
    "wandsIndexList" ∉ Slice.toList w.Materials
  count : b.available.length + b.deletedAvailable + b.consumed = b.created

/-- The number of `initWand` calls in a history. -/
def wandsCreated : List Call → Nat
  | [] => 0
  | Call.initWand _ :: cs => wandsCreated cs + 1
  | _ :: cs => wandsCreated cs

/-- The number of `deleteWand` calls in a history. -/
def wandsDeleted : List Call → Nat
  | [] => 0
  | Call.deleteWand _ :: cs => wandsDeleted cs + 1
  | _ :: cs => wandsDeleted cs

/-- The wand index list agrees with the store and with the numbers of wand creations and
deletions: the list is readable, every Wand record is stored under its own id with
attributes the shim accepts and has its composite key in the list, and the length of the
list is the number of creations minus the number of deletions. -/
structure WandsAgree (stub : Store) (created deleted : Nat) : Prop where
  keys : ∀ k w, stub k = some (Bytes.wand w) →
    w.ID = k ∧
    validateCompositeKeyAttribute w.Typ = Except.ok () ∧
    validateCompositeKeyAttribute w.ID = Except.ok () ∧
    typeIDKey w.Typ w.ID ∈ wandIndex stub
  count : (wandIndex stub).length + deleted = created

/-! ## Malformed counts, kinds and the index invariant -/

/-- The arguments of a wand creation whose count argument is the largest 64-bit integer. -/
def wrappingCountArgs : List String :=
  ["W1", "standard", "brown", "10", "9223372036854775807", "M1"]

/-- The arguments of a wand creation whose count argument is negative. -/
def negativeCountArgs : List String := ["W1", "standard", "brown", "10", "-1", "M1"]

/-- The function names under which `Invoke` dispatches the twelve queries. -/
def queryNames : List String :=
  ["readMaterial", "readWand", "getMaterialIndexList", "getMaterialsByType", "getAllMaterials",
   "getNumberMaterialsByType", "getTotalNumberOfMaterials", "getAllMaterialsAndIndexList",
   "getWandsByType", "getAllWands", "getNumberWandsByType", "getTotalNumberOfWands"]

/-- A delete is applied to an id of its own kind: `deleteMaterial` to the id of a stored
Material record, `deleteWand` to the id of a stored Wand record. -/
def Call.ownKind : Call → Store → Bool
  | Call.deleteMaterial [id], stub =>
    match stub id with
    | some (Bytes.material _) => true
    | _ => false
  | Call.deleteWand [id], stub =>
    match stub id with
    | some (Bytes.wand _) => true
    | _ => false
  | Call.deleteMaterial _, _ => false
  | Call.deleteWand _, _ => false
  | _, _ => true

/-- Whether every delete of a history is applied to an id of its own kind, each call run
on the store left by the one before. -/
def ownKindAll : List Call → Store → Bool
  | [], _ => true
  | c :: cs, stub => c.ownKind stub && ownKindAll cs (c.run stub).2

/-- The store reached by a sequence of admitted calls, each run on the store left by the
one before whatever its response; `none` when a call is not admitted. -/
def runAdmitted : List Call → Store → Option Store
  | [], stub => some stub
  | c :: cs, stub => if c.admitted stub then runAdmitted cs (c.run stub).2 else none

/-- The material index list of a store is sound for a list of materials: its entries are
the composite keys of these materials, in their order; each of them has attributes the
shim accepts and its record under its id; their ids are pairwise distinct; and every
Material record of the store is stored under its own id with docType `Material`. -/
structure IndexSound (stub : Store) (ms : List Material) : Prop where
  index : materialIndex stub = ms.map materialKey
  valid : ∀ m, m ∈ ms →
    validateCompositeKeyAttribute m.Typ = Except.ok () ∧
    validateCompositeKeyAttribute m.ID = Except.ok ()
  body : ∀ m, m ∈ ms → stub m.ID = some (Bytes.material m)
  nodup : (ms.map (fun m => m.ID)).Nodup
  ids : ∀ k m, stub k = some (Bytes.material m) → m.ID = k ∧ m.ObjectType = "Material"

/-- A history with a failed call: the creation of `W1` names the material `M9`, which is
not indexed, so it fails and leaves the record of `W1` and its index entry behind; `W1`
is then deleted. -/
def failedWandCalls : List Call :=
  [Call.initMaterial ["M1", "wood", "S1"],
   Call.initWand ["W1", "standard", "brown", "10", "1", "M9"],
   Call.deleteWand ["W1"]]

/-! ## Requests -/

/-- A request to the chaincode: the initialisation, or the invocation of a function by
its name with its arguments. -/
inductive Request where
  | init
  | invoke (function : String) (args : List String)
deriving DecidableEq, Repr

/-- The function of the chaincode that serves a request. -/
def Request.run : Request → Store → Response × Store
  | Request.init, stub => Init stub
  | Request.invoke function args, stub => Invoke stub function args

/-- The store left by a sequence of requests, each served on the store left by the one
before (whatever its response). -/
def runRequests : List Request → Store → Store
  | [], stub => stub
  | r :: rs, stub => runRequests rs (r.run stub).2

/-- Requests after which the entry of `M1` has no record: `M1` and `M2` are created and
`deleteWand(M1)` removes the record of `M1`. -/
def missingRecordRequests : List Request :=
  [Request.init,
   Request.invoke "initMaterial" ["M1", "wood", "S1"],
   Request.invoke "initMaterial" ["M2", "wood", "S1"],
   Request.invoke "deleteWand" ["M1"]]

/-! ## Basic facts -/

theorem getState_putState_same (stub : Store) (k : String) (v : Bytes) :
    PutState stub k v k = some v := by
  simp [PutState]

theorem getState_putState_other (stub : Store) (k k2 : String) (v : Bytes) (h : k2 ≠ k) :
    PutState stub k v k2 = stub k2 := by
  simp [PutState, h]

theorem getState_delState_same (stub : Store) (k : String) : DelState stub k k = none := by
  simp [DelState]

theorem getState_delState_other (stub : Store) (k k2 : String) (h : k2 ≠ k) :
    DelState stub k k2 = stub k2 := by
  simp [DelState, h]

theorem compositeKey_two (objectType a b key : String)
    (h : CreateCompositeKey objectType [a, b] = Except.ok key) :
    key = String.singleton minUnicodeRuneValue ++ objectType ++ String.singleton minUnicodeRuneValue
      ++ a ++ String.singleton minUnicodeRuneValue ++ b ++ String.singleton minUnicodeRuneValue := by
  unfold CreateCompositeKey at h
  split at h
  · simp at h
  · simp only [compositeKeyAttributes] at h
    split at h
    · simp at h
    · split at h
      · simp at h
      · simpa using h.symm

theorem compositeKey_two_data (objectType a b key : String)
    (h : CreateCompositeKey objectType [a, b] = Except.ok key) :
    key.data = minUnicodeRuneValue :: (objectType.data ++ minUnicodeRuneValue :: (a.data ++
      minUnicodeRuneValue :: (b.data ++ [minUnicodeRuneValue]))) := by
  rw [compositeKey_two objectType a b key h]
  simp [String.singleton]

theorem compositeKey_ne_materialIndexList (objectType a b key : String)
    (h : CreateCompositeKey objectType [a, b] = Except.ok key) : key ≠ "materialIndexList" := by
  intro heq
  have hd := compositeKey_two_data objectType a b key h
  rw [heq] at hd
  have h0 := congrArg List.head? hd
  simp only [List.head?_cons] at h0
  revert h0
  decide

theorem compositeKey_ne_wandsIndexList (objectType a b key : String)
    (h : CreateCompositeKey objectType [a, b] = Except.ok key) : key ≠ "wandsIndexList" := by
  intro heq
  have hd := compositeKey_two_data objectType a b key h
  rw [heq] at hd
  have h0 := congrArg List.head? hd
  simp only [List.head?_cons] at h0
  revert h0
  decide

theorem compositeKey_ne_second (objectType a b key : String)
    (h : CreateCompositeKey objectType [a, b] = Except.ok key) : key ≠ b := by
  intro heq
  have hd := compositeKey_two_data objectType a b key h
  rw [heq] at hd
  have h0 := congrArg List.length hd
  simp at h0
  omega

/-- Closed form of a successful `initMaterial`. -/
theorem initMaterial_success (stub : Store) (args : List String) (p : Payload)
    (h : (initMaterial stub args).1 = Response.Success p) :
    ∃ id ty sup key indexList,
      args = [id, ty, sup] ∧ id ≠ "" ∧ stub id = none ∧
      CreateCompositeKey "type~ID" [ty, id] = Except.ok key ∧
      unmarshalIfPresent (PutState stub id (Bytes.material ⟨"Material", id, ty, sup⟩)
        "materialIndexList") = Except.ok indexList ∧
      initMaterial stub args =
        (Response.Success (Payload.bytes (marshalStrings (Slice.append indexList key))),
         PutState (PutState (PutState stub id (Bytes.material ⟨"Material", id, ty, sup⟩))
           "materialIndexList" (marshalStrings (Slice.append indexList key))) key Bytes.sentinel) := by
  unfold initMaterial at h ⊢
  split at h
  · rename_i id ty sup
    refine ⟨id, ty, sup, ?_⟩
    split at h
    · simp at h
    · rename_i hid
      simp only [GetState] at h ⊢
      split at h
      · simp at h
      · rename_i hnone
        split at h
        · simp at h
        · rename_i key hkey
          split at h
          · simp at h
          · rename_i indexList hdec
            refine ⟨key, indexList, ?_, hid, hnone, hkey, hdec, ?_⟩
            · first | rfl | trivial
            · simp [hid, hnone, hkey, hdec]
  · simp at h

/-- Closed form of an `initWand` that gets as far as the loop over the materials: it
succeeds or reports a material id that is not indexed. -/
theorem initWand_reaches_loop (stub : Store) (args : List String) (m : String)
    (h : (initWand stub args).1.isSuccess = true ∨
         (initWand stub args).1 = materialNotIndexed m) :
    ∃ wandID wandType wandColor arg3 arg4 arg5 rest wandSize num_materials materials key
        wandsIndexList materialIndexList,
      args = wandID :: wandType :: wandColor :: arg3 :: arg4 :: arg5 :: rest ∧
      Atoi arg3 = Except.ok wandSize ∧ Atoi arg4 = Except.ok num_materials ∧
      materialsLoop args (wrapInt64 (5 + num_materials) - 5).toNat 5 none = some materials ∧
      wandID ≠ "" ∧ stub wandID = none ∧
      CreateCompositeKey "type~ID" [wandType, wandID] = Except.ok key ∧
      unmarshalIfPresent
        (PutState stub wandID
          (Bytes.wand ⟨"Wand", wandID, wandType, wandColor, wandSize, materials⟩)
          "wandsIndexList") = Except.ok wandsIndexList ∧
      unmarshalStrings
        (PutState (PutState stub wandID
          (Bytes.wand ⟨"Wand", wandID, wandType, wandColor, wandSize, materials⟩))
          "wandsIndexList" (marshalStrings (Slice.append wandsIndexList key))
          "materialIndexList") = Except.ok materialIndexList ∧
      initWand stub args =
        (match consumeMaterials (Slice.toList materials) materialIndexList with
         | Except.error r =>
           (r, PutState (PutState stub wandID
              (Bytes.wand ⟨"Wand", wandID, wandType, wandColor, wandSize, materials⟩))
              "wandsIndexList" (marshalStrings (Slice.append wandsIndexList key)))
         | Except.ok updated =>
           (Response.Success Payload.nil,
            PutState (PutState (PutState stub wandID
              (Bytes.wand ⟨"Wand", wandID, wandType, wandColor, wandSize, materials⟩))
              "wandsIndexList" (marshalStrings (Slice.append wandsIndexList key)))
              "materialIndexList" (marshalStrings updated))) := by
  unfold initWand at h ⊢
  unfold materialNotIndexed at h
  split at h
  · rename_i wandID wandType wandColor arg3 arg4 arg5 rest
    refine ⟨wandID, wandType, wandColor, arg3, arg4, arg5, rest, ?_⟩
    split at h
    · simp [Response.isSuccess] at h
    · rename_i wandSize hsize
      split at h
      · simp [Response.isSuccess] at h
      · rename_i num hnum
        split at h
        · simp [Response.isSuccess] at h
        · rename_i materials hloop
          split at h
          · simp [Response.isSuccess] at h
          · rename_i hid
            simp only [GetState] at h ⊢
            split at h
            · simp [Response.isSuccess] at h
            · rename_i hnone
              split at h
              · simp [Response.isSuccess] at h
              · rename_i key hkey
                split at h
                · simp [Response.isSuccess] at h
                · rename_i wl hwl
                  split at h
                  · simp [Response.isSuccess] at h
                  · rename_i ml hml
                    refine ⟨wandSize, num, materials, key, wl, ml, ?_, hsize, hnum, hloop, hid,
                      hnone, hkey, hwl, hml, ?_⟩
                    · first | rfl | trivial
                    · simp only [hsize, hnum, hloop, hid, hnone, hkey, hwl, hml, if_false]
  · simp [Response.isSuccess] at h

theorem wrapInt64_of_inRange (x : Int) (h0 : 0 ≤ x) (h1 : x < (2 : Int) ^ 63) :
    wrapInt64 x = x := by
  unfold wrapInt64
  have e63 : (2 : Int) ^ 63 = 9223372036854775808 := by norm_num
  have e64 : (2 : Int) ^ 64 = 18446744073709551616 := by norm_num
  rw [e63] at h1
  rw [e63, e64]
  omega

/-- What the argument loop of `initWand` collects when it does not panic. -/
theorem materialsLoop_some (args : List String) :
    ∀ (k i : Nat) (acc r : Slice String), materialsLoop args k i acc = some r →
      Slice.toList r = Slice.toList acc ++ (args.drop i).take k := by
  intro k
  induction k with
  | zero =>
    intro i acc r h
    simp [materialsLoop] at h
    simp [h]
  | succ k ih =>
    intro i acc r h
    simp only [materialsLoop] at h
    split at h
    · simp at h
    · rename_i a ha
      have h2 := ih (i + 1) (Slice.append acc a) r h
      rw [h2]
      have hlt : i < args.length := by
        by_contra hge
        have : args[i]? = none := by
          apply List.getElem?_eq_none
          omega
        rw [this] at ha
        simp at ha
      have hd : args.drop i = a :: args.drop (i + 1) := by
        rw [List.drop_eq_getElem_cons hlt]
        congr 1
        rw [List.getElem?_eq_getElem hlt] at ha
        exact Option.some.inj ha
      rw [hd]
      simp [Slice.append, Slice.toList]

/-- A decodable list under a key that a record was just put under: the key is another. -/
theorem unmarshalIfPresent_put_wand (stub : Store) (k key : String) (w : Wand)
    (l : Slice String) (h : unmarshalIfPresent (PutState stub k (Bytes.wand w) key) = Except.ok l) :
    k ≠ key := by
  intro heq
  subst heq
  rw [getState_putState_same] at h
  simp [unmarshalIfPresent, unmarshalStrings] at h

theorem unmarshalIfPresent_put_material (stub : Store) (k key : String) (m : Material)
    (l : Slice String)
    (h : unmarshalIfPresent (PutState stub k (Bytes.material m) key) = Except.ok l) :
    k ≠ key := by
  intro heq
  subst heq
  rw [getState_putState_same] at h
  simp [unmarshalIfPresent, unmarshalStrings] at h

theorem unmarshalIfPresent_ok (b : Option Bytes) (l : Slice String)
    (h : unmarshalIfPresent b = Except.ok l) :
    (b = none ∧ l = none) ∨ (b ≠ none ∧ unmarshalStrings b = Except.ok l) := by
  cases b with
  | none =>
    left
    simp [unmarshalIfPresent] at h
    exact ⟨rfl, h.symm⟩
  | some v =>
    right
    exact ⟨by simp, h⟩

theorem storedList_of_unmarshal (stub : Store) (key : String) (l : Slice String)
    (h : unmarshalStrings (stub key) = Except.ok l) :
    storedList stub key = some (Slice.toList l) := by
  simp [storedList, h]

/-- C10: a successful `initMaterial(id, type, supplier)` leaves the Material body under
`id`, the material index list equal to the previous list (empty when the record was
absent) followed by the composite key of `(type, id)`, the byte `0x00` under that
composite key, every other key as it was, and returns the serialisation of the updated
index list. -/
theorem C10_initMaterial_writes (stub : Store) (args : List String) (p : Payload)
    (h : (initMaterial stub args).1 = Response.Success p) :
    ∃ id ty sup key previous,
      args = [id, ty, sup] ∧
      CreateCompositeKey "type~ID" [ty, id] = Except.ok key ∧
      ((stub "materialIndexList" = none ∧ previous = []) ∨
        (stub "materialIndexList" ≠ none ∧ storedList stub "materialIndexList" = some previous)) ∧
      (initMaterial stub args).2 id = some (Bytes.material ⟨"Material", id, ty, sup⟩) ∧
      (initMaterial stub args).2 "materialIndexList" = some (marshalStrings (some (previous ++ [key]))) ∧
      storedList (initMaterial stub args).2 "materialIndexList" = some (previous ++ [key]) ∧
      (initMaterial stub args).2 key = some Bytes.sentinel ∧
      (∀ k, k ≠ id → k ≠ "materialIndexList" → k ≠ key → (initMaterial stub args).2 k = stub k) ∧
      p = Payload.bytes (marshalStrings (some (previous ++ [key]))) := by
  obtain ⟨id, ty, sup, key, indexList, hargs, _, _, hkey, hdec, hrun⟩ :=
    initMaterial_success stub args p h
  have hidx : id ≠ "materialIndexList" := unmarshalIfPresent_put_material _ _ _ _ _ hdec
  have hk1 : key ≠ "materialIndexList" := compositeKey_ne_materialIndexList _ _ _ _ hkey
  have hk2 : key ≠ id := compositeKey_ne_second _ _ _ _ hkey
  rw [getState_putState_other _ _ _ _ (Ne.symm hidx)] at hdec
  rw [hrun] at h
  refine ⟨id, ty, sup, key, Slice.toList indexList, hargs, hkey, ?_, ?_, ?_, ?_, ?_, ?_, ?_⟩
  · rcases unmarshalIfPresent_ok _ _ hdec with ⟨h1, h2⟩ | ⟨h1, h2⟩
    · left
      exact ⟨h1, by simp [h2, Slice.toList]⟩
    · right
      exact ⟨h1, storedList_of_unmarshal _ _ _ h2⟩
  · rw [hrun]
    simp [PutState, Ne.symm hk2, hidx]
  · rw [hrun]
    simp [PutState, Ne.symm hk1, Slice.append, marshalStrings]
  · rw [hrun]
    simp [storedList, PutState, Ne.symm hk1, Slice.append, marshalStrings, unmarshalStrings,
      Slice.toList]
  · rw [hrun]
    simp [PutState]
  · intro k h1 h2 h3
    rw [hrun]
    simp [PutState, h1, h2, h3]
  · simp only [Response.Success.injEq] at h
    rw [← h]
    simp [Slice.append, marshalStrings]

theorem consumeMaterials_error (ms : List String) :
    ∀ (l : Slice String) (r : Response), consumeMaterials ms l = Except.error r →
      r = Response.GoPanic ∨ ∃ m, m ∈ ms ∧ r = materialNotIndexed m := by
  induction ms with
  | nil =>
    intro l r h
    simp [consumeMaterials] at h
  | cons a rest ih =>
    intro l r h
    simp only [consumeMaterials] at h
    split at h
    · left
      simpa using h.symm
    · right
      refine ⟨a, by simp, ?_⟩
      simpa [materialNotIndexed] using h.symm
    · rcases ih _ _ h with h1 | ⟨m, hm, h1⟩
      · exact Or.inl h1
      · exact Or.inr ⟨m, by simp [hm], h1⟩

/-- The facts established by an `initWand` that reaches the loop over the materials,
read on the store before the call. -/
theorem initWand_loop_facts (stub : Store) (args : List String) (m : String)
    (h : (initWand stub args).1.isSuccess = true ∨
         (initWand stub args).1 = materialNotIndexed m) :
    ∃ wandID wandType wandColor arg3 arg4 arg5 rest wandSize num_materials materials key
        wandsIndexList materialIndexList,
      args = wandID :: wandType :: wandColor :: arg3 :: arg4 :: arg5 :: rest ∧
      Atoi arg3 = Except.ok wandSize ∧ Atoi arg4 = Except.ok num_materials ∧
      materialsLoop args (wrapInt64 (5 + num_materials) - 5).toNat 5 none = some materials ∧
      wandID ≠ "" ∧ stub wandID = none ∧
      wandID ≠ "wandsIndexList" ∧ wandID ≠ "materialIndexList" ∧
      CreateCompositeKey "type~ID" [wandType, wandID] = Except.ok key ∧
      unmarshalIfPresent (stub "wandsIndexList") = Except.ok wandsIndexList ∧
      unmarshalStrings (stub "materialIndexList") = Except.ok materialIndexList ∧
      initWand stub args =
        (match consumeMaterials (Slice.toList materials) materialIndexList with
         | Except.error r =>
           (r, PutState (PutState stub wandID
              (Bytes.wand ⟨"Wand", wandID, wandType, wandColor, wandSize, materials⟩))
              "wandsIndexList" (marshalStrings (Slice.append wandsIndexList key)))
         | Except.ok updated =>
           (Response.Success Payload.nil,
            PutState (PutState (PutState stub wandID
              (Bytes.wand ⟨"Wand", wandID, wandType, wandColor, wandSize, materials⟩))
              "wandsIndexList" (marshalStrings (Slice.append wandsIndexList key)))
              "materialIndexList" (marshalStrings updated))) := by
  obtain ⟨wandID, wandType, wandColor, arg3, arg4, arg5, rest, wandSize, num, materials, key,
    wl, ml, hargs, hsize, hnum, hloop, hid, hnone, hkey, hwl, hml, hrun⟩ :=
    initWand_reaches_loop stub args m h
  have h1 : wandID ≠ "wandsIndexList" := unmarshalIfPresent_put_wand _ _ _ _ _ hwl
  have h2 : wandID ≠ "materialIndexList" := by
    intro heq
    rw [getState_putState_other _ _ _ _ (by decide)] at hml
    rw [heq, getState_putState_same] at hml
    simp [unmarshalStrings] at hml
  rw [getState_putState_other _ _ _ _ (Ne.symm h1)] at hwl
  rw [getState_putState_other _ _ _ _ (by decide),
    getState_putState_other _ _ _ _ (Ne.symm h2)] at hml
  exact ⟨wandID, wandType, wandColor, arg3, arg4, arg5, rest, wandSize, num, materials, key,
    wl, ml, hargs, hsize, hnum, hloop, hid, hnone, h1, h2, hkey, hwl, hml, hrun⟩

theorem materialsLoop_pos (args : List String) (k i : Nat) (acc r : Slice String)
    (hk : 0 < k) (h : materialsLoop args k i acc = some r) :
    r = some (Slice.toList acc ++ (args.drop i).take k) := by
  have h1 := materialsLoop_some args k i acc r h
  cases r with
  | some l => simpa [Slice.toList] using h1
  | none =>
    exfalso
    obtain ⟨k, rfl⟩ : ∃ j, k = j + 1 := ⟨k - 1, by omega⟩
    simp only [materialsLoop] at h
    split at h
    · simp at h
    · rename_i a ha
      have h2 := materialsLoop_some args k (i + 1) (Slice.append acc a) none h
      simp [Slice.append, Slice.toList] at h2

/-- The materials `initWand` reads from an argument list that carries exactly as many
material ids as its count argument says. -/
theorem materialsLoop_exact (a0 a1 a2 a3 a4 : String) (ms : List String) (r : Slice String)
    (hlen : (ms.length : Int) + 5 < (2 : Int) ^ 63) (hms : ms ≠ [])
    (h : materialsLoop (a0 :: a1 :: a2 :: a3 :: a4 :: ms)
      (wrapInt64 (5 + (ms.length : Int)) - 5).toNat 5 none = some r) :
    r = some ms := by
  have hw : wrapInt64 (5 + (ms.length : Int)) = 5 + (ms.length : Int) := by
    apply wrapInt64_of_inRange
    · omega
    · omega
  rw [hw] at h
  have hk : (5 + (ms.length : Int) - 5).toNat = ms.length := by omega
  rw [hk] at h
  have hpos : 0 < ms.length := List.length_pos.mpr hms
  have := materialsLoop_pos _ _ _ _ _ hpos h
  simpa [Slice.toList] using this

theorem removeMaterialLoop_found (m : String) :
    ∀ (rest pre l2 : List String),
      removeMaterialLoop m (pre ++ rest) rest pre.length = Scan.found l2 →
      l2 = pre ++ removeFirstWithID m rest := by
  intro rest
  induction rest with
  | nil =>
    intro pre l2 h
    simp [removeMaterialLoop] at h
  | cons ck rest ih =>
    intro pre l2 h
    simp only [removeMaterialLoop] at h
    split at h
    · simp at h
    · rename_i ot parts hsplit
      split at h
      · simp at h
      · rename_i listID hid
        have hentry : entryID ck = some listID := by
          simp [entryID, hsplit, hid]
        split at h
        · rename_i heq
          simp only [Scan.found.injEq] at h
          rw [← h]
          simp [removeFirstWithID, hentry, heq]
        · rename_i hne
          have h3 : pre ++ ck :: rest = (pre ++ [ck]) ++ rest := by simp
          rw [h3] at h
          have h4 := ih (pre ++ [ck]) l2 (by simpa using h)
          rw [h4]
          simp [removeFirstWithID, hentry, hne]

theorem consumeMaterials_ok (ms : List String) :
    ∀ (l l2 : Slice String), consumeMaterials ms l = Except.ok l2 →
      Slice.toList l2 = ms.foldl (fun acc m => removeFirstWithID m acc) (Slice.toList l) := by
  induction ms with
  | nil =>
    intro l l2 h
    simp [consumeMaterials] at h
    simp [h]
  | cons m rest ih =>
    intro l l2 h
    simp only [consumeMaterials] at h
    split at h
    · simp at h
    · simp at h
    · rename_i l3 hscan
      have h1 := removeMaterialLoop_found m (Slice.toList l) [] l3 (by simpa using hscan)
      have h2 := ih _ _ h
      rw [h2]
      simp [Slice.toList, h1]

theorem consumeMaterials_not_success (ms : List String) (l : Slice String) (r : Response)
    (h : consumeMaterials ms l = Except.error r) : r.isSuccess = false := by
  rcases consumeMaterials_error ms l r h with h1 | ⟨m, _, h1⟩
  · simp [h1, Response.isSuccess]
  · simp [h1, materialNotIndexed, Response.isSuccess]

/-- Closed form of a successful `initWand`. -/
theorem initWand_success (stub : Store) (args : List String)
    (h : (initWand stub args).1.isSuccess = true) :
    ∃ wandID wandType wandColor arg3 arg4 arg5 rest wandSize num_materials materials key
        wandsIndexList materialIndexList updated,
      args = wandID :: wandType :: wandColor :: arg3 :: arg4 :: arg5 :: rest ∧
      Atoi arg3 = Except.ok wandSize ∧ Atoi arg4 = Except.ok num_materials ∧
      materialsLoop args (wrapInt64 (5 + num_materials) - 5).toNat 5 none = some materials ∧
      wandID ≠ "" ∧ stub wandID = none ∧
      wandID ≠ "wandsIndexList" ∧ wandID ≠ "materialIndexList" ∧
      CreateCompositeKey "type~ID" [wandType, wandID] = Except.ok key ∧
      unmarshalIfPresent (stub "wandsIndexList") = Except.ok wandsIndexList ∧
      unmarshalStrings (stub "materialIndexList") = Except.ok materialIndexList ∧
      consumeMaterials (Slice.toList materials) materialIndexList = Except.ok updated ∧
      initWand stub args =
        (Response.Success Payload.nil,
          PutState (PutState (PutState stub wandID
            (Bytes.wand ⟨"Wand", wandID, wandType, wandColor, wandSize, materials⟩))
            "wandsIndexList" (marshalStrings (Slice.append wandsIndexList key)))
            "materialIndexList" (marshalStrings updated)) := by
  obtain ⟨wandID, wandType, wandColor, arg3, arg4, arg5, rest, wandSize, num, materials, key,
    wl, ml, hargs, hsize, hnum, hloop, hid, hnone, h1, h2, hkey, hwl, hml, hrun⟩ :=
    initWand_loop_facts stub args "" (Or.inl h)
  cases hc : consumeMaterials (Slice.toList materials) ml with
  | error r =>
    rw [hrun, hc] at h
    have := consumeMaterials_not_success _ _ _ hc
    simp [this] at h
  | ok updated =>
    rw [hc] at hrun
    exact ⟨wandID, wandType, wandColor, arg3, arg4, arg5, rest, wandSize, num, materials, key,
      wl, ml, updated, hargs, hsize, hnum, hloop, hid, hnone, h1, h2, hkey, hwl, hml, hc, hrun⟩

/-- C1: after a successful `initMaterial(id, type, supplier)`, `readMaterial(id)` returns
the body with docType "Material", the id, the type and the supplier; after a successful
`initWand(id, type, color, size, n, m1..mn)`, `readWand(id)` returns the body with docType
"Wand", the id, type, color, parsed size and the material ids `m1..mn` in the order given. -/
theorem C1_read_after_create (stub : Store) (args : List String) :
    ((initMaterial stub args).1.isSuccess = true →
      ∃ id ty sup, args = [id, ty, sup] ∧
        (readMaterial (initMaterial stub args).2 [id]).1 =
          Response.Success (Payload.bytes (Bytes.material ⟨"Material", id, ty, sup⟩))) ∧
    (∀ id ty color sizeArg numArg ms,
      args = id :: ty :: color :: sizeArg :: numArg :: ms →
      Atoi numArg = Except.ok (ms.length : Int) →
      (ms.length : Int) + 5 < (2 : Int) ^ 63 →
      (initWand stub args).1.isSuccess = true →
      ∃ size, Atoi sizeArg = Except.ok size ∧
        (readWand (initWand stub args).2 [id]).1 =
          Response.Success (Payload.bytes (Bytes.wand ⟨"Wand", id, ty, color, size, some ms⟩))) := by
  constructor
  · intro h
    obtain ⟨p, hp⟩ : ∃ p, (initMaterial stub args).1 = Response.Success p := by
      cases hr : (initMaterial stub args).1 with
      | Success p => exact ⟨p, rfl⟩
      | Error msg => simp [hr, Response.isSuccess] at h
      | GoPanic => simp [hr, Response.isSuccess] at h
    obtain ⟨id, ty, sup, key, indexList, hargs, _, _, hkey, hdec, hrun⟩ :=
      initMaterial_success stub args p hp
    have hidx : id ≠ "materialIndexList" := unmarshalIfPresent_put_material _ _ _ _ _ hdec
    have hk2 : key ≠ id := compositeKey_ne_second _ _ _ _ hkey
    refine ⟨id, ty, sup, hargs, ?_⟩
    rw [hrun]
    simp [readMaterial, GetState, PutState, Ne.symm hk2, hidx]
  · intro id ty color sizeArg numArg ms hargs hnum hlen h
    obtain ⟨wandID, wandType, wandColor, arg3, arg4, arg5, rest, wandSize, num, materials, key,
      wl, ml, updated, hargs2, hsize, hnum2, hloop, hid, hnone, h1, h2, hkey, hwl, hml, hc,
      hrun⟩ := initWand_success stub args h
    rw [hargs] at hargs2
    simp only [List.cons.injEq] at hargs2
    obtain ⟨e0, e1, e2, e3, e4, e5⟩ := hargs2
    subst e0 e1 e2 e3 e4
    have hms : ms ≠ [] := by simp [e5]
    rw [hnum] at hnum2
    simp only [Except.ok.injEq] at hnum2
    subst hnum2
    rw [hargs] at hloop
    have hmat := materialsLoop_exact _ _ _ _ _ ms materials hlen hms hloop
    subst hmat
    refine ⟨wandSize, hsize, ?_⟩
    rw [hrun]
    simp [readWand, GetState, PutState, h1, h2]

/-- C4: when `initWand` fails because a supplied material id has no entry in the material
index list, the resulting store holds the new Wand body under its id and the wand index
list with the composite key of the wand appended, and the record of the material index
list is the one stored before the call. -/
theorem C4_initWand_notIndexed_keeps_wand (stub : Store) (args : List String) (m : String)
    (h : (initWand stub args).1 = materialNotIndexed m) :
    ∃ id ty color sizeArg numArg rest size materials key previous,
      args = id :: ty :: color :: sizeArg :: numArg :: rest ∧
      Atoi sizeArg = Except.ok size ∧
      CreateCompositeKey "type~ID" [ty, id] = Except.ok key ∧
      ((stub "wandsIndexList" = none ∧ previous = []) ∨
        (stub "wandsIndexList" ≠ none ∧ storedList stub "wandsIndexList" = some previous)) ∧
      (initWand stub args).2 id = some (Bytes.wand ⟨"Wand", id, ty, color, size, materials⟩) ∧
      storedList (initWand stub args).2 "wandsIndexList" = some (previous ++ [key]) ∧
      (initWand stub args).2 "materialIndexList" = stub "materialIndexList" ∧
      m ∈ Slice.toList materials ∧
      (∀ k, k ≠ id → k ≠ "wandsIndexList" → (initWand stub args).2 k = stub k) := by
  obtain ⟨wandID, wandType, wandColor, arg3, arg4, arg5, rest, wandSize, num, materials, key,
    wl, ml, hargs, hsize, hnum, hloop, hid, hnone, h1, h2, hkey, hwl, hml, hrun⟩ :=
    initWand_loop_facts stub args m (Or.inr h)
  cases hc : consumeMaterials (Slice.toList materials) ml with
  | ok updated =>
    rw [hrun, hc] at h
    simp [materialNotIndexed] at h
  | error r =>
    rw [hc] at hrun
    simp only at hrun
    have hr : r = materialNotIndexed m := by
      rw [hrun] at h
      exact h
    have hmem : m ∈ Slice.toList materials := by
      rcases consumeMaterials_error _ _ _ hc with h3 | ⟨m2, hm2, h3⟩
      · rw [h3] at hr
        simp [materialNotIndexed] at hr
      · rw [h3] at hr
        simp only [materialNotIndexed, Response.Error.injEq, List.cons.injEq, Frag.str.injEq,
          true_and, and_true] at hr
        rw [← hr]
        exact hm2
    refine ⟨wandID, wandType, wandColor, arg3, arg4, arg5 :: rest, wandSize, materials, key,
      Slice.toList wl, hargs, hsize, hkey, ?_, ?_, ?_, ?_, hmem, ?_⟩
    · rcases unmarshalIfPresent_ok _ _ hwl with ⟨h3, h4⟩ | ⟨h3, h4⟩
      · left
        exact ⟨h3, by simp [h4, Slice.toList]⟩
      · right
        exact ⟨h3, storedList_of_unmarshal _ _ _ h4⟩
    · rw [hrun]
      simp [PutState, h1]
    · rw [hrun]
      simp [storedList, PutState, marshalStrings, Slice.append, unmarshalStrings, Slice.toList]
    · rw [hrun]
      simp [PutState, Ne.symm h2]
    · intro k hk1 hk2
      rw [hrun]
      simp [PutState, hk1, hk2]

theorem removeIndexLoop_eq_erase (key : String) :
    ∀ (rest pre : List String),
      removeIndexLoop key (pre ++ rest) rest pre.length = pre ++ rest.erase key := by
  intro rest
  induction rest with
  | nil =>
    intro pre
    simp [removeIndexLoop]
  | cons x rest ih =>
    intro pre
    simp only [removeIndexLoop]
    split
    · rename_i heq
      simp [heq]
    · rename_i hne
      have h3 : pre ++ x :: rest = (pre ++ [x]) ++ rest := by simp
      rw [h3]
      have h4 := ih (pre ++ [x])
      simp only [List.length_append, List.length_singleton] at h4
      rw [h4]
      simp [List.erase_cons, hne]

/-- Closed form of a successful `deleteMaterial`. -/
theorem deleteMaterial_success (stub : Store) (args : List String)
    (h : (deleteMaterial stub args).1.isSuccess = true) :
    ∃ id b mat key indexList,
      args = [id] ∧ stub id = some b ∧ unmarshalMaterial b = Except.ok mat ∧
      id ≠ "materialIndexList" ∧
      CreateCompositeKey "type~ID" [mat.Typ, mat.ID] = Except.ok key ∧
      unmarshalStrings (stub "materialIndexList") = Except.ok indexList ∧
      deleteMaterial stub args =
        (Response.Success Payload.nil,
          PutState (DelState stub id) "materialIndexList"
            (marshalStrings (Option.map (fun l => l.erase key) indexList))) := by
  unfold deleteMaterial at h ⊢
  split at h
  · rename_i id
    simp only [GetState] at h ⊢
    split at h
    · simp [Response.isSuccess] at h
    · rename_i b hb
      split at h
      · simp [Response.isSuccess] at h
      · rename_i mat hmat
        split at h
        · simp [Response.isSuccess] at h
        · rename_i key hkey
          split at h
          · simp [Response.isSuccess] at h
          · rename_i indexList hdec
            have hne : id ≠ "materialIndexList" := by
              intro heq
              rw [heq, getState_delState_same] at hdec
              simp [unmarshalStrings] at hdec
            have hdec2 := hdec
            rw [getState_delState_other _ _ _ (Ne.symm hne)] at hdec2
            refine ⟨id, b, mat, key, indexList, ?_, hb, hmat, hne, hkey, hdec2, ?_⟩
            · rfl
            · cases indexList with
              | none => rfl
              | some l =>
                have := removeIndexLoop_eq_erase key l []
                simp only [List.nil_append, List.length_nil] at this
                simp [this]
  · simp [Response.isSuccess] at h

theorem deleteMaterialsLoop_get (ms : List String) :
    ∀ (stub : Store) (k : String),
      deleteMaterialsLoop ms stub k = if k ∈ ms then none else stub k := by
  induction ms with
  | nil =>
    intro stub k
    simp [deleteMaterialsLoop]
  | cons m rest ih =>
    intro stub k
    simp only [deleteMaterialsLoop]
    rw [ih]
    by_cases h1 : k ∈ rest
    · simp [h1]
    · by_cases h2 : k = m
      · simp [h2, DelState]
      · simp [h1, h2, DelState]

/-- Closed form of a successful `deletewand`. -/
theorem deletewand_success (stub : Store) (args : List String)
    (h : (deletewand stub args).1.isSuccess = true) :
    ∃ id b w key indexList,
      args = [id] ∧ stub id = some b ∧ unmarshalWand b = Except.ok w ∧
      id ≠ "wandsIndexList" ∧
      CreateCompositeKey "type~ID" [w.Typ, w.ID] = Except.ok key ∧
      unmarshalStrings (stub "wandsIndexList") = Except.ok indexList ∧
      deletewand stub args =
        (Response.Success Payload.nil,
          deleteMaterialsLoop (Slice.toList w.Materials)
            (PutState (DelState stub id) "wandsIndexList"
              (marshalStrings
                (updatedIndexListLoop key (Slice.toList indexList) (Slice.toList indexList) 0)))) := by
  unfold deletewand at h ⊢
  split at h
  · rename_i id
    simp only [GetState] at h ⊢
    split at h
    · simp [Response.isSuccess] at h
    · rename_i b hb
      split at h
      · simp [Response.isSuccess] at h
      · rename_i w hw
        split at h
        · simp [Response.isSuccess] at h
        · rename_i key hkey
          split at h
          · simp [Response.isSuccess] at h
          · rename_i indexList hdec
            have hne : id ≠ "wandsIndexList" := by
              intro heq
              rw [heq, getState_delState_same] at hdec
              simp [unmarshalStrings] at hdec
            have hdec2 := hdec
            rw [getState_delState_other _ _ _ (Ne.symm hne)] at hdec2
            exact ⟨id, b, w, key, indexList, rfl, hb, hw, hne, hkey, hdec2, rfl⟩
  · simp [Response.isSuccess] at h

/-- The list written by the loop of `deletewand`: nil when no entry equals the key. -/
theorem updatedIndexListLoop_eq (key : String) :
    ∀ (rest pre : List String),
      updatedIndexListLoop key (pre ++ rest) rest pre.length =
        if key ∈ rest then some (pre ++ rest.erase key) else none := by
  intro rest
  induction rest with
  | nil =>
    intro pre
    simp [updatedIndexListLoop]
  | cons x rest ih =>
    intro pre
    simp only [updatedIndexListLoop]
    split
    · rename_i heq
      simp [heq]
    · rename_i hne
      have h3 : pre ++ x :: rest = (pre ++ [x]) ++ rest := by simp
      rw [h3]
      have h4 := ih (pre ++ [x])
      simp only [List.length_append, List.length_singleton] at h4
      rw [h4]
      have hne2 : ¬ key = x := fun e => hne e.symm
      simp [List.erase_cons, hne, hne2]

/-- C3 (as stated, refuted): in scenario B the count returned after the wand is created
is not 2. -/
theorem C3_count_after_wand_is_not_two :
    (initWand scenarioB2 wandW1Args).1.isSuccess = true ∧
    (getTotalNumberOfMaterials scenarioB3).1 ≠ Response.Success (Payload.numMaterials 2) := by
  decide

/-- C3 (amended): in scenario B `getTotalNumberOfMaterials` returns 2 before the wand is
created, the creation of the wand succeeds, and afterwards it returns 0, the length of
the material index list from which both entries were removed. -/
theorem C3_scenarioB_count :
    (getTotalNumberOfMaterials scenarioB2).1 = Response.Success (Payload.numMaterials 2) ∧
    (initWand scenarioB2 wandW1Args).1 = Response.Success Payload.nil ∧
    (getTotalNumberOfMaterials scenarioB3).1 = Response.Success (Payload.numMaterials 0) ∧
    storedList scenarioB3 "materialIndexList" = some [] := by
  decide

/-- C5: after a successful `deleteWand(id)` on an id that holds a Wand record,
`readWand(id)` fails as not found and `readMaterial(m)` fails as not found for every
material id `m` listed in the Materials of the deleted wand. -/
theorem C5_deleteWand_removes_wand_and_materials (stub : Store) (id : String) (w : Wand)
    (hrec : stub id = some (Bytes.wand w))
    (h : (deletewand stub [id]).1.isSuccess = true) :
    (readWand (deletewand stub [id]).2 [id]).1 =
        Response.Error [Frag.str "Wand does not exist: ", Frag.str id] ∧
    (∀ m, m ∈ Slice.toList w.Materials →
      (readMaterial (deletewand stub [id]).2 [m]).1 =
        Response.Error [Frag.str "Material does not exist: ", Frag.str m]) := by
  obtain ⟨id2, b, w2, key, indexList, hargs, hb, hw, hne, hkey, hdec, hrun⟩ :=
    deletewand_success stub [id] h
  simp only [List.cons.injEq, and_true] at hargs
  subst hargs
  rw [hrec] at hb
  simp only [Option.some.injEq] at hb
  subst hb
  simp only [unmarshalWand, Except.ok.injEq] at hw
  subst hw
  rw [hrun]
  constructor
  · simp only [readWand, GetState]
    rw [deleteMaterialsLoop_get]
    by_cases hmem : id ∈ Slice.toList w.Materials
    · simp [hmem]
    · simp [hmem, PutState, DelState, hne]
  · intro m hm
    simp only [readMaterial, GetState]
    rw [deleteMaterialsLoop_get]
    simp [hm]

/-- C6 (as stated, refuted): in scenario B after the wand was created, a record exists
under `M1` and `deleteMaterial(M1)` succeeds, yet `getTotalNumberOfMaterials` returns 0
before and 0 after the deletion. -/
theorem C6_count_not_decreased :
    scenarioB3 "M1" = some (Bytes.material ⟨"Material", "M1", "wood", "S1"⟩) ∧
    (deleteMaterial scenarioB3 ["M1"]).1 = Response.Success Payload.nil ∧
    (getTotalNumberOfMaterials scenarioB3).1 = Response.Success (Payload.numMaterials 0) ∧
    (getTotalNumberOfMaterials (deleteMaterial scenarioB3 ["M1"]).2).1 =
      Response.Success (Payload.numMaterials 0) := by
  decide

/-- C6 (amended): after a successful `deleteMaterial(M1)`, `readMaterial(M1)` fails as not
found; the value returned by `getTotalNumberOfMaterials` is exactly one less than before
when the composite key built from the type and ID of the deleted record occurs in the
material index list, and the same as before when it does not. -/
theorem C6_deleteMaterial_count (stub : Store) (id : String) (b : Bytes) (mat : Material)
    (key : String)
    (hrec : stub id = some b) (hmat : unmarshalMaterial b = Except.ok mat)
    (hkey : CreateCompositeKey "type~ID" [mat.Typ, mat.ID] = Except.ok key)
    (h : (deleteMaterial stub [id]).1.isSuccess = true) :
    (readMaterial (deleteMaterial stub [id]).2 [id]).1 =
        Response.Error [Frag.str "Material does not exist: ", Frag.str id] ∧
    ∃ previous n,
      storedList stub "materialIndexList" = some previous ∧
      (getTotalNumberOfMaterials stub).1 = Response.Success (Payload.numMaterials n) ∧
      (key ∈ previous →
        (getTotalNumberOfMaterials (deleteMaterial stub [id]).2).1 =
          Response.Success (Payload.numMaterials (n - 1))) ∧
      (key ∉ previous →
        (getTotalNumberOfMaterials (deleteMaterial stub [id]).2).1 =
          Response.Success (Payload.numMaterials n)) := by
  obtain ⟨id2, b2, mat2, key2, indexList, hargs, hb, hmat2, hne, hkey2, hdec, hrun⟩ :=
    deleteMaterial_success stub [id] h
  simp only [List.cons.injEq, and_true] at hargs
  subst hargs
  rw [hrec] at hb
  simp only [Option.some.injEq] at hb
  subst hb
  rw [hmat] at hmat2
  simp only [Except.ok.injEq] at hmat2
  subst hmat2
  rw [hkey] at hkey2
  simp only [Except.ok.injEq] at hkey2
  subst hkey2
  rw [hrun]
  constructor
  · simp [readMaterial, GetState, PutState, DelState, hne]
  · refine ⟨Slice.toList indexList, ((Slice.toList indexList).length : Int),
      storedList_of_unmarshal _ _ _ hdec, ?_, ?_, ?_⟩
    · simp [getTotalNumberOfMaterials, GetState, hdec, Slice.len]
    · intro hmem
      cases indexList with
      | none => simp [Slice.toList] at hmem
      | some l =>
        simp only [Slice.toList] at hmem
        have hpos : 0 < l.length := List.length_pos_of_mem hmem
        simp [getTotalNumberOfMaterials, GetState, PutState, marshalStrings, unmarshalStrings,
          Slice.len, Slice.toList, List.length_erase_of_mem hmem]
        omega
    · intro hmem
      cases indexList with
      | none =>
        simp [getTotalNumberOfMaterials, GetState, PutState, marshalStrings, unmarshalStrings,
          Slice.len, Slice.toList]
      | some l =>
        simp only [Slice.toList] at hmem
        simp [getTotalNumberOfMaterials, GetState, PutState, marshalStrings, unmarshalStrings,
          Slice.len, Slice.toList, List.erase_of_not_mem hmem]

/-- C7: evaluation of `deletewand` on a stored record whose composite key does not occur
in the wand index list.  With wands `W1` and `W2` stored and only `W2` indexed,
`deleteWand(W1)` succeeds and the record of the wand index list becomes `null`: the entry
of `W2` is gone.  The same happens in scenario B when `deleteWand` runs on the record
stored under `M1`: the entry of `W1` is gone. -/
theorem C7_deletewand_discards_index_list :
    (unindexedWandStore "W1" = some (Bytes.wand ⟨"Wand", "W1", "standard", "brown", 10, none⟩) ∧
      storedList unindexedWandStore "wandsIndexList" = some [typeIDKey "standard" "W2"] ∧
      CreateCompositeKey "type~ID" ["standard", "W1"] = Except.ok (typeIDKey "standard" "W1") ∧
      typeIDKey "standard" "W1" ∉ [typeIDKey "standard" "W2"] ∧
      (deletewand unindexedWandStore ["W1"]).1 = Response.Success Payload.nil ∧
      (deletewand unindexedWandStore ["W1"]).2 "wandsIndexList" = some Bytes.null ∧
      storedList (deletewand unindexedWandStore ["W1"]).2 "wandsIndexList" = some []) ∧
    (storedList scenarioB3 "wandsIndexList" = some [typeIDKey "standard" "W1"] ∧
      (deletewand scenarioB3 ["M1"]).1 = Response.Success Payload.nil ∧
      storedList (deletewand scenarioB3 ["M1"]).2 "wandsIndexList" = some []) := by
  refine ⟨⟨by decide, by decide, rfl, by decide, by decide, by decide, by decide⟩,
    by decide, by decide, by decide⟩

/-- C8: a successful `deleteMaterial` on a stored record persists the material index list
without the first entry equal to the composite key built from the type and ID of the
stored body: the entries before that position and after it (later duplicates of the key
included) keep their order; when no entry equals the key the persisted list is the old
list. -/
theorem C8_deleteMaterial_removes_first_match (stub : Store) (id : String) (b : Bytes)
    (mat : Material) (key : String)
    (hrec : stub id = some b) (hmat : unmarshalMaterial b = Except.ok mat)
    (hkey : CreateCompositeKey "type~ID" [mat.Typ, mat.ID] = Except.ok key)
    (h : (deleteMaterial stub [id]).1.isSuccess = true) :
    ∃ previous,
      storedList stub "materialIndexList" = some previous ∧
      storedList (deleteMaterial stub [id]).2 "materialIndexList" = some (previous.erase key) ∧
      (∀ front back, previous = front ++ key :: back → key ∉ front →
        storedList (deleteMaterial stub [id]).2 "materialIndexList" = some (front ++ back)) ∧
      (key ∉ previous →
        storedList (deleteMaterial stub [id]).2 "materialIndexList" = some previous) := by
  obtain ⟨id2, b2, mat2, key2, indexList, hargs, hb, hmat2, hne, hkey2, hdec, hrun⟩ :=
    deleteMaterial_success stub [id] h
  simp only [List.cons.injEq, and_true] at hargs
  subst hargs
  rw [hrec] at hb
  simp only [Option.some.injEq] at hb
  subst hb
  rw [hmat] at hmat2
  simp only [Except.ok.injEq] at hmat2
  subst hmat2
  rw [hkey] at hkey2
  simp only [Except.ok.injEq] at hkey2
  subst hkey2
  have hnew : storedList (deleteMaterial stub [id]).2 "materialIndexList" =
      some ((Slice.toList indexList).erase key) := by
    rw [hrun]
    cases indexList with
    | none => simp [storedList, PutState, marshalStrings, unmarshalStrings, Slice.toList]
    | some l => simp [storedList, PutState, marshalStrings, unmarshalStrings, Slice.toList]
  refine ⟨Slice.toList indexList, storedList_of_unmarshal _ _ _ hdec, hnew, ?_, ?_⟩
  · intro front back hsplit hfront
    rw [hnew, hsplit, List.erase_append_right _ hfront]
    simp
  · intro hmem
    rw [hnew, List.erase_of_not_mem hmem]

/-- C9: when a record (of either kind) is stored under `id`, every `initMaterial` and
every `initWand` whose first argument is `id` does not succeed and returns the store it was
given; with an otherwise well-formed argument list `initMaterial` reports that the
material already exists. -/
theorem C9_create_rejects_existing_id (stub : Store) (id : String) (hrec : stub id ≠ none) :
    (∀ args : List String, args.head? = some id →
      (initMaterial stub args).1.isSuccess = false ∧ (initMaterial stub args).2 = stub) ∧
    (∀ args : List String, args.head? = some id →
      (initWand stub args).1.isSuccess = false ∧ (initWand stub args).2 = stub) ∧
    (∀ ty sup, id ≠ "" →
      (initMaterial stub [id, ty, sup]).1 =
        Response.Error [Frag.str "This material already exists: ", Frag.str id]) := by
  obtain ⟨v, hv⟩ : ∃ v, stub id = some v := by
    cases hs : stub id with
    | none => exact absurd hs hrec
    | some v => exact ⟨v, rfl⟩
  refine ⟨?_, ?_, ?_⟩
  · intro args hid
    unfold initMaterial
    split
    · rename_i a0 a1 a2
      simp only [List.head?_cons, Option.some.injEq] at hid
      subst hid
      split
      · exact ⟨rfl, rfl⟩
      · simp [GetState, hv, Response.isSuccess]
    · exact ⟨rfl, rfl⟩
  · intro args hid
    unfold initWand
    split
    · rename_i a0 a1 a2 a3 a4 a5 rest
      simp only [List.head?_cons, Option.some.injEq] at hid
      subst hid
      split
      · exact ⟨rfl, rfl⟩
      · split
        · exact ⟨rfl, rfl⟩
        · split
          · exact ⟨rfl, rfl⟩
          · split
            · exact ⟨rfl, rfl⟩
            · simp [GetState, hv, Response.isSuccess]
    · exact ⟨rfl, rfl⟩
  · intro ty sup hne
    simp [initMaterial, hne, GetState, hv]

/-! ## The theorems at concrete inputs -/

/-- Witness of C1: material `M1` on the initialised store and wand `W1` of scenario B. -/
theorem C1_read_after_create_witness :
    (initMaterial initialised ["M1", "wood", "S1"]).1.isSuccess = true ∧
    (∃ id ty sup, ["M1", "wood", "S1"] = [id, ty, sup] ∧
      (readMaterial (initMaterial initialised ["M1", "wood", "S1"]).2 [id]).1 =
        Response.Success (Payload.bytes (Bytes.material ⟨"Material", id, ty, sup⟩))) ∧
    (initWand scenarioB2 wandW1Args).1.isSuccess = true ∧
    (∃ size, Atoi "10" = Except.ok size ∧
      (readWand (initWand scenarioB2 wandW1Args).2 ["W1"]).1 =
        Response.Success (Payload.bytes
          (Bytes.wand ⟨"Wand", "W1", "standard", "brown", size, some ["M1", "M2"]⟩))) :=
  ⟨by decide,
   (C1_read_after_create initialised ["M1", "wood", "S1"]).1 (by decide),
   by decide,
   (C1_read_after_create scenarioB2 wandW1Args).2 "W1" "standard" "brown" "10" "2" ["M1", "M2"]
     rfl rfl (by decide) (by decide)⟩

/-- Witness of C4: a wand that lists `M1` twice while `M1` is indexed once. -/
theorem C4_initWand_notIndexed_keeps_wand_witness :
    (initWand scenarioB1 ["W1", "standard", "brown", "10", "2", "M1", "M1"]).1 =
      materialNotIndexed "M1" ∧
    (initWand scenarioB1 ["W1", "standard", "brown", "10", "2", "M1", "M1"]).2
      "materialIndexList" = scenarioB1 "materialIndexList" := by
  refine ⟨by decide, ?_⟩
  obtain ⟨_, _, _, _, _, _, _, _, _, _, _, _, _, _, _, _, hkeep, _, _⟩ :=
    C4_initWand_notIndexed_keeps_wand scenarioB1
      ["W1", "standard", "brown", "10", "2", "M1", "M1"] "M1" (by decide)
  exact hkeep

/-- Witness of C5: deleting the wand of scenario B. -/
theorem C5_deleteWand_removes_wand_and_materials_witness :
    scenarioB3 "W1" =
      some (Bytes.wand ⟨"Wand", "W1", "standard", "brown", 10, some ["M1", "M2"]⟩) ∧
    (deletewand scenarioB3 ["W1"]).1.isSuccess = true ∧
    (readWand (deletewand scenarioB3 ["W1"]).2 ["W1"]).1 =
      Response.Error [Frag.str "Wand does not exist: ", Frag.str "W1"] ∧
    (readMaterial (deletewand scenarioB3 ["W1"]).2 ["M2"]).1 =
      Response.Error [Frag.str "Material does not exist: ", Frag.str "M2"] :=
  have h := C5_deleteWand_removes_wand_and_materials scenarioB3 "W1"
    ⟨"Wand", "W1", "standard", "brown", 10, some ["M1", "M2"]⟩ (by decide) (by decide)
  ⟨by decide, by decide, h.1, h.2 "M2" (by decide)⟩

/-- Witness of C6 (amended): deleting the indexed material `M1` takes the count from 2 to 1. -/
theorem C6_deleteMaterial_count_witness :
    (deleteMaterial scenarioB2 ["M1"]).1.isSuccess = true ∧
    (readMaterial (deleteMaterial scenarioB2 ["M1"]).2 ["M1"]).1 =
      Response.Error [Frag.str "Material does not exist: ", Frag.str "M1"] ∧
    (getTotalNumberOfMaterials (deleteMaterial scenarioB2 ["M1"]).2).1 =
      Response.Success (Payload.numMaterials (2 - 1)) := by
  obtain ⟨hread, previous, n, hprev, hn, hin, _⟩ :=
    C6_deleteMaterial_count scenarioB2 "M1" (Bytes.material ⟨"Material", "M1", "wood", "S1"⟩)
      ⟨"Material", "M1", "wood", "S1"⟩ (typeIDKey "wood" "M1") (by decide) rfl rfl (by decide)
  have hp2 : storedList scenarioB2 "materialIndexList" =
      some [typeIDKey "wood" "M1", typeIDKey "wood" "M2"] := by decide
  have hn2 : (getTotalNumberOfMaterials scenarioB2).1 =
      Response.Success (Payload.numMaterials 2) := by decide
  rw [hp2] at hprev
  rw [hn2] at hn
  simp only [Option.some.injEq] at hprev
  simp only [Response.Success.injEq, Payload.numMaterials.injEq] at hn
  subst hprev
  subst hn
  exact ⟨by decide, hread, hin (by decide)⟩

/-- Witness of C8: deleting `M1` when `M1` and `M2` are indexed. -/
theorem C8_deleteMaterial_removes_first_match_witness :
    (deleteMaterial scenarioB2 ["M1"]).1.isSuccess = true ∧
    storedList (deleteMaterial scenarioB2 ["M1"]).2 "materialIndexList" =
      some ([typeIDKey "wood" "M1", typeIDKey "wood" "M2"].erase (typeIDKey "wood" "M1")) := by
  obtain ⟨previous, hprev, hnew, _, _⟩ :=
    C8_deleteMaterial_removes_first_match scenarioB2 "M1"
      (Bytes.material ⟨"Material", "M1", "wood", "S1"⟩)
      ⟨"Material", "M1", "wood", "S1"⟩ (typeIDKey "wood" "M1") (by decide) rfl rfl (by decide)
  have hp2 : storedList scenarioB2 "materialIndexList" =
      some [typeIDKey "wood" "M1", typeIDKey "wood" "M2"] := by decide
  rw [hp2] at hprev
  simp only [Option.some.injEq] at hprev
  subst hprev
  exact ⟨by decide, hnew⟩

/-- Witness of C9: both creations on the id `M1`, which holds a material. -/
theorem C9_create_rejects_existing_id_witness :
    scenarioB1 "M1" ≠ none ∧
    ((initMaterial scenarioB1 ["M1", "stone", "S2"]).1.isSuccess = false ∧
      (initMaterial scenarioB1 ["M1", "stone", "S2"]).2 = scenarioB1) ∧
    ((initWand scenarioB1 ["M1", "standard", "brown", "10", "1", "M1"]).1.isSuccess = false ∧
      (initWand scenarioB1 ["M1", "standard", "brown", "10", "1", "M1"]).2 = scenarioB1) :=
  have h := C9_create_rejects_existing_id scenarioB1 "M1" (by decide)
  ⟨by decide, h.1 ["M1", "stone", "S2"] rfl,
    h.2.1 ["M1", "standard", "brown", "10", "1", "M1"] rfl⟩

/-- Witness of C10: material `M1` on the initialised store. -/
theorem C10_initMaterial_writes_witness :
    (initMaterial initialised ["M1", "wood", "S1"]).1 =
      Response.Success (Payload.bytes (Bytes.strings [typeIDKey "wood" "M1"])) ∧
    ∃ id ty sup key previous,
      ["M1", "wood", "S1"] = [id, ty, sup] ∧
      CreateCompositeKey "type~ID" [ty, id] = Except.ok key ∧
      ((initialised "materialIndexList" = none ∧ previous = []) ∨
        (initialised "materialIndexList" ≠ none ∧
          storedList initialised "materialIndexList" = some previous)) ∧
      (initMaterial initialised ["M1", "wood", "S1"]).2 id =
        some (Bytes.material ⟨"Material", id, ty, sup⟩) ∧
      (initMaterial initialised ["M1", "wood", "S1"]).2 "materialIndexList" =
        some (marshalStrings (some (previous ++ [key]))) ∧
      storedList (initMaterial initialised ["M1", "wood", "S1"]).2 "materialIndexList" =
        some (previous ++ [key]) ∧
      (initMaterial initialised ["M1", "wood", "S1"]).2 key = some Bytes.sentinel ∧
      (∀ k, k ≠ id → k ≠ "materialIndexList" → k ≠ key →
        (initMaterial initialised ["M1", "wood", "S1"]).2 k = initialised k) ∧
      Payload.bytes (Bytes.strings [typeIDKey "wood" "M1"]) =
        Payload.bytes (marshalStrings (some (previous ++ [key]))) :=
  ⟨by decide,
   C10_initMaterial_writes initialised ["M1", "wood", "S1"]
     (Payload.bytes (Bytes.strings [typeIDKey "wood" "M1"])) (by decide)⟩

end Studio



namespace Studio

/-! ## Reads, deletes and the absent record -/

/-- C19: with one argument, `readMaterial`, `readWand`, `deleteMaterial` and `deleteWand`
fail with their not-found error exactly when no record is stored under the id; that
failing call leaves the store as it was; a successful read returns the stored bytes. -/
theorem C19_not_found_iff_absent (stub : Store) (id : String) :
    ((readMaterial stub [id]).1 =
        Response.Error [Frag.str "Material does not exist: ", Frag.str id] ↔ stub id = none) ∧
    ((readWand stub [id]).1 =
        Response.Error [Frag.str "Wand does not exist: ", Frag.str id] ↔ stub id = none) ∧
    ((deleteMaterial stub [id]).1 =
        Response.Error [Frag.str "Material does not exist: ", Frag.str id] ↔ stub id = none) ∧
    ((deletewand stub [id]).1 =
        Response.Error [Frag.str "Wand does not exist: ", Frag.str id] ↔ stub id = none) ∧
    (stub id = none →
      (readMaterial stub [id]).2 = stub ∧ (readWand stub [id]).2 = stub ∧
      (deleteMaterial stub [id]).2 = stub ∧ (deletewand stub [id]).2 = stub) ∧
    (∀ b, stub id = some b →
      readMaterial stub [id] = (Response.Success (Payload.bytes b), stub) ∧
      readWand stub [id] = (Response.Success (Payload.bytes b), stub)) := by
  refine ⟨?_, ?_, ?_, ?_, ?_, ?_⟩
  · cases h : stub id with
    | none => simp [readMaterial, GetState, h]
    | some b => simp [readMaterial, GetState, h]
  · cases h : stub id with
    | none => simp [readWand, GetState, h]
    | some b => simp [readWand, GetState, h]
  · cases h : stub id with
    | none => simp [deleteMaterial, GetState, h]
    | some b =>
      simp only [deleteMaterial, GetState, h]
      constructor
      · intro h2
        exfalso
        revert h2
        repeat' split
        all_goals simp
      · intro h2
        simp at h2
  · cases h : stub id with
    | none => simp [deletewand, GetState, h]
    | some b =>
      simp only [deletewand, GetState, h]
      constructor
      · intro h2
        exfalso
        revert h2
        repeat' split
        all_goals simp
      · intro h2
        simp at h2
  · intro h
    simp [readMaterial, readWand, deleteMaterial, deletewand, GetState, h]
  · intro b h
    simp [readMaterial, readWand, GetState, h]

end Studio

namespace Studio

/-! ## The queries return the store they were given -/

theorem readMaterial_store (stub : Store) (args : List String) :
    (readMaterial stub args).2 = stub := by
  unfold readMaterial
  try dsimp only
  repeat' split
  all_goals rfl

theorem readWand_store (stub : Store) (args : List String) : (readWand stub args).2 = stub := by
  unfold readWand
  try dsimp only
  repeat' split
  all_goals rfl

theorem getMaterialIndexList_store (stub : Store) : (getMaterialIndexList stub).2 = stub := by
  unfold getMaterialIndexList
  try dsimp only
  repeat' split
  all_goals rfl

theorem getMaterialsByType_store (stub : Store) (args : List String) :
    (getMaterialsByType stub args).2 = stub := by
  unfold getMaterialsByType
  try dsimp only
  repeat' split
  all_goals rfl

theorem getAllMaterials_store (stub : Store) : (getAllMaterials stub).2 = stub := by
  unfold getAllMaterials
  try dsimp only
  repeat' split
  all_goals rfl

theorem getNumberMaterialsByType_store (stub : Store) (args : List String) :
    (getNumberMaterialsByType stub args).2 = stub := by
  unfold getNumberMaterialsByType
  try dsimp only
  repeat' split
  all_goals rfl

theorem getTotalNumberOfMaterials_store (stub : Store) :
    (getTotalNumberOfMaterials stub).2 = stub := by
  unfold getTotalNumberOfMaterials
  try dsimp only
  repeat' split
  all_goals rfl

theorem getAllMaterialsAndIndexList_store (stub : Store) :
    (getAllMaterialsAndIndexList stub).2 = stub := by
  unfold getAllMaterialsAndIndexList
  try dsimp only
  repeat' split
  all_goals rfl

theorem getWandsByType_store (stub : Store) (args : List String) :
    (getWandsByType stub args).2 = stub := by
  unfold getWandsByType
  try dsimp only
  repeat' split
  all_goals rfl

theorem getAllWands_store (stub : Store) : (getAllWands stub).2 = stub := by
  unfold getAllWands
  try dsimp only
  repeat' split
  all_goals rfl

theorem getNumberwandsByType_store (stub : Store) (args : List String) :
    (getNumberwandsByType stub args).2 = stub := by
  unfold getNumberwandsByType
  try dsimp only
  repeat' split
  all_goals rfl

theorem getTotalNumberOfWands_store (stub : Store) : (getTotalNumberOfWands stub).2 = stub := by
  unfold getTotalNumberOfWands
  try dsimp only
  repeat' split
  all_goals rfl

/-! ## Nothing but `initMaterial` adds to the material index list -/

theorem materialIndex_congr (s1 s2 : Store)
    (h : s1 "materialIndexList" = s2 "materialIndexList") :
    materialIndex s1 = materialIndex s2 := by
  simp [materialIndex, storedList, h]

theorem materialIndex_of_none (s1 : Store) (h : s1 "materialIndexList" = none) :
    materialIndex s1 = [] := by
  simp [materialIndex, storedList, h, unmarshalStrings]

theorem materialIndex_of_wand (s1 : Store) (w : Wand)
    (h : s1 "materialIndexList" = some (Bytes.wand w)) : materialIndex s1 = [] := by
  simp [materialIndex, storedList, h, unmarshalStrings]

theorem materialIndex_of_marshal (s1 : Store) (l : Slice String)
    (h : s1 "materialIndexList" = some (marshalStrings l)) :
    materialIndex s1 = Slice.toList l := by
  cases l with
  | none => simp [materialIndex, storedList, h, marshalStrings, unmarshalStrings]
  | some l => simp [materialIndex, storedList, h, marshalStrings, unmarshalStrings]

theorem materialIndex_of_unmarshal (s1 : Store) (l : Slice String)
    (h : unmarshalStrings (s1 "materialIndexList") = Except.ok l) :
    materialIndex s1 = Slice.toList l := by
  simp [materialIndex, storedList, h]

theorem materialIndex_delState (stub : Store) (k : String) :
    List.Sublist (materialIndex (DelState stub k)) (materialIndex stub) := by
  by_cases h : k = "materialIndexList"
  · rw [materialIndex_of_none (DelState stub k) (by simp [DelState, h])]
    exact List.nil_sublist _
  · rw [materialIndex_congr (DelState stub k) stub (by simp [DelState, Ne.symm h])]

theorem materialIndex_putWand (stub : Store) (k : String) (w : Wand) :
    List.Sublist (materialIndex (PutState stub k (Bytes.wand w))) (materialIndex stub) := by
  by_cases h : k = "materialIndexList"
  · rw [materialIndex_of_wand (PutState stub k (Bytes.wand w)) w (by simp [PutState, h])]
    exact List.nil_sublist _
  · rw [materialIndex_congr (PutState stub k (Bytes.wand w)) stub
      (by simp [PutState, Ne.symm h])]

theorem removeFirstWithID_sublist (m : String) (l : List String) :
    List.Sublist (removeFirstWithID m l) l := by
  induction l with
  | nil => simp [removeFirstWithID]
  | cons x rest ih =>
    simp only [removeFirstWithID]
    split
    · exact List.sublist_cons_self x rest
    · exact List.Sublist.cons₂ x ih

theorem foldl_removeFirstWithID_sublist (ms : List String) :
    ∀ l : List String,
      List.Sublist (ms.foldl (fun acc m => removeFirstWithID m acc) l) l := by
  induction ms with
  | nil => intro l; simp
  | cons m rest ih =>
    intro l
    simp only [List.foldl_cons]
    exact (ih _).trans (removeFirstWithID_sublist m l)

end Studio

namespace Studio

theorem init_materialIndex (stub : Store) :
    List.Sublist (materialIndex (Init stub).2) (materialIndex stub) := by
  have h2 : (Init stub).2 "materialIndexList" = stub "materialIndexList" ∨
      (stub "materialIndexList" = none ∧
        (Init stub).2 "materialIndexList" = some Bytes.null) := by
    unfold Init
    simp only [GetState]
    cases h : stub "materialIndexList" with
    | none =>
      right
      refine ⟨rfl, ?_⟩
      split <;> simp [PutState, marshalStrings]
    | some b =>
      left
      simp only
      split
      · simp [PutState, h]
      · exact h
  rcases h2 with h2 | ⟨_, h3⟩
  · rw [materialIndex_congr _ _ h2]
  · have : materialIndex (Init stub).2 = [] := by
      simp [materialIndex, storedList, h3, unmarshalStrings, Slice.toList]
    rw [this]
    exact List.nil_sublist _

/-- The stores `deleteMaterial` can leave behind. -/
theorem deleteMaterial_store_shape (stub : Store) (args : List String) :
    (deleteMaterial stub args).2 = stub ∨
    (∃ id, (deleteMaterial stub args).2 = DelState stub id) ∨
    (deleteMaterial stub args).1.isSuccess = true := by
  unfold deleteMaterial
  try dsimp only
  repeat' split
  all_goals first
    | exact Or.inl rfl
    | exact Or.inr (Or.inl ⟨_, rfl⟩)
    | exact Or.inr (Or.inr rfl)

theorem deleteMaterial_materialIndex (stub : Store) (args : List String) :
    List.Sublist (materialIndex (deleteMaterial stub args).2) (materialIndex stub) := by
  rcases deleteMaterial_store_shape stub args with h | ⟨id, h⟩ | h
  · rw [h]
  · rw [h]
    exact materialIndex_delState stub id
  · obtain ⟨id, b, mat, key, indexList, _, _, _, _, _, hdec, hrun⟩ :=
      deleteMaterial_success stub args h
    rw [hrun]
    rw [materialIndex_of_marshal _ (Option.map (fun l => l.erase key) indexList)
      (by simp [PutState]), materialIndex_of_unmarshal stub indexList hdec]
    cases indexList with
    | none => simp [Slice.toList]
    | some l =>
      simp only [Option.map, Slice.toList]
      exact List.erase_sublist key l

/-- The stores `initWand` can leave behind. -/
theorem initWand_store_shape (stub : Store) (args : List String) :
    (initWand stub args).2 = stub ∨
    (∃ id w, (initWand stub args).2 = PutState stub id (Bytes.wand w)) ∨
    (∃ id w l, (initWand stub args).2 =
      PutState (PutState stub id (Bytes.wand w)) "wandsIndexList" (marshalStrings l)) ∨
    (initWand stub args).1.isSuccess = true := by
  unfold initWand
  try dsimp only
  repeat' split
  all_goals first
    | exact Or.inl rfl
    | exact Or.inr (Or.inl ⟨_, _, rfl⟩)
    | exact Or.inr (Or.inr (Or.inl ⟨_, _, _, rfl⟩))
    | exact Or.inr (Or.inr (Or.inr rfl))

theorem initWand_materialIndex (stub : Store) (args : List String) :
    List.Sublist (materialIndex (initWand stub args).2) (materialIndex stub) := by
  rcases initWand_store_shape stub args with h | ⟨id, w, h⟩ | ⟨id, w, l, h⟩ | h
  · rw [h]
  · rw [h]
    exact materialIndex_putWand stub id w
  · rw [h, materialIndex_congr _ (PutState stub id (Bytes.wand w))
      (by simp [PutState])]
    exact materialIndex_putWand stub id w
  · obtain ⟨wandID, wandType, wandColor, arg3, arg4, arg5, rest, wandSize, num, materials,
      key, wl, ml, updated, _, _, _, _, _, _, _, _, _, _, hml, hc, hrun⟩ :=
      initWand_success stub args h
    rw [hrun, materialIndex_of_marshal _ updated (by simp [PutState]),
      materialIndex_of_unmarshal stub ml hml, consumeMaterials_ok _ _ _ hc]
    exact foldl_removeFirstWithID_sublist _ _

/-- The stores `deletewand` can leave behind. -/
theorem deletewand_store_shape (stub : Store) (args : List String) :
    (deletewand stub args).2 = stub ∨
    (∃ id, (deletewand stub args).2 = DelState stub id) ∨
    (deletewand stub args).1.isSuccess = true := by
  unfold deletewand
  try dsimp only
  repeat' split
  all_goals first
    | exact Or.inl rfl
    | exact Or.inr (Or.inl ⟨_, rfl⟩)
    | exact Or.inr (Or.inr rfl)

/-- The record of the material index list after `deletewand`: the one stored before, or
none. -/
theorem deletewand_materialIndex_record (stub : Store) (args : List String) :
    (deletewand stub args).2 "materialIndexList" = stub "materialIndexList" ∨
    (deletewand stub args).2 "materialIndexList" = none := by
  rcases deletewand_store_shape stub args with h | ⟨id, h⟩ | h
  · rw [h]
    exact Or.inl rfl
  · rw [h]
    by_cases hk : id = "materialIndexList"
    · right
      simp [DelState, hk]
    · left
      simp [DelState, Ne.symm hk]
  · obtain ⟨id, b, w, key, indexList, _, _, _, _, _, _, hrun⟩ := deletewand_success stub args h
    rw [hrun]
    dsimp only
    rw [deleteMaterialsLoop_get]
    by_cases hm : "materialIndexList" ∈ Slice.toList w.Materials
    · right
      simp [hm]
    · by_cases hk : id = "materialIndexList"
      · right
        simp [hm, PutState, DelState, hk]
      · left
        simp [hm, PutState, DelState, Ne.symm hk]

theorem deletewand_materialIndex (stub : Store) (args : List String) :
    List.Sublist (materialIndex (deletewand stub args).2) (materialIndex stub) := by
  rcases deletewand_materialIndex_record stub args with h | h
  · rw [materialIndex_congr _ _ h]
  · rw [materialIndex_of_none _ h]
    exact List.nil_sublist _

/-- Case analysis on the switch of `Invoke`. -/
theorem Invoke_cases (P : Response × Store → Prop) (stub : Store) (function : String)
    (args : List String)
    (h1 : function = "initMaterial" → P (initMaterial stub args))
    (h2 : function = "readMaterial" → P (readMaterial stub args))
    (h3 : function = "getMaterialsByType" → P (getMaterialsByType stub args))
    (h4 : function = "getAllMaterials" → P (getAllMaterials stub))
    (h5 : function = "getNumberMaterialsByType" → P (getNumberMaterialsByType stub args))
    (h6 : function = "getTotalNumberOfMaterials" → P (getTotalNumberOfMaterials stub))
    (h7 : function = "deleteMaterial" → P (deleteMaterial stub args))
    (h8 : function = "getAllMaterialsAndIndexList" → P (getAllMaterialsAndIndexList stub))
    (h9 : function = "getMaterialIndexList" → P (getMaterialIndexList stub))
    (h10 : function = "initWand" → P (initWand stub args))
    (h11 : function = "readWand" → P (readWand stub args))
    (h12 : function = "getWandsByType" → P (getWandsByType stub args))
    (h13 : function = "getAllWands" → P (getAllWands stub))
    (h14 : function = "getNumberWandsByType" → P (getNumberwandsByType stub args))
    (h15 : function = "getTotalNumberOfWands" → P (getTotalNumberOfWands stub))
    (h16 : function = "deleteWand" → P (deletewand stub args))
    (h17 : P (Response.Error [Frag.str "Received unknown function invocation"], stub)) :
    P (Invoke stub function args) := by
  unfold Invoke
  by_cases e1 : function = "initMaterial"
  · rw [if_pos e1]
    exact h1 e1
  rw [if_neg e1]
  by_cases e2 : function = "readMaterial"
  · rw [if_pos e2]
    exact h2 e2
  rw [if_neg e2]
  by_cases e3 : function = "getMaterialsByType"
  · rw [if_pos e3]
    exact h3 e3
  rw [if_neg e3]
  by_cases e4 : function = "getAllMaterials"
  · rw [if_pos e4]
    exact h4 e4
  rw [if_neg e4]
  by_cases e5 : function = "getNumberMaterialsByType"
  · rw [if_pos e5]
    exact h5 e5
  rw [if_neg e5]
  by_cases e6 : function = "getTotalNumberOfMaterials"
  · rw [if_pos e6]
    exact h6 e6
  rw [if_neg e6]
  by_cases e7 : function = "deleteMaterial"
  · rw [if_pos e7]
    exact h7 e7
  rw [if_neg e7]
  by_cases e8 : function = "getAllMaterialsAndIndexList"
  · rw [if_pos e8]
    exact h8 e8
  rw [if_neg e8]
  by_cases e9 : function = "getMaterialIndexList"
  · rw [if_pos e9]
    exact h9 e9
  rw [if_neg e9]
  by_cases e10 : function = "initWand"
  · rw [if_pos e10]
    exact h10 e10
  rw [if_neg e10]
  by_cases e11 : function = "readWand"
  · rw [if_pos e11]
    exact h11 e11
  rw [if_neg e11]
  by_cases e12 : function = "getWandsByType"
  · rw [if_pos e12]
    exact h12 e12
  rw [if_neg e12]
  by_cases e13 : function = "getAllWands"
  · rw [if_pos e13]
    exact h13 e13
  rw [if_neg e13]
  by_cases e14 : function = "getNumberWandsByType"
  · rw [if_pos e14]
    exact h14 e14
  rw [if_neg e14]
  by_cases e15 : function = "getTotalNumberOfWands"
  · rw [if_pos e15]
    exact h15 e15
  rw [if_neg e15]
  by_cases e16 : function = "deleteWand"
  · rw [if_pos e16]
    exact h16 e16
  rw [if_neg e16]
  exact h17

/-- C20: apart from `initMaterial`, no operation adds an entry to the material index list:
after `Init` and after every invocation of another function (the deletes, `initWand`,
every query, an unknown name) the material index list is a sublist of the one stored
before (an absent or undecodable record counts as the empty list).  In particular
`deleteWand` leaves the record of the material index list as it was, or without a
record; it is as it was whenever the key of the list is neither the id of the call nor
one of the material ids of the deleted wand. -/
theorem C20_only_initMaterial_adds (stub : Store) :
    List.Sublist (materialIndex (Init stub).2) (materialIndex stub) ∧
    (∀ (function : String) (args : List String), function ≠ "initMaterial" →
      List.Sublist (materialIndex (Invoke stub function args).2) (materialIndex stub)) ∧
    (∀ args : List String,
      (deletewand stub args).2 "materialIndexList" = stub "materialIndexList" ∨
      (deletewand stub args).2 "materialIndexList" = none) ∧
    (∀ (id : String) (w : Wand), stub id = some (Bytes.wand w) →
      id ≠ "materialIndexList" → "materialIndexList" ∉ Slice.toList w.Materials →
      (deletewand stub [id]).2 "materialIndexList" = stub "materialIndexList") := by
  refine ⟨init_materialIndex stub, ?_, deletewand_materialIndex_record stub, ?_⟩
  · intro function args hne
    apply Invoke_cases (fun r => List.Sublist (materialIndex r.2) (materialIndex stub))
    · intro e
      exact absurd e hne
    · intro _
      simp only [readMaterial_store, List.Sublist.refl]
    · intro _
      simp only [getMaterialsByType_store, List.Sublist.refl]
    · intro _
      simp only [getAllMaterials_store, List.Sublist.refl]
    · intro _
      simp only [getNumberMaterialsByType_store, List.Sublist.refl]
    · intro _
      simp only [getTotalNumberOfMaterials_store, List.Sublist.refl]
    · intro _
      exact deleteMaterial_materialIndex stub args
    · intro _
      simp only [getAllMaterialsAndIndexList_store, List.Sublist.refl]
    · intro _
      simp only [getMaterialIndexList_store, List.Sublist.refl]
    · intro _
      exact initWand_materialIndex stub args
    · intro _
      simp only [readWand_store, List.Sublist.refl]
    · intro _
      simp only [getWandsByType_store, List.Sublist.refl]
    · intro _
      simp only [getAllWands_store, List.Sublist.refl]
    · intro _
      simp only [getNumberwandsByType_store, List.Sublist.refl]
    · intro _
      simp only [getTotalNumberOfWands_store, List.Sublist.refl]
    · intro _
      exact deletewand_materialIndex stub args
    · exact List.Sublist.refl _
  · intro id w hrec hid hm
    simp only [deletewand, GetState, hrec, unmarshalWand]
    repeat' split
    all_goals simp [DelState, PutState, deleteMaterialsLoop_get, hm, Ne.symm hid]

end Studio

namespace Studio

/-! ## The loops of the queries -/

theorem foldl_append_none {α : Type} (xs : List α) :
    xs.foldl Slice.append (none : Slice α) = sliceOf xs := by
  have key : ∀ (ys : List α) (acc : List α),
      ys.foldl Slice.append (some acc : Slice α) = some (acc ++ ys) := by
    intro ys
    induction ys with
    | nil => intro acc; simp
    | cons y rest ih =>
      intro acc
      simp only [List.foldl_cons, Slice.append, Slice.toList]
      rw [ih]
      simp
  cases xs with
  | nil => rfl
  | cons x rest =>
    simp only [List.foldl_cons, Slice.append, Slice.toList, sliceOf]
    rw [key]
    simp

/-- What the loop of `getMaterialsByType` returns when it runs to the end. -/
theorem materialsByTypeLoop_ok (stub : Store) (t : String) :
    ∀ (l : List String) (acc r : Slice Material),
      materialsByTypeLoop stub t l acc = Except.ok r →
      r = ((l.filterMap (entryMaterial stub)).filter (fun m => m.Typ = t)).foldl
            Slice.append acc ∧
      ∀ e, e ∈ l → (entryMaterial stub e).isSome = true := by
  intro l
  induction l with
  | nil =>
    intro acc r h
    simp only [materialsByTypeLoop, Except.ok.injEq] at h
    simp [h]
  | cons e rest ih =>
    intro acc r h
    simp only [materialsByTypeLoop, GetState] at h
    split at h
    · simp at h
    · rename_i ot parts hsplit
      split at h
      · simp at h
      · rename_i id hid
        split at h
        · simp at h
        · rename_i b hb
          split at h
          · simp at h
          · rename_i m hm
            have hem : entryMaterial stub e = some m := by
              simp [entryMaterial, entryID, hsplit, hid, hb, hm]
            split at h
            · rename_i hty
              obtain ⟨h1, h2⟩ := ih _ _ h
              refine ⟨?_, ?_⟩
              · rw [h1]
                simp [List.filterMap_cons, hem, hty]
              · intro x hx
                rcases List.mem_cons.mp hx with hx | hx
                · rw [hx, hem]
                  rfl
                · exact h2 x hx
            · rename_i hty
              obtain ⟨h1, h2⟩ := ih _ _ h
              refine ⟨?_, ?_⟩
              · rw [h1]
                simp [List.filterMap_cons, hem, hty]
              · intro x hx
                rcases List.mem_cons.mp hx with hx | hx
                · rw [hx, hem]
                  rfl
                · exact h2 x hx

/-- The loop of `getMaterialsByType` stops at the first entry whose record is missing. -/
theorem materialsByTypeLoop_missing (stub : Store) (t : String) (e id : String)
    (back : List String) (hid : entryID e = some id) (habs : stub id = none) :
    ∀ (front : List String) (acc : Slice Material),
      (∀ x, x ∈ front → (entryMaterial stub x).isSome = true) →
      materialsByTypeLoop stub t (front ++ e :: back) acc =
        Except.error (Response.Error [Frag.str "Material not found: ", Frag.str id]) := by
  intro front
  induction front with
  | nil =>
    intro acc _
    simp only [List.nil_append, materialsByTypeLoop, GetState]
    simp only [entryID] at hid
    split
    · rename_i hsplit
      simp [hsplit] at hid
    · rename_i ot parts hsplit
      simp only [hsplit] at hid
      simp [hid, habs]
  | cons x rest ih =>
    intro acc hfront
    have hx := hfront x (by simp)
    have hrest : ∀ y, y ∈ rest → (entryMaterial stub y).isSome = true :=
      fun y hy => hfront y (by simp [hy])
    simp only [List.cons_append, materialsByTypeLoop, GetState]
    simp only [entryMaterial, entryID] at hx
    split
    · rename_i hsplit
      simp [hsplit] at hx
    · rename_i ot parts hsplit
      simp only [hsplit] at hx
      split
      · rename_i hp
        simp [hp] at hx
      · rename_i id2 hp
        simp only [hp] at hx
        split
        · rename_i hb
          simp [hb] at hx
        · rename_i b hb
          simp only [hb] at hx
          split
          · rename_i er hm
            simp [hm] at hx
          · split
            · exact ih _ hrest
            · exact ih _ hrest

end Studio

namespace Studio

/-- Selecting by the type of the record and selecting by the type part of the entry give
the same materials when the two types agree on every entry. -/
theorem filter_record_type_eq_key_type (stub : Store) (t : String) :
    ∀ l : List String,
      (∀ e m, e ∈ l → entryMaterial stub e = some m → entryType e = some m.Typ) →
      (l.filterMap (entryMaterial stub)).filter (fun m => m.Typ = t) =
        (l.filter (fun e => entryType e = some t)).filterMap (entryMaterial stub) := by
  intro l
  induction l with
  | nil => intro _; rfl
  | cons e rest ih =>
    intro hcons
    have ih2 := ih (fun e m he hm => hcons e m (by simp [he]) hm)
    cases hem : entryMaterial stub e with
    | none =>
      by_cases hty : entryType e = some t
      · simp [List.filterMap_cons, List.filter_cons, hem, hty, ih2]
      · simp [List.filterMap_cons, List.filter_cons, hem, hty, ih2]
    | some m =>
      have hkey := hcons e m (by simp) hem
      by_cases hty : m.Typ = t
      · simp [List.filterMap_cons, List.filter_cons, hem, hkey, hty, ih2]
      · simp [List.filterMap_cons, List.filter_cons, hem, hkey, hty, ih2]

/-- The loop of `getMaterialsByType` never ends early with a success. -/
theorem materialsByTypeLoop_error (stub : Store) (t : String) :
    ∀ (xs : List String) (acc : Slice Material) (r : Response),
      materialsByTypeLoop stub t xs acc = Except.error r → r.isSuccess = false := by
  intro xs
  induction xs with
  | nil => intro acc r h; simp [materialsByTypeLoop] at h
  | cons x rest ih =>
    intro acc r h
    simp only [materialsByTypeLoop] at h
    repeat' split at h
    all_goals first
      | exact ih _ _ h
      | (simp only [Except.error.injEq] at h
         rw [← h]
         rfl)

/-- C11 (as stated, refuted): in the store left by `initMaterial(M1, wood, S1)`,
`deleteWand(M1)`, `initMaterial(M1, stone, S2)` the first index entry has the type part
`wood` and a record under its id, yet `getMaterialsByType(wood)` succeeds with no
material at all. -/
theorem C11_filter_is_not_on_key_type :
    storedList retypedStore "materialIndexList" =
      some [typeIDKey "wood" "M1", typeIDKey "stone" "M1"] ∧
    entryType (typeIDKey "wood" "M1") = some "wood" ∧
    entryMaterial retypedStore (typeIDKey "wood" "M1") =
      some ⟨"Material", "M1", "stone", "S2"⟩ ∧
    (getMaterialsByType retypedStore ["wood"]).1 =
      Response.Success (Payload.materials none) := by
  decide

/-- C11 (amended): when the material index list is readable, a successful
`getMaterialsByType(t)` returns, in the order of the index list, the decoded records of
exactly those index entries whose record (the one stored under the id part of the entry)
has type `t`, and every entry has such a record; these are the entries whose decoded type
part equals `t` whenever the type part of every entry equals the type of its record. -/
theorem C11_getMaterialsByType_by_record_type (stub : Store) (t : String) (l : List String)
    (hl : storedList stub "materialIndexList" = some l)
    (h : (getMaterialsByType stub [t]).1.isSuccess = true) :
    (getMaterialsByType stub [t]).1 =
      Response.Success (Payload.materials
        (sliceOf ((l.filterMap (entryMaterial stub)).filter (fun m => m.Typ = t)))) ∧
    (∀ e, e ∈ l → (entryMaterial stub e).isSome = true) ∧
    ((∀ e m, e ∈ l → entryMaterial stub e = some m → entryType e = some m.Typ) →
      (l.filterMap (entryMaterial stub)).filter (fun m => m.Typ = t) =
        (l.filter (fun e => entryType e = some t)).filterMap (entryMaterial stub)) := by
  unfold getMaterialsByType at h ⊢
  simp only [GetState] at h ⊢
  simp only [storedList] at hl
  split at h
  · simp [Response.isSuccess] at h
  · rename_i ml hml
    simp only [hml, Option.some.injEq] at hl
    subst hl
    split at h
    · rename_i r hr
      rw [materialsByTypeLoop_error _ _ _ _ _ hr] at h
      simp at h
    · rename_i r hr
      obtain ⟨h1, h2⟩ := materialsByTypeLoop_ok stub t _ _ _ hr
      rw [foldl_append_none] at h1
      exact ⟨by rw [h1], h2, filter_record_type_eq_key_type stub t _⟩

end Studio


namespace Studio

/-- C14 (as stated, refuted): the second entry of the material index list decodes to the
id `M1`, which has no record, yet `getMaterialsByType(wood)` does not fail with the
not-found error: it fails on the first entry, whose record (the wand index list) does not
decode as a material.  The same holds in the store reached by `driftCalls`. -/
theorem C14_failure_is_not_always_not_found :
    (storedList undecodableFirstStore "materialIndexList" =
        some [typeIDKey "wood" "wandsIndexList", typeIDKey "wood" "M1"] ∧
      entryID (typeIDKey "wood" "M1") = some "M1" ∧
      undecodableFirstStore "M1" = none ∧
      (getMaterialsByType undecodableFirstStore ["wood"]).1 =
        Response.Error [Frag.str "Failed to unmarshal material details: ", Frag.str "0",
          Frag.err LibError.jsonType]) ∧
    (storedList driftStore "materialIndexList" =
        some [typeIDKey "wood" "wandsIndexList", typeIDKey "wood" "M1"] ∧
      driftStore "M1" = none ∧
      (getMaterialsByType driftStore ["wood"]).1 =
        Response.Error [Frag.str "Failed to unmarshal material details: ", Frag.str "0",
          Frag.err LibError.jsonType]) := by
  decide

/-- C14 (amended): whenever some entry of the readable material index list decodes to an
id that has no record in the store, `getMaterialsByType(t)` does not succeed and returns
the store it was given (as it does on every input); it fails with the not-found error of
that id when every entry before it has a record that decodes as a material. -/
theorem C14_getMaterialsByType_missing_record (stub : Store) (t : String) (l : List String)
    (e id : String)
    (hl : storedList stub "materialIndexList" = some l)
    (he : e ∈ l) (hid : entryID e = some id) (habs : stub id = none) :
    (getMaterialsByType stub [t]).1.isSuccess = false ∧
    (∀ args : List String, (getMaterialsByType stub args).2 = stub) ∧
    (∀ front back : List String, l = front ++ e :: back →
      (∀ x, x ∈ front → (entryMaterial stub x).isSome = true) →
      (getMaterialsByType stub [t]).1 =
        Response.Error [Frag.str "Material not found: ", Frag.str id]) := by
  simp only [storedList] at hl
  refine ⟨?_, getMaterialsByType_store stub, ?_⟩
  · unfold getMaterialsByType
    simp only [GetState]
    split
    · rfl
    · rename_i ml hml
      simp only [hml, Option.some.injEq] at hl
      subst hl
      split
      · rename_i r hr
        exact materialsByTypeLoop_error _ _ _ _ _ hr
      · rename_i r hr
        exfalso
        have h2 := (materialsByTypeLoop_ok stub t _ _ _ hr).2 e he
        simp [entryMaterial, hid, habs] at h2
  · intro front back hsplit hfront
    unfold getMaterialsByType
    simp only [GetState]
    split
    · rename_i er hml
      simp [hml] at hl
    · rename_i ml hml
      simp only [hml, Option.some.injEq] at hl
      rw [hl, hsplit, materialsByTypeLoop_missing stub t e id back hid habs front none hfront]

end Studio

namespace Studio

/-- What the loop of `getAllMaterials` returns when every entry has an id part and every
record present decodes. -/
theorem allMaterialsLoop_ok (stub : Store) :
    ∀ (l : List String) (acc : Slice Material),
      (∀ e, e ∈ l → (entryID e).isSome = true) →
      (∀ e id b, e ∈ l → entryID e = some id → stub id = some b →
        ∃ m, unmarshalMaterial b = Except.ok m) →
      allMaterialsLoop stub l acc =
        Except.ok ((l.filterMap (entryMaterial stub)).foldl Slice.append acc) := by
  intro l
  induction l with
  | nil => intro acc _ _; rfl
  | cons e rest ih =>
    intro acc hids hdec
    have hrest1 : ∀ x, x ∈ rest → (entryID x).isSome = true :=
      fun x hx => hids x (by simp [hx])
    have hrest2 : ∀ x id b, x ∈ rest → entryID x = some id → stub id = some b →
        ∃ m, unmarshalMaterial b = Except.ok m :=
      fun x id b hx => hdec x id b (by simp [hx])
    have he := hids e (by simp)
    have hd := hdec e
    simp only [allMaterialsLoop, GetState]
    simp only [entryID] at he hd
    split
    · rename_i hsplit
      simp [hsplit] at he
    · rename_i ot parts hsplit
      simp only [hsplit] at he hd
      split
      · rename_i hp
        simp [hp] at he
      · rename_i id hp
        split
        · rename_i hb
          have hem : entryMaterial stub e = none := by
            simp [entryMaterial, entryID, hsplit, hp, hb]
          rw [ih acc hrest1 hrest2]
          simp [List.filterMap_cons, hem]
        · rename_i b hb
          obtain ⟨m, hm⟩ := hd id b (by simp) hp hb
          have hem : entryMaterial stub e = some m := by
            simp [entryMaterial, entryID, hsplit, hp, hb, hm]
          simp only [hm]
          rw [ih _ hrest1 hrest2]
          simp [List.filterMap_cons, hem]

/-- What `getAllMaterials` returns when the material index list is readable, every entry
has an id part, and every record present under such an id decodes: the decoded records of
the entries whose id has a record, in the order of the list. -/
theorem getAllMaterials_of_entries (stub : Store) (l : List String)
    (hl : storedList stub "materialIndexList" = some l)
    (hids : ∀ e, e ∈ l → (entryID e).isSome = true)
    (hdec : ∀ e id b, e ∈ l → entryID e = some id → stub id = some b →
      ∃ m, unmarshalMaterial b = Except.ok m) :
    getAllMaterials stub =
      (Response.Success (Payload.materials (sliceOf (l.filterMap (entryMaterial stub)))), stub) ∧
    (∀ e id, e ∈ l → entryID e = some id →
      (stub id = none → entryMaterial stub e = none) ∧
      (stub id ≠ none → (entryMaterial stub e).isSome = true)) := by
  constructor
  · simp only [storedList] at hl
    unfold getAllMaterials
    simp only [GetState]
    split
    · rename_i er hml
      simp [hml] at hl
    · rename_i ml hml
      simp only [hml, Option.some.injEq] at hl
      rw [hl, allMaterialsLoop_ok stub l none hids hdec, foldl_append_none]
  · intro e id he hid
    constructor
    · intro habs
      simp [entryMaterial, hid, habs]
    · intro hpres
      cases hb : stub id with
      | none => exact absurd hb hpres
      | some b =>
        obtain ⟨m, hm⟩ := hdec e id b he hid hb
        simp [entryMaterial, hid, hb, hm]

/-- What the loop of `getNumberMaterialsByType` returns when every entry has a type
part. -/
theorem numberMaterialsLoop_ok (t : String) :
    ∀ (l : List String) (n : Int),
      (∀ e, e ∈ l → (entryType e).isSome = true) →
      numberMaterialsLoop t l n =
        Except.ok (n + ((l.filter (fun e => entryType e = some t)).length : Int)) := by
  intro l
  induction l with
  | nil => intro n _; simp [numberMaterialsLoop]
  | cons e rest ih =>
    intro n htypes
    have hrest : ∀ x, x ∈ rest → (entryType x).isSome = true :=
      fun x hx => htypes x (by simp [hx])
    have he := htypes e (by simp)
    simp only [numberMaterialsLoop]
    simp only [entryType] at he
    split
    · rename_i hsplit
      simp [hsplit] at he
    · rename_i ot parts hsplit
      simp only [hsplit] at he
      split
      · rename_i hp
        simp [hp] at he
      · rename_i ty hp
        have hety : entryType e = some ty := by simp [entryType, hsplit, hp]
        split
        · rename_i hty
          rw [ih _ hrest]
          simp [List.filter_cons, hety, hty]
          omega
        · rename_i hty
          rw [ih _ hrest]
          simp [List.filter_cons, hety, hty]

/-- C17: when the material index list is readable and every entry decodes to a type,
`getNumberMaterialsByType(t)` succeeds and returns the number of entries whose decoded
type part equals `t`; the response is the same in every store that holds the same record
of the material index list, so no entity body is consulted. -/
theorem C17_getNumberMaterialsByType_counts_entries (stub : Store) (t : String)
    (l : List String)
    (hl : storedList stub "materialIndexList" = some l)
    (htypes : ∀ e, e ∈ l → (entryType e).isSome = true) :
    getNumberMaterialsByType stub [t] =
      (Response.Success
        (Payload.numMaterials ((l.filter (fun e => entryType e = some t)).length : Int)), stub) ∧
    (∀ other : Store, other "materialIndexList" = stub "materialIndexList" →
      (getNumberMaterialsByType other [t]).1 = (getNumberMaterialsByType stub [t]).1) := by
  constructor
  · simp only [storedList] at hl
    unfold getNumberMaterialsByType
    simp only [GetState]
    split
    · rename_i er hml
      simp [hml] at hl
    · rename_i ml hml
      simp only [hml, Option.some.injEq] at hl
      rw [hl, numberMaterialsLoop_ok t l 0 htypes]
      simp
  · intro other hsame
    unfold getNumberMaterialsByType
    simp only [GetState, hsame]
    split <;> (try split) <;> rfl

end Studio

namespace Studio

/-- What the loop of `getAllWands` returns when every entry has a record that decodes. -/
theorem allWandsLoop_ok (stub : Store) :
    ∀ (l : List String) (acc : Slice Wand),
      (∀ e, e ∈ l → (entryWand stub e).isSome = true) →
      allWandsLoop stub l acc =
        Except.ok ((l.filterMap (entryWand stub)).foldl Slice.append acc) := by
  intro l
  induction l with
  | nil => intro acc _; rfl
  | cons e rest ih =>
    intro acc hall
    have hrest : ∀ x, x ∈ rest → (entryWand stub x).isSome = true :=
      fun x hx => hall x (by simp [hx])
    have he := hall e (by simp)
    simp only [allWandsLoop, GetState]
    simp only [entryWand, entryID] at he
    split
    · rename_i hsplit
      simp [hsplit] at he
    · rename_i ot parts hsplit
      simp only [hsplit] at he
      split
      · rename_i hp
        simp [hp] at he
      · rename_i id hp
        simp only [hp] at he
        split
        · rename_i hb
          simp [hb] at he
        · rename_i b hb
          simp only [hb] at he
          split
          · rename_i er hw
            simp [hw] at he
          · rename_i w hw
            have hew : entryWand stub e = some w := by
              simp [entryWand, entryID, hsplit, hp, hb, hw]
            rw [ih _ hrest]
            simp [List.filterMap_cons, hew]

/-- The loop of `getAllWands` stops at the first entry whose record is missing. -/
theorem allWandsLoop_missing (stub : Store) (e id : String) (back : List String)
    (hid : entryID e = some id) (habs : stub id = none) :
    ∀ (front : List String) (acc : Slice Wand),
      (∀ x, x ∈ front → (entryWand stub x).isSome = true) →
      allWandsLoop stub (front ++ e :: back) acc =
        Except.error (Response.Error [Frag.str "Wand not found: ", Frag.str id]) := by
  intro front
  induction front with
  | nil =>
    intro acc _
    simp only [List.nil_append, allWandsLoop, GetState]
    simp only [entryID] at hid
    split
    · rename_i hsplit
      simp [hsplit] at hid
    · rename_i ot parts hsplit
      simp only [hsplit] at hid
      simp [hid, habs]
  | cons x rest ih =>
    intro acc hfront
    have hx := hfront x (by simp)
    have hrest : ∀ y, y ∈ rest → (entryWand stub y).isSome = true :=
      fun y hy => hfront y (by simp [hy])
    simp only [List.cons_append, allWandsLoop, GetState]
    simp only [entryWand, entryID] at hx
    split
    · rename_i hsplit
      simp [hsplit] at hx
    · rename_i ot parts hsplit
      simp only [hsplit] at hx
      split
      · rename_i hp
        simp [hp] at hx
      · rename_i id2 hp
        simp only [hp] at hx
        split
        · rename_i hb
          simp [hb] at hx
        · rename_i b hb
          simp only [hb] at hx
          split
          · rename_i er hm
            simp [hm] at hx
          · exact ih _ hrest

/-- C16 (as stated, refuted): in scenario B followed by `deleteMaterial(W1)` the wand
index list is readable and its only entry decodes to the id `W1`, whose record is missing;
`getAllWands` does not pass over it but fails. -/
theorem C16_getAllWands_fails_on_missing :
    (deleteMaterial scenarioB3 ["W1"]).1 = Response.Success Payload.nil ∧
    storedList danglingWandStore "wandsIndexList" = some [typeIDKey "standard" "W1"] ∧
    entryID (typeIDKey "standard" "W1") = some "W1" ∧
    danglingWandStore "W1" = none ∧
    (getAllWands danglingWandStore).1 =
      Response.Error [Frag.str "Wand not found: ", Frag.str "W1"] := by
  decide

/-- C16 (amended): `getAllWands` does not pass over a missing record as `getAllMaterials`
does.  When the wand index list is readable and every entry has a record that decodes,
it succeeds and returns the decoded records of the indexed wands in the order of the
list; when an entry decodes to an id whose record is missing (the entries before it
having records that decode), it fails with the not-found error of that id.  The store is
returned as it was. -/
theorem C16_getAllWands_requires_records (stub : Store) (l : List String)
    (hl : storedList stub "wandsIndexList" = some l) :
    ((∀ e, e ∈ l → (entryWand stub e).isSome = true) →
      getAllWands stub =
        (Response.Success (Payload.wands (sliceOf (l.filterMap (entryWand stub)))), stub) ∧
      (l.filterMap (entryWand stub)).length = l.length) ∧
    (∀ (front back : List String) (e id : String), l = front ++ e :: back →
      (∀ x, x ∈ front → (entryWand stub x).isSome = true) →
      entryID e = some id → stub id = none →
      getAllWands stub =
        (Response.Error [Frag.str "Wand not found: ", Frag.str id], stub)) := by
  simp only [storedList] at hl
  constructor
  · intro hall
    constructor
    · unfold getAllWands
      simp only [GetState]
      split
      · rename_i er hml
        simp [hml] at hl
      · rename_i ml hml
        simp only [hml, Option.some.injEq] at hl
        rw [hl, allWandsLoop_ok stub l none hall, foldl_append_none]
    · clear hl
      induction l with
      | nil => rfl
      | cons e rest ih =>
        have he := hall e (by simp)
        obtain ⟨w, hw⟩ := Option.isSome_iff_exists.mp he
        simp [List.filterMap_cons, hw, ih (fun x hx => hall x (by simp [hx]))]
  · intro front back e id hsplit hfront hid habs
    unfold getAllWands
    simp only [GetState]
    split
    · rename_i er hml
      simp [hml] at hl
    · rename_i ml hml
      simp only [hml, Option.some.injEq] at hl
      rw [hl, hsplit, allWandsLoop_missing stub e id back hid habs front none hfront]

/-- What the loop of `getNumberwandsByType` returns when every entry has a record that
decodes. -/
theorem numberWandsLoop_ok (stub : Store) (t : String) :
    ∀ (l : List String) (n : Int),
      (∀ e, e ∈ l → (entryWand stub e).isSome = true) →
      numberWandsLoop stub t l n =
        Except.ok (n + (((l.filterMap (entryWand stub)).filter (fun w => w.Typ = t)).length : Int)) := by
  intro l
  induction l with
  | nil => intro n _; simp [numberWandsLoop]
  | cons e rest ih =>
    intro n hall
    have hrest : ∀ x, x ∈ rest → (entryWand stub x).isSome = true :=
      fun x hx => hall x (by simp [hx])
    have he := hall e (by simp)
    simp only [numberWandsLoop, GetState]
    simp only [entryWand, entryID] at he
    split
    · rename_i hsplit
      simp [hsplit] at he
    · rename_i ot parts hsplit
      simp only [hsplit] at he
      split
      · rename_i hp
        simp [hp] at he
      · rename_i id hp
        simp only [hp] at he
        split
        · rename_i hb
          simp [hb] at he
        · rename_i b hb
          simp only [hb] at he
          split
          · rename_i er hw
            simp [hw] at he
          · rename_i w hw
            have hew : entryWand stub e = some w := by
              simp [entryWand, entryID, hsplit, hp, hb, hw]
            split
            · rename_i hty
              rw [ih _ hrest]
              simp [List.filterMap_cons, List.filter_cons, hew, hty]
              omega
            · rename_i hty
              rw [ih _ hrest]
              simp [List.filterMap_cons, List.filter_cons, hew, hty]

/-- The loop of `getNumberwandsByType` stops at the first entry whose record is missing. -/
theorem numberWandsLoop_missing (stub : Store) (t : String) (e id : String)
    (back : List String) (hid : entryID e = some id) (habs : stub id = none) :
    ∀ (front : List String) (n : Int),
      (∀ x, x ∈ front → (entryWand stub x).isSome = true) →
      numberWandsLoop stub t (front ++ e :: back) n =
        Except.error (Response.Error [Frag.str "wand not found: ", Frag.str id]) := by
  intro front
  induction front with
  | nil =>
    intro n _
    simp only [List.nil_append, numberWandsLoop, GetState]
    simp only [entryID] at hid
    split
    · rename_i hsplit
      simp [hsplit] at hid
    · rename_i ot parts hsplit
      simp only [hsplit] at hid
      simp [hid, habs]
  | cons x rest ih =>
    intro n hfront
    have hx := hfront x (by simp)
    have hrest : ∀ y, y ∈ rest → (entryWand stub y).isSome = true :=
      fun y hy => hfront y (by simp [hy])
    simp only [List.cons_append, numberWandsLoop, GetState]
    simp only [entryWand, entryID] at hx
    split
    · rename_i hsplit
      simp [hsplit] at hx
    · rename_i ot parts hsplit
      simp only [hsplit] at hx
      split
      · rename_i hp
        simp [hp] at hx
      · rename_i id2 hp
        simp only [hp] at hx
        split
        · rename_i hb
          simp [hb] at hx
        · rename_i b hb
          simp only [hb] at hx
          split
          · rename_i er hm
            simp [hm] at hx
          · split
            · exact ih _ hrest
            · exact ih _ hrest

/-- C18 (as stated, refuted): in scenario B followed by `deleteMaterial(W1)` the wand
index list is readable, its only entry decodes to the type `standard` and the id `W1`,
and the record of `W1` is missing; `getNumberWandsByType(standard)` does not return 1 but
fails. -/
theorem C18_getNumberWandsByType_fails_on_missing :
    storedList danglingWandStore "wandsIndexList" = some [typeIDKey "standard" "W1"] ∧
    entryType (typeIDKey "standard" "W1") = some "standard" ∧
    entryID (typeIDKey "standard" "W1") = some "W1" ∧
    danglingWandStore "W1" = none ∧
    (getNumberwandsByType danglingWandStore ["standard"]).1 =
      Response.Error [Frag.str "wand not found: ", Frag.str "W1"] := by
  decide

/-- C18 (amended): `getNumberWandsByType` does not mirror `getNumberMaterialsByType`: it
reads the record of every indexed wand.  When the wand index list is readable and every
entry has a record that decodes, it succeeds and returns the number of entries whose
record has type `t`; when an entry decodes to an id whose record is missing (the entries
before it having records that decode), it fails with the not-found error of that id. -/
theorem C18_getNumberWandsByType_reads_records (stub : Store) (t : String) (l : List String)
    (hl : storedList stub "wandsIndexList" = some l) :
    ((∀ e, e ∈ l → (entryWand stub e).isSome = true) →
      getNumberwandsByType stub [t] =
        (Response.Success (Payload.numWands
          (((l.filterMap (entryWand stub)).filter (fun w => w.Typ = t)).length : Int)), stub)) ∧
    (∀ (front back : List String) (e id : String), l = front ++ e :: back →
      (∀ x, x ∈ front → (entryWand stub x).isSome = true) →
      entryID e = some id → stub id = none →
      getNumberwandsByType stub [t] =
        (Response.Error [Frag.str "wand not found: ", Frag.str id], stub)) := by
  simp only [storedList] at hl
  constructor
  · intro hall
    unfold getNumberwandsByType
    simp only [GetState]
    split
    · rename_i er hml
      simp [hml] at hl
    · rename_i ml hml
      simp only [hml, Option.some.injEq] at hl
      rw [hl, numberWandsLoop_ok stub t l 0 hall]
      simp
  · intro front back e id hsplit hfront hid habs
    unfold getNumberwandsByType
    simp only [GetState]
    split
    · rename_i er hml
      simp [hml] at hl
    · rename_i ml hml
      simp only [hml, Option.some.injEq] at hl
      rw [hl, hsplit, numberWandsLoop_missing stub t e id back hid habs front 0 hfront]

end Studio

namespace Studio

/-! ## Composite keys: building and splitting -/

theorem valid_no_separator (a : String)
    (h : validateCompositeKeyAttribute a = Except.ok ()) : minUnicodeRuneValue ∉ a.data := by
  unfold validateCompositeKeyAttribute at h
  split at h
  · simp at h
  · rename_i hany
    intro hmem
    apply hany
    rw [List.any_eq_true]
    exact ⟨minUnicodeRuneValue, hmem, by simp⟩

theorem compositeKey_two_valid (objectType a b key : String)
    (h : CreateCompositeKey objectType [a, b] = Except.ok key) :
    validateCompositeKeyAttribute a = Except.ok () ∧
    validateCompositeKeyAttribute b = Except.ok () := by
  unfold CreateCompositeKey at h
  split at h
  · simp at h
  · simp only [compositeKeyAttributes] at h
    split at h
    · simp at h
    · rename_i u1 h1
      split at h
      · simp at h
      · rename_i u2 h2
        exact ⟨h1, h2⟩

theorem compositeKey_typeID_of_valid (a b : String)
    (ha : validateCompositeKeyAttribute a = Except.ok ())
    (hb : validateCompositeKeyAttribute b = Except.ok ()) :
    CreateCompositeKey "type~ID" [a, b] = Except.ok (typeIDKey a b) := by
  have h0 : validateCompositeKeyAttribute "type~ID" = Except.ok () := by rfl
  have h1 : CreateCompositeKey "type~ID" [a, b] =
      Except.ok (String.singleton minUnicodeRuneValue ++ "type~ID" ++
        String.singleton minUnicodeRuneValue ++ a ++ String.singleton minUnicodeRuneValue ++ b ++
        String.singleton minUnicodeRuneValue) := by
    simp [CreateCompositeKey, compositeKeyAttributes, h0, ha, hb]
  simp [typeIDKey, h1]

theorem typeIDKey_of_compositeKey (a b key : String)
    (h : CreateCompositeKey "type~ID" [a, b] = Except.ok key) : typeIDKey a b = key := by
  simp [typeIDKey, h]

theorem splitComponents_append (xs : List Char) (hxs : minUnicodeRuneValue ∉ xs) :
    ∀ (cur rest : List Char),
      splitComponents (xs ++ minUnicodeRuneValue :: rest) cur =
        String.mk (cur.reverse ++ xs) :: splitComponents rest [] := by
  induction xs with
  | nil =>
    intro cur rest
    simp [splitComponents]
  | cons c cs ih =>
    intro cur rest
    have hc : c ≠ minUnicodeRuneValue := by
      intro e
      apply hxs
      simp [e]
    have hcs : minUnicodeRuneValue ∉ cs := by
      intro e
      apply hxs
      simp [e]
    have hstep : splitComponents (c :: cs ++ minUnicodeRuneValue :: rest) cur =
        splitComponents (cs ++ minUnicodeRuneValue :: rest) (c :: cur) := by
      show splitComponents (c :: (cs ++ minUnicodeRuneValue :: rest)) cur = _
      rw [splitComponents]
      simp [hc]
    rw [hstep, ih hcs]
    simp

/-- Splitting the composite key of a type and an id gives the type and the id back. -/
theorem split_typeIDKey (a b : String)
    (ha : validateCompositeKeyAttribute a = Except.ok ())
    (hb : validateCompositeKeyAttribute b = Except.ok ()) :
    SplitCompositeKey (typeIDKey a b) = some ("type~ID", [a, b]) := by
  have hk := compositeKey_typeID_of_valid a b ha hb
  have hd := compositeKey_two_data "type~ID" a b _ hk
  have h0 : minUnicodeRuneValue ∉ "type~ID".data := by decide
  unfold SplitCompositeKey
  rw [hd]
  simp only [List.tail_cons]
  rw [splitComponents_append _ h0, splitComponents_append _ (valid_no_separator a ha)]
  have h3 : b.data ++ [minUnicodeRuneValue] = b.data ++ minUnicodeRuneValue :: [] := rfl
  rw [h3, splitComponents_append _ (valid_no_separator b hb)]
  simp [splitComponents]

theorem entryID_typeIDKey (a b : String)
    (ha : validateCompositeKeyAttribute a = Except.ok ())
    (hb : validateCompositeKeyAttribute b = Except.ok ()) :
    entryID (typeIDKey a b) = some b := by
  simp [entryID, split_typeIDKey a b ha hb]

theorem entryType_typeIDKey (a b : String)
    (ha : validateCompositeKeyAttribute a = Except.ok ())
    (hb : validateCompositeKeyAttribute b = Except.ok ()) :
    entryType (typeIDKey a b) = some a := by
  simp [entryType, split_typeIDKey a b ha hb]

/-- An attribute the shim accepts is not itself a composite key. -/
theorem valid_ne_compositeKey (x objectType a b key : String)
    (hx : validateCompositeKeyAttribute x = Except.ok ())
    (h : CreateCompositeKey objectType [a, b] = Except.ok key) : x ≠ key := by
  intro e
  have hd := compositeKey_two_data objectType a b key h
  apply valid_no_separator x hx
  rw [e, hd]
  simp

end Studio

namespace Studio

/-! ## Lists of materials and their keys -/

theorem entryID_materialKey (m : Material)
    (hm : validateCompositeKeyAttribute m.Typ = Except.ok () ∧
      validateCompositeKeyAttribute m.ID = Except.ok ()) :
    entryID (materialKey m) = some m.ID :=
  entryID_typeIDKey m.Typ m.ID hm.1 hm.2

theorem filter_id_ne_of_absent (A : List Material) (id : String)
    (h : ∀ m, m ∈ A → m.ID ≠ id) : A.filter (fun m => m.ID ≠ id) = A := by
  rw [List.filter_eq_self]
  intro m hm
  simpa using h m hm

theorem nodup_ids_tail_absent (a : Material) (rest : List Material)
    (h : ((a :: rest).map (fun m => m.ID)).Nodup) : ∀ m, m ∈ rest → m.ID ≠ a.ID := by
  intro m hm e
  simp only [List.map_cons, List.nodup_cons] at h
  apply h.1
  rw [← e]
  exact List.mem_map_of_mem (fun m => m.ID) hm

theorem nodup_ids_filter (A : List Material) (p : Material → Bool)
    (h : (A.map (fun m => m.ID)).Nodup) : ((A.filter p).map (fun m => m.ID)).Nodup :=
  List.Nodup.sublist (List.Sublist.map _ (List.filter_sublist A)) h

/-- Removing the first entry with a given id part from the keys of the books. -/
theorem removeFirstWithID_map_key (id : String) :
    ∀ A : List Material,
      (∀ m, m ∈ A → validateCompositeKeyAttribute m.Typ = Except.ok () ∧
        validateCompositeKeyAttribute m.ID = Except.ok ()) →
      (A.map (fun m => m.ID)).Nodup →
      removeFirstWithID id (A.map materialKey) =
        (A.filter (fun m => m.ID ≠ id)).map materialKey := by
  intro A
  induction A with
  | nil => intro _ _; rfl
  | cons a rest ih =>
    intro hvalid hnodup
    have ha := entryID_materialKey a (hvalid a (by simp))
    have hrestv : ∀ m, m ∈ rest → validateCompositeKeyAttribute m.Typ = Except.ok () ∧
        validateCompositeKeyAttribute m.ID = Except.ok () :=
      fun m hm => hvalid m (by simp [hm])
    have hrestn : (rest.map (fun m => m.ID)).Nodup := by
      simp only [List.map_cons, List.nodup_cons] at hnodup
      exact hnodup.2
    simp only [List.map_cons, removeFirstWithID, ha, Option.some.injEq]
    by_cases e : a.ID = id
    · have hrest : rest.filter (fun m => m.ID ≠ id) = rest := by
        apply filter_id_ne_of_absent
        intro m hm
        rw [← e]
        exact nodup_ids_tail_absent a rest hnodup m hm
      simp only [ne_eq, decide_not] at hrest
      simp [e, List.filter_cons, hrest]
    · have ih2 := ih hrestv hrestn
      simp only [ne_eq, decide_not] at ih2
      simp [e, List.filter_cons, ih2]

/-- Erasing the key of a material from the keys of the books. -/
theorem erase_map_key (m0 : Material)
    (hm0 : validateCompositeKeyAttribute m0.Typ = Except.ok () ∧
      validateCompositeKeyAttribute m0.ID = Except.ok ()) :
    ∀ A : List Material,
      (∀ m, m ∈ A → validateCompositeKeyAttribute m.Typ = Except.ok () ∧
        validateCompositeKeyAttribute m.ID = Except.ok ()) →
      (A.map (fun m => m.ID)).Nodup →
      (∀ m, m ∈ A → m.ID = m0.ID → m = m0) →
      (A.map materialKey).erase (materialKey m0) =
        (A.filter (fun m => m.ID ≠ m0.ID)).map materialKey := by
  intro A
  induction A with
  | nil => intro _ _ _; rfl
  | cons a rest ih =>
    intro hvalid hnodup huniq
    have ha := entryID_materialKey a (hvalid a (by simp))
    have h0 := entryID_materialKey m0 hm0
    have hrestv : ∀ m, m ∈ rest → validateCompositeKeyAttribute m.Typ = Except.ok () ∧
        validateCompositeKeyAttribute m.ID = Except.ok () :=
      fun m hm => hvalid m (by simp [hm])
    have hrestn : (rest.map (fun m => m.ID)).Nodup := by
      simp only [List.map_cons, List.nodup_cons] at hnodup
      exact hnodup.2
    have hrestu : ∀ m, m ∈ rest → m.ID = m0.ID → m = m0 :=
      fun m hm => huniq m (by simp [hm])
    by_cases e : a.ID = m0.ID
    · have ham : a = m0 := huniq a (by simp) e
      have hrest : rest.filter (fun m => m.ID ≠ m0.ID) = rest := by
        apply filter_id_ne_of_absent
        intro m hm
        rw [← e]
        exact nodup_ids_tail_absent a rest hnodup m hm
      simp only [ne_eq, decide_not] at hrest
      subst ham
      simp [List.filter_cons, hrest]
    · have hk : materialKey a ≠ materialKey m0 := by
        intro hkk
        rw [hkk, h0] at ha
        exact e (Option.some.inj ha).symm
      simp only [List.map_cons, List.filter_cons]
      rw [List.erase_cons_tail (by simpa using hk)]
      have ih2 := ih hrestv hrestn hrestu
      simp only [ne_eq, decide_not] at ih2 ⊢
      simp [e, ih2]

theorem filter_id_length (id : String) :
    ∀ A : List Material, (A.map (fun m => m.ID)).Nodup →
      (A.filter (fun m => m.ID ≠ id)).length +
        (if id ∈ A.map (fun m => m.ID) then 1 else 0) = A.length := by
  intro A
  induction A with
  | nil => intro _; rfl
  | cons a rest ih =>
    intro hnodup
    have hrestn : (rest.map (fun m => m.ID)).Nodup := by
      simp only [List.map_cons, List.nodup_cons] at hnodup
      exact hnodup.2
    have ih2 := ih hrestn
    by_cases e : a.ID = id
    · have hnot : id ∉ rest.map (fun m => m.ID) := by
        simp only [List.map_cons, List.nodup_cons] at hnodup
        rw [← e]
        exact hnodup.1
      rw [if_neg hnot] at ih2
      have h1 : (a :: rest).filter (fun m => m.ID ≠ id) = rest.filter (fun m => m.ID ≠ id) := by
        rw [List.filter_cons]
        simp [e]
      have h2 : id ∈ (a :: rest).map (fun m => m.ID) := by simp [e]
      rw [h1, if_pos h2, List.length_cons]
      omega
    · have h1 : (a :: rest).filter (fun m => m.ID ≠ id) =
          a :: rest.filter (fun m => m.ID ≠ id) := by
        rw [List.filter_cons]
        simp [e]
      have h2 : id ∈ (a :: rest).map (fun m => m.ID) ↔ id ∈ rest.map (fun m => m.ID) := by
        have e2 : ¬ id = a.ID := fun h => e h.symm
        simp [e2]
      rw [h1, List.length_cons, List.length_cons]
      by_cases hin : id ∈ rest.map (fun m => m.ID)
      · rw [if_pos hin] at ih2
        rw [if_pos (h2.mpr hin)]
        omega
      · rw [if_neg hin] at ih2
        rw [if_neg (fun h => hin (h2.mp h))]
        omega

end Studio

namespace Studio

theorem removeMaterialLoop_found_exists (m : String) (L : List String) :
    ∀ (rest : List String) (i : Nat) (l2 : List String),
      removeMaterialLoop m L rest i = Scan.found l2 →
      ∃ e, e ∈ rest ∧ entryID e = some m := by
  intro rest
  induction rest with
  | nil =>
    intro i l2 h
    simp [removeMaterialLoop] at h
  | cons ck rest ih =>
    intro i l2 h
    simp only [removeMaterialLoop] at h
    split at h
    · simp at h
    · rename_i ot parts hsplit
      split at h
      · simp at h
      · rename_i listID hid
        split at h
        · rename_i heq
          refine ⟨ck, by simp, ?_⟩
          simp [entryID, hsplit, hid, heq]
        · obtain ⟨e, he, hee⟩ := ih _ _ h
          exact ⟨e, by simp [he], hee⟩

/-- The loop of `initWand` over the materials, read on the books: the materials with the
listed ids leave the books, each listed id was in the books, and as many materials leave
as ids are listed. -/
theorem consumeMaterials_books (ms : List String) :
    ∀ (A : List Material) (ml updated : Slice String),
      (∀ m, m ∈ A → validateCompositeKeyAttribute m.Typ = Except.ok () ∧
        validateCompositeKeyAttribute m.ID = Except.ok ()) →
      (A.map (fun m => m.ID)).Nodup →
      Slice.toList ml = A.map materialKey →
      consumeMaterials ms ml = Except.ok updated →
      Slice.toList updated = (A.filter (fun m => m.ID ∉ ms)).map materialKey ∧
      (A.filter (fun m => m.ID ∉ ms)).length + ms.length = A.length ∧
      (∀ x, x ∈ ms → x ∈ A.map (fun m => m.ID)) := by
  induction ms with
  | nil =>
    intro A ml updated _ _ hml h
    simp only [consumeMaterials, Except.ok.injEq] at h
    subst h
    simp [hml]
  | cons m rest ih =>
    intro A ml updated hvalid hnodup hml h
    simp only [consumeMaterials] at h
    split at h
    · simp at h
    · simp at h
    · rename_i l3 hscan
      have h1 := removeMaterialLoop_found m (Slice.toList ml) [] l3 (by simpa using hscan)
      simp only [List.nil_append] at h1
      rw [hml, removeFirstWithID_map_key m A hvalid hnodup] at h1
      obtain ⟨e, he, hee⟩ := removeMaterialLoop_found_exists m _ _ _ _ hscan
      rw [hml] at he
      obtain ⟨a, haA, hae⟩ := List.mem_map.mp he
      have haid : a.ID = m := by
        have := entryID_materialKey a (hvalid a haA)
        rw [hae, hee] at this
        exact (Option.some.inj this).symm
      have hmin : m ∈ A.map (fun x => x.ID) := List.mem_map.mpr ⟨a, haA, haid⟩
      have hvalid2 : ∀ x, x ∈ A.filter (fun x => x.ID ≠ m) →
          validateCompositeKeyAttribute x.Typ = Except.ok () ∧
          validateCompositeKeyAttribute x.ID = Except.ok () :=
        fun x hx => hvalid x (List.mem_of_mem_filter hx)
      have hnodup2 := nodup_ids_filter A (fun x => x.ID ≠ m) hnodup
      obtain ⟨r1, r2, r3⟩ := ih (A.filter (fun x => x.ID ≠ m)) (some l3) updated hvalid2 hnodup2
        (by simp [Slice.toList, h1]) h
      have hlen := filter_id_length m A hnodup
      rw [if_pos hmin] at hlen
      have hff : (A.filter (fun x => x.ID ≠ m)).filter (fun x => x.ID ∉ rest) =
          A.filter (fun x => x.ID ∉ m :: rest) := by
        rw [List.filter_filter]
        congr 1
        funext x
        by_cases e1 : x.ID = m <;> by_cases e2 : x.ID ∈ rest <;> simp [e1, e2]
      rw [hff] at r1 r2
      refine ⟨r1, ?_, ?_⟩
      · simp only [List.length_cons]
        omega
      · intro x hx
        rcases List.mem_cons.mp hx with hx | hx
        · rw [hx]
          exact hmin
        · have := r3 x hx
          obtain ⟨y, hy, hyx⟩ := List.mem_map.mp this
          exact List.mem_map.mpr ⟨y, List.mem_of_mem_filter hy, hyx⟩

end Studio

namespace Studio

/-! ## The books stay in agreement with the store -/

theorem storedList_some (stub : Store) (k : String) (l : List String)
    (h : storedList stub k = some l) :
    ∃ ml, unmarshalStrings (stub k) = Except.ok ml ∧ Slice.toList ml = l := by
  simp only [storedList] at h
  split at h
  · rename_i ml hml
    exact ⟨ml, hml, Option.some.inj h⟩
  · simp at h

theorem storedList_isSome (stub : Store) (k : String)
    (h : (storedList stub k).isSome = true) :
    ∃ ml, unmarshalStrings (stub k) = Except.ok ml := by
  obtain ⟨l, hl⟩ := Option.isSome_iff_exists.mp h
  obtain ⟨ml, hml, _⟩ := storedList_some stub k l hl
  exact ⟨ml, hml⟩

theorem material_record_not_list (stub : Store) (k key : String) (m : Material)
    (ml : Slice String) (hk : stub k = some (Bytes.material m))
    (hl : unmarshalStrings (stub key) = Except.ok ml) : k ≠ key := by
  intro e
  rw [← e, hk] at hl
  simp [unmarshalStrings] at hl

theorem wand_record_not_list (stub : Store) (k key : String) (w : Wand)
    (ml : Slice String) (hk : stub k = some (Bytes.wand w))
    (hl : unmarshalStrings (stub key) = Except.ok ml) : k ≠ key := by
  intro e
  rw [← e, hk] at hl
  simp [unmarshalStrings] at hl

theorem absent_not_list (stub : Store) (k key : String) (ml : Slice String)
    (hk : stub k = none) (hl : unmarshalStrings (stub key) = Except.ok ml) : k ≠ key := by
  intro e
  rw [← e, hk] at hl
  simp [unmarshalStrings] at hl

theorem isSuccess_exists (r : Response) (h : r.isSuccess = true) :
    ∃ p, r = Response.Success p := by
  cases r with
  | Success p => exact ⟨p, rfl⟩
  | Error msg => simp [Response.isSuccess] at h
  | GoPanic => simp [Response.isSuccess] at h

theorem storedList_putState_same (stub : Store) (k : String) (l : Slice String) :
    storedList (PutState stub k (marshalStrings l)) k = some (Slice.toList l) := by
  cases l with
  | none => simp [storedList, PutState, marshalStrings, unmarshalStrings]
  | some l => simp [storedList, PutState, marshalStrings, unmarshalStrings]

theorem storedList_congr (s1 s2 : Store) (k : String) (h : s1 k = s2 k) :
    storedList s1 k = storedList s2 k := by
  simp [storedList, h]

theorem toList_append {α : Type} (l : Slice α) (x : α) :
    Slice.toList (Slice.append l x) = Slice.toList l ++ [x] := rfl

/-- A successful `initMaterial` keeps the books in agreement. -/
theorem agrees_initMaterial (stub : Store) (b : Books) (args : List String)
    (hA : Agrees stub b) (h : (initMaterial stub args).1.isSuccess = true) :
    Agrees (initMaterial stub args).2 (b.record (Call.initMaterial args)) := by
  obtain ⟨p, hp⟩ := isSuccess_exists _ h
  obtain ⟨id, ty, sup, key, indexList, hargs, _, hnone, hkey, hdec, hrun⟩ :=
    initMaterial_success stub args p hp
  subst hargs
  obtain ⟨ml, hml, hmll⟩ := storedList_some _ _ _ hA.index
  obtain ⟨wl, hwl⟩ := storedList_isSome _ _ hA.wandIndexReadable
  have hidx : id ≠ "materialIndexList" := absent_not_list stub _ _ ml hnone hml
  have hidw : id ≠ "wandsIndexList" := absent_not_list stub _ _ wl hnone hwl
  have hk1 : key ≠ "materialIndexList" := compositeKey_ne_materialIndexList _ _ _ _ hkey
  have hkw : key ≠ "wandsIndexList" := compositeKey_ne_wandsIndexList _ _ _ _ hkey
  have hk2 : key ≠ id := compositeKey_ne_second _ _ _ _ hkey
  have hv := compositeKey_two_valid _ _ _ _ hkey
  have htk : typeIDKey ty id = key := typeIDKey_of_compositeKey _ _ _ hkey
  rw [getState_putState_other _ _ _ _ (Ne.symm hidx)] at hdec
  have hil : ml = indexList := by
    cases hs : stub "materialIndexList" with
    | none =>
      rw [hs] at hml
      simp [unmarshalStrings] at hml
    | some v =>
      rw [hs] at hml hdec
      simp only [unmarshalIfPresent] at hdec
      rw [hml] at hdec
      exact Except.ok.inj hdec
  subst hil
  have hbooks : b.record (Call.initMaterial [id, ty, sup]) =
      { available := b.available ++ [⟨"Material", id, ty, sup⟩], created := b.created + 1,
        deletedAvailable := b.deletedAvailable, consumed := b.consumed } := rfl
  rw [hbooks, hrun]
  have hne_of_mem : ∀ m, m ∈ b.available →
      m.ID ≠ id ∧ m.ID ≠ "materialIndexList" ∧ m.ID ≠ key := by
    intro m hm
    have hb := hA.body m hm
    refine ⟨?_, material_record_not_list stub _ _ m ml hb hml,
      valid_ne_compositeKey _ _ _ _ _ (hA.valid m hm).2 hkey⟩
    intro e
    rw [e, hnone] at hb
    simp at hb
  constructor
  · intro m hm
    simp only [List.mem_append, List.mem_singleton] at hm
    rcases hm with hm | hm
    · exact hA.valid m hm
    · subst hm
      exact hv
  · rw [storedList_congr _ (PutState (PutState stub id
        (Bytes.material ⟨"Material", id, ty, sup⟩)) "materialIndexList"
        (marshalStrings (Slice.append ml key))) _ (by simp [PutState, Ne.symm hk1]),
      storedList_putState_same, toList_append, hmll]
    simp [materialKey, htk]
  · intro m hm
    simp only [List.mem_append, List.mem_singleton] at hm
    rcases hm with hm | hm
    · obtain ⟨h1, h2, h3⟩ := hne_of_mem m hm
      simp only [PutState, h1, h2, h3, if_false]
      exact hA.body m hm
    · subst hm
      simp [PutState, Ne.symm hk2, hidx]
  · simp only [List.map_append, List.map_cons, List.map_nil]
    rw [List.nodup_append]
    refine ⟨hA.nodup, by simp, ?_⟩
    intro x hx hx2
    simp only [List.mem_singleton] at hx2
    subst hx2
    obtain ⟨m, hm, hmx⟩ := List.mem_map.mp hx
    exact (hne_of_mem m hm).1 hmx
  · intro k m hk
    by_cases e1 : k = key
    · simp [PutState, e1] at hk
    · by_cases e2 : k = "materialIndexList"
      · simp [PutState, e2, Ne.symm hk1, marshalStrings, Slice.append] at hk
      · by_cases e3 : k = id
        · subst e3
          simp only [PutState, e1, e2, if_false, if_true, Option.some.injEq,
            Bytes.material.injEq] at hk
          subst hk
          rfl
        · simp only [PutState, e1, e2, e3, if_false] at hk
          exact hA.ids k m hk
  · have : (PutState (PutState (PutState stub id (Bytes.material ⟨"Material", id, ty, sup⟩))
        "materialIndexList" (marshalStrings (Slice.append ml key))) key Bytes.sentinel)
        "wandsIndexList" = stub "wandsIndexList" := by
      simp [PutState, Ne.symm hkw, Ne.symm hidw]
    simp only [storedList, this]
    simpa [storedList] using hA.wandIndexReadable
  · intro k w hk
    by_cases e1 : k = key
    · simp [PutState, e1] at hk
    · by_cases e2 : k = "materialIndexList"
      · simp [PutState, e2, Ne.symm hk1, marshalStrings, Slice.append] at hk
      · by_cases e3 : k = id
        · subst e3
          simp [PutState, e1, e2] at hk
        · simp only [PutState, e1, e2, e3, if_false] at hk
          exact hA.wandMaterials k w hk
  · simp only [List.length_append, List.length_singleton]
    have := hA.count
    omega

end Studio

namespace Studio

theorem admitted_deleteMaterial (stub : Store) (id : String)
    (h : (Call.deleteMaterial [id]).admitted stub = true) :
    ∃ m, stub id = some (Bytes.material m) := by
  simp only [Call.admitted] at h
  split at h
  · rename_i m hm
    exact ⟨m, hm⟩
  · simp at h

theorem admitted_deleteWand (stub : Store) (id : String)
    (h : (Call.deleteWand [id]).admitted stub = true) :
    ∃ w, stub id = some (Bytes.wand w) ∧
      ∀ m, m ∈ Slice.toList w.Materials → m ∉ indexedIDs stub := by
  simp only [Call.admitted] at h
  split at h
  · rename_i w hw
    refine ⟨w, hw, ?_⟩
    intro m hm hin
    rw [List.all_eq_true] at h
    have := h m hm
    simp [hin] at this
  · simp at h

theorem toList_map_erase (l : Slice String) (key : String) :
    Slice.toList (Option.map (fun l => l.erase key) l) = (Slice.toList l).erase key := by
  cases l with
  | none => rfl
  | some l => rfl

/-- A successful `deleteMaterial` on a Material record keeps the books in agreement. -/
theorem agrees_deleteMaterial (stub : Store) (b : Books) (args : List String)
    (hA : Agrees stub b) (hadm : (Call.deleteMaterial args).admitted stub = true)
    (h : (deleteMaterial stub args).1.isSuccess = true) :
    Agrees (deleteMaterial stub args).2 (b.record (Call.deleteMaterial args)) := by
  obtain ⟨id, b0, mat, key, indexList, hargs, hb, hmat, hne, hkey, hdec, hrun⟩ :=
    deleteMaterial_success stub args h
  subst hargs
  obtain ⟨m0, hm0⟩ := admitted_deleteMaterial stub id hadm
  rw [hm0] at hb
  simp only [Option.some.injEq] at hb
  subst hb
  simp only [unmarshalMaterial, Except.ok.injEq] at hmat
  subst hmat
  have hid0 : m0.ID = id := hA.ids id m0 hm0
  have hv0 := compositeKey_two_valid _ _ _ _ hkey
  have hk0 : materialKey m0 = key := typeIDKey_of_compositeKey _ _ _ hkey
  obtain ⟨ml, hml, hmll⟩ := storedList_some _ _ _ hA.index
  obtain ⟨wl, hwl⟩ := storedList_isSome _ _ hA.wandIndexReadable
  rw [hml] at hdec
  have hil : ml = indexList := Except.ok.inj hdec
  subst hil
  have hidw : id ≠ "wandsIndexList" := material_record_not_list stub _ _ m0 wl hm0 hwl
  have hbooks : b.record (Call.deleteMaterial [id]) =
      { available := b.available.filter (fun m => m.ID ≠ id), created := b.created,
        deletedAvailable :=
          b.deletedAvailable + (if id ∈ b.available.map (fun m => m.ID) then 1 else 0),
        consumed := b.consumed } := rfl
  rw [hbooks, hrun]
  show Agrees (PutState (DelState stub id) "materialIndexList"
    (marshalStrings (Option.map (fun l => l.erase key) ml))) _
  have huniq : ∀ m, m ∈ b.available → m.ID = m0.ID → m = m0 := by
    intro m hm e
    have hbm := hA.body m hm
    rw [e, hid0, hm0] at hbm
    simp only [Option.some.injEq, Bytes.material.injEq] at hbm
    exact hbm.symm
  constructor
  · intro m hm
    have hm2 : m ∈ b.available.filter (fun m => m.ID ≠ id) := hm
    exact hA.valid m (List.mem_of_mem_filter hm2)
  · rw [storedList_putState_same, toList_map_erase, hmll, ← hk0,
      erase_map_key m0 hv0 b.available hA.valid hA.nodup huniq, hid0]
  · intro m hm
    have hm2 : m ∈ b.available.filter (fun m => m.ID ≠ id) := hm
    have hmA := List.mem_of_mem_filter hm2
    have hmid : ¬ m.ID = id := of_decide_eq_true (List.mem_filter.mp hm2).2
    have hmx : m.ID ≠ "materialIndexList" :=
      material_record_not_list stub _ _ m ml (hA.body m hmA) hml
    simp only [PutState, DelState, hmx, hmid, if_false]
    exact hA.body m hmA
  · exact nodup_ids_filter _ _ hA.nodup
  · intro k m hk
    by_cases e1 : k = "materialIndexList"
    · rw [e1] at hk
      rw [getState_putState_same] at hk
      cases hh : Option.map (fun l => l.erase key) ml with
      | none => rw [hh] at hk; simp [marshalStrings] at hk
      | some v => rw [hh] at hk; simp [marshalStrings] at hk
    · by_cases e2 : k = id
      · subst e2
        simp [PutState, DelState, e1] at hk
      · simp only [PutState, DelState, e1, e2, if_false] at hk
        exact hA.ids k m hk
  · rw [storedList_congr _ stub _ (by simp [PutState, DelState, Ne.symm hidw])]
    exact hA.wandIndexReadable
  · intro k w hk
    by_cases e1 : k = "materialIndexList"
    · rw [e1] at hk
      rw [getState_putState_same] at hk
      cases hh : Option.map (fun l => l.erase key) ml with
      | none => rw [hh] at hk; simp [marshalStrings] at hk
      | some v => rw [hh] at hk; simp [marshalStrings] at hk
    · by_cases e2 : k = id
      · subst e2
        simp [PutState, DelState, e1] at hk
      · simp only [PutState, DelState, e1, e2, if_false] at hk
        exact hA.wandMaterials k w hk
  · have h1 := filter_id_length id b.available hA.nodup
    have h2 := hA.count
    simp only
    omega

end Studio

namespace Studio

theorem wandMaterials_of_loop (wandID wandType wandColor arg3 arg4 arg5 : String)
    (rest : List String) (num : Int) (materials : Slice String)
    (hnum : Atoi arg4 = Except.ok num)
    (hloop : materialsLoop (wandID :: wandType :: wandColor :: arg3 :: arg4 :: arg5 :: rest)
      (wrapInt64 (5 + num) - 5).toNat 5 none = some materials) :
    wandMaterials (wandID :: wandType :: wandColor :: arg3 :: arg4 :: arg5 :: rest) =
      Slice.toList materials := by
  simp [wandMaterials, hnum, hloop]

/-- A successful `initWand` keeps the books in agreement. -/
theorem agrees_initWand (stub : Store) (b : Books) (args : List String)
    (hA : Agrees stub b) (h : (initWand stub args).1.isSuccess = true) :
    Agrees (initWand stub args).2 (b.record (Call.initWand args)) := by
  obtain ⟨wandID, wandType, wandColor, arg3, arg4, arg5, rest, wandSize, num, materials, key,
    wl, ml, updated, hargs, _, hnum, hloop, _, hnone, h1, h2, hkey, hwl, hml, hc, hrun⟩ :=
    initWand_success stub args h
  subst hargs
  have hms := wandMaterials_of_loop _ _ _ _ _ _ _ _ _ hnum hloop
  obtain ⟨ml2, hml2, hmll⟩ := storedList_some _ _ _ hA.index
  rw [hml] at hml2
  have hil : ml = ml2 := Except.ok.inj hml2
  subst hil
  obtain ⟨wl2, hwl2⟩ := storedList_isSome _ _ hA.wandIndexReadable
  obtain ⟨r1, r2, r3⟩ := consumeMaterials_books _ b.available ml updated hA.valid hA.nodup
    hmll hc
  have hbooks : b.record (Call.initWand
      (wandID :: wandType :: wandColor :: arg3 :: arg4 :: arg5 :: rest)) =
      { available := b.available.filter (fun m => m.ID ∉ Slice.toList materials),
        created := b.created, deletedAvailable := b.deletedAvailable,
        consumed := b.consumed + (Slice.toList materials).length } := by
    simp only [Books.record, hms]
  rw [hbooks, hrun]
  show Agrees (PutState (PutState (PutState stub wandID
      (Bytes.wand ⟨"Wand", wandID, wandType, wandColor, wandSize, materials⟩))
      "wandsIndexList" (marshalStrings (Slice.append wl key)))
      "materialIndexList" (marshalStrings updated)) _
  have hne_of_mem : ∀ m, m ∈ b.available →
      m.ID ≠ wandID ∧ m.ID ≠ "materialIndexList" ∧ m.ID ≠ "wandsIndexList" := by
    intro m hm
    have hb := hA.body m hm
    refine ⟨?_, material_record_not_list stub _ _ m ml hb hml,
      material_record_not_list stub _ _ m wl2 hb hwl2⟩
    intro e
    rw [e, hnone] at hb
    simp at hb
  constructor
  · intro m hm
    have hm2 : m ∈ b.available.filter (fun m => m.ID ∉ Slice.toList materials) := hm
    exact hA.valid m (List.mem_of_mem_filter hm2)
  · rw [storedList_putState_same, r1]
  · intro m hm
    have hm2 : m ∈ b.available.filter (fun m => m.ID ∉ Slice.toList materials) := hm
    have hmA := List.mem_of_mem_filter hm2
    obtain ⟨e1, e2, e3⟩ := hne_of_mem m hmA
    simp only [PutState, e1, e2, e3, if_false]
    exact hA.body m hmA
  · exact nodup_ids_filter _ _ hA.nodup
  · intro k m hk
    by_cases e1 : k = "materialIndexList"
    · rw [e1, getState_putState_same] at hk
      cases updated with
      | none => simp [marshalStrings] at hk
      | some v => simp [marshalStrings] at hk
    · by_cases e2 : k = "wandsIndexList"
      · rw [e2] at hk
        simp [PutState, marshalStrings, Slice.append] at hk
      · by_cases e3 : k = wandID
        · subst e3
          simp [PutState, e1, e2] at hk
        · simp only [PutState, e1, e2, e3, if_false] at hk
          exact hA.ids k m hk
  · rw [storedList_congr _ (PutState (PutState stub wandID
        (Bytes.wand ⟨"Wand", wandID, wandType, wandColor, wandSize, materials⟩))
        "wandsIndexList" (marshalStrings (Slice.append wl key))) _ (by simp [PutState]),
      storedList_putState_same]
    rfl
  · intro k w hk
    by_cases e1 : k = "materialIndexList"
    · rw [e1, getState_putState_same] at hk
      cases updated with
      | none => simp [marshalStrings] at hk
      | some v => simp [marshalStrings] at hk
    · by_cases e2 : k = "wandsIndexList"
      · rw [e2] at hk
        simp [PutState, marshalStrings, Slice.append] at hk
      · by_cases e3 : k = wandID
        · subst e3
          simp only [PutState, e1, e2, if_false, if_true, Option.some.injEq,
            Bytes.wand.injEq] at hk
          subst hk
          constructor
          · intro hin
            obtain ⟨a, haA, hax⟩ := List.mem_map.mp (r3 _ hin)
            exact (hne_of_mem a haA).2.1 hax
          · intro hin
            obtain ⟨a, haA, hax⟩ := List.mem_map.mp (r3 _ hin)
            exact (hne_of_mem a haA).2.2 hax
        · simp only [PutState, e1, e2, e3, if_false] at hk
          exact hA.wandMaterials k w hk
  · have := hA.count
    simp only
    omega

end Studio

namespace Studio

theorem filterMap_entryID_keys :
    ∀ A : List Material,
      (∀ m, m ∈ A → validateCompositeKeyAttribute m.Typ = Except.ok () ∧
        validateCompositeKeyAttribute m.ID = Except.ok ()) →
      (A.map materialKey).filterMap entryID = A.map (fun m => m.ID) := by
  intro A
  induction A with
  | nil => intro _; rfl
  | cons a rest ih =>
    intro hvalid
    have ha := entryID_materialKey a (hvalid a (by simp))
    simp [List.filterMap_cons, ha, ih (fun m hm => hvalid m (by simp [hm]))]

theorem indexedIDs_of_agrees (stub : Store) (b : Books) (hA : Agrees stub b) :
    indexedIDs stub = b.available.map (fun m => m.ID) := by
  simp only [indexedIDs, materialIndex, hA.index, Option.getD_some]
  exact filterMap_entryID_keys _ hA.valid

/-- A successful `deleteWand` on a Wand record that lists no indexed id keeps the books in
agreement. -/
theorem agrees_deleteWand (stub : Store) (b : Books) (args : List String)
    (hA : Agrees stub b) (hadm : (Call.deleteWand args).admitted stub = true)
    (h : (deletewand stub args).1.isSuccess = true) :
    Agrees (deletewand stub args).2 (b.record (Call.deleteWand args)) := by
  obtain ⟨id, b0, w, key, indexList, hargs, hb, hw, hne, hkey, hdec, hrun⟩ :=
    deletewand_success stub args h
  subst hargs
  obtain ⟨w0, hw0, hfree⟩ := admitted_deleteWand stub id hadm
  rw [hw0] at hb
  simp only [Option.some.injEq] at hb
  subst hb
  simp only [unmarshalWand, Except.ok.injEq] at hw
  subst hw
  obtain ⟨ml, hml, hmll⟩ := storedList_some _ _ _ hA.index
  have hidm : id ≠ "materialIndexList" := wand_record_not_list stub _ _ w0 ml hw0 hml
  have hlists := hA.wandMaterials id w0 hw0
  have hbooks : b.record (Call.deleteWand [id]) = b := rfl
  rw [hbooks, hrun]
  show Agrees (deleteMaterialsLoop (Slice.toList w0.Materials)
    (PutState (DelState stub id) "wandsIndexList" (marshalStrings
      (updatedIndexListLoop key (Slice.toList indexList) (Slice.toList indexList) 0)))) b
  have hother : ∀ k, k ∉ Slice.toList w0.Materials → k ≠ "wandsIndexList" → k ≠ id →
      deleteMaterialsLoop (Slice.toList w0.Materials)
        (PutState (DelState stub id) "wandsIndexList" (marshalStrings
          (updatedIndexListLoop key (Slice.toList indexList) (Slice.toList indexList) 0))) k =
        stub k := by
    intro k hk1 hk2 hk3
    rw [deleteMaterialsLoop_get]
    simp [hk1, hk2, hk3, PutState, DelState]
  have hsub : ∀ k v, deleteMaterialsLoop (Slice.toList w0.Materials)
        (PutState (DelState stub id) "wandsIndexList" (marshalStrings
          (updatedIndexListLoop key (Slice.toList indexList) (Slice.toList indexList) 0))) k =
        some v → k ≠ "wandsIndexList" → stub k = some v := by
    intro k v hk hk2
    rw [deleteMaterialsLoop_get] at hk
    by_cases e1 : k ∈ Slice.toList w0.Materials
    · simp [e1] at hk
    · by_cases e3 : k = id
      · subst e3
        simp [e1, PutState, DelState, hk2] at hk
      · simp only [e1, if_false, PutState, hk2, DelState, e3] at hk
        exact hk
  have hids := indexedIDs_of_agrees stub b hA
  have hne_of_mem : ∀ m, m ∈ b.available →
      m.ID ∉ Slice.toList w0.Materials ∧ m.ID ≠ "wandsIndexList" ∧ m.ID ≠ id := by
    intro m hm
    have hb := hA.body m hm
    obtain ⟨wl, hwl⟩ := storedList_isSome _ _ hA.wandIndexReadable
    refine ⟨?_, material_record_not_list stub _ _ m wl hb hwl, ?_⟩
    · intro hin
      apply hfree m.ID hin
      rw [hids]
      exact List.mem_map_of_mem (fun m => m.ID) hm
    · intro e
      rw [e, hw0] at hb
      simp at hb
  constructor
  · exact hA.valid
  · rw [storedList_congr _ stub _ (hother _ hlists.1 (by decide) (Ne.symm hidm))]
    exact hA.index
  · intro m hm
    obtain ⟨e1, e2, e3⟩ := hne_of_mem m hm
    rw [hother _ e1 e2 e3]
    exact hA.body m hm
  · exact hA.nodup
  · intro k m hk
    by_cases e2 : k = "wandsIndexList"
    · rw [e2, deleteMaterialsLoop_get] at hk
      simp only [hlists.2, if_false, getState_putState_same] at hk
      cases hu : updatedIndexListLoop key (Slice.toList indexList) (Slice.toList indexList) 0 with
      | none => rw [hu] at hk; simp [marshalStrings] at hk
      | some v => rw [hu] at hk; simp [marshalStrings] at hk
    · exact hA.ids k m (hsub k _ hk e2)
  · have : deleteMaterialsLoop (Slice.toList w0.Materials)
        (PutState (DelState stub id) "wandsIndexList" (marshalStrings
          (updatedIndexListLoop key (Slice.toList indexList) (Slice.toList indexList) 0)))
        "wandsIndexList" = (PutState (DelState stub id) "wandsIndexList" (marshalStrings
          (updatedIndexListLoop key (Slice.toList indexList) (Slice.toList indexList) 0)))
        "wandsIndexList" := by
      rw [deleteMaterialsLoop_get]
      simp [hlists.2]
    rw [storedList_congr _ _ _ this, storedList_putState_same]
    rfl
  · intro k w hk
    by_cases e2 : k = "wandsIndexList"
    · rw [e2, deleteMaterialsLoop_get] at hk
      simp only [hlists.2, if_false, getState_putState_same] at hk
      cases hu : updatedIndexListLoop key (Slice.toList indexList) (Slice.toList indexList) 0 with
      | none => rw [hu] at hk; simp [marshalStrings] at hk
      | some v => rw [hu] at hk; simp [marshalStrings] at hk
    · exact hA.wandMaterials k w (hsub k _ hk e2)
  · exact hA.count

end Studio

namespace Studio

theorem agrees_initialised : Agrees initialised Books.empty := by
  have hs : ∀ k, initialised k =
      if k = "wandsIndexList" then some Bytes.null
      else if k = "materialIndexList" then some Bytes.null else none := by
    intro k
    simp [initialised, Init, GetState, emptyStore, PutState, marshalStrings]
  constructor
  · intro m hm
    simp [Books.empty] at hm
  · simp [storedList, hs, unmarshalStrings, Books.empty, Slice.toList]
  · intro m hm
    simp [Books.empty] at hm
  · simp [Books.empty]
  · intro k m hk
    rw [hs] at hk
    split at hk
    · simp at hk
    · split at hk <;> simp at hk
  · simp [storedList, hs, unmarshalStrings]
  · intro k w hk
    rw [hs] at hk
    split at hk
    · simp at hk
    · split at hk <;> simp at hk
  · rfl

/-- One admitted, successful call keeps the books in agreement. -/
theorem agrees_step (stub : Store) (b : Books) (c : Call) (hA : Agrees stub b)
    (hadm : c.admitted stub = true) (h : (c.run stub).1.isSuccess = true) :
    Agrees (c.run stub).2 (b.record c) := by
  cases c with
  | initMaterial args => exact agrees_initMaterial stub b args hA h
  | deleteMaterial args => exact agrees_deleteMaterial stub b args hA hadm h
  | initWand args => exact agrees_initWand stub b args hA h
  | deleteWand args => exact agrees_deleteWand stub b args hA hadm h

theorem agrees_runCalls (calls : List Call) :
    ∀ (stub final : Store) (b : Books), Agrees stub b → runCalls calls stub = some final →
      Agrees final (calls.foldl Books.record b) := by
  induction calls with
  | nil =>
    intro stub final b hA h
    simp only [runCalls, Option.some.injEq] at h
    subst h
    exact hA
  | cons c cs ih =>
    intro stub final b hA h
    simp only [runCalls] at h
    split at h
    · rename_i hc
      simp only [Bool.and_eq_true] at hc
      exact ih _ _ _ (agrees_step stub b c hA hc.1 hc.2) h
    · simp at h

/-- The books agree with every store reached from the initialised store. -/
theorem agrees_reached (calls : List Call) (stub : Store)
    (h : runCalls calls initialised = some stub) : Agrees stub (booksAfter calls) :=
  agrees_runCalls calls initialised stub Books.empty agrees_initialised h

end Studio


namespace Studio

/-- The loop of `getMaterialsByType` runs to the end when every entry has a record that
decodes. -/
theorem materialsByTypeLoop_total (stub : Store) (t : String) :
    ∀ (l : List String) (acc : Slice Material),
      (∀ e, e ∈ l → (entryMaterial stub e).isSome = true) →
      materialsByTypeLoop stub t l acc =
        Except.ok (((l.filterMap (entryMaterial stub)).filter (fun m => m.Typ = t)).foldl
          Slice.append acc) := by
  intro l
  induction l with
  | nil => intro acc _; rfl
  | cons e rest ih =>
    intro acc hall
    have hrest : ∀ x, x ∈ rest → (entryMaterial stub x).isSome = true :=
      fun x hx => hall x (by simp [hx])
    have he := hall e (by simp)
    simp only [materialsByTypeLoop, GetState]
    simp only [entryMaterial, entryID] at he
    split
    · rename_i hsplit
      simp [hsplit] at he
    · rename_i ot parts hsplit
      simp only [hsplit] at he
      split
      · rename_i hp
        simp [hp] at he
      · rename_i id hp
        simp only [hp] at he
        split
        · rename_i hb
          simp [hb] at he
        · rename_i b hb
          simp only [hb] at he
          split
          · rename_i er hm
            simp [hm] at he
          · rename_i m hm
            have hem : entryMaterial stub e = some m := by
              simp [entryMaterial, entryID, hsplit, hp, hb, hm]
            split
            · rename_i hty
              rw [ih _ hrest]
              simp [List.filterMap_cons, hem, hty]
            · rename_i hty
              rw [ih _ hrest]
              simp [List.filterMap_cons, hem, hty]

theorem entryMaterial_of_agrees (stub : Store) (b : Books) (hA : Agrees stub b) (m : Material)
    (hm : m ∈ b.available) : entryMaterial stub (materialKey m) = some m := by
  simp [entryMaterial, entryID_materialKey m (hA.valid m hm), hA.body m hm, unmarshalMaterial]

theorem filterMap_entryMaterial_of_agrees (stub : Store) (b : Books) (hA : Agrees stub b) :
    (b.available.map materialKey).filterMap (entryMaterial stub) = b.available := by
  have key : ∀ A : List Material, (∀ m, m ∈ A → entryMaterial stub (materialKey m) = some m) →
      (A.map materialKey).filterMap (entryMaterial stub) = A := by
    intro A
    induction A with
    | nil => intro _; rfl
    | cons a rest ih =>
      intro h
      simp [List.filterMap_cons, h a (by simp), ih (fun m hm => h m (by simp [hm]))]
  exact key _ (entryMaterial_of_agrees stub b hA)

/-- C12 (as stated, refuted): two histories of successful calls from the initialised store
after which `getMaterialsByType(wood)` returns no list but fails.  In the first, `M1` is
created and `deleteWand(M1)` removes its record.  In the second every delete is applied to
an id of its own kind: `M1` is created, consumed by `W1`, deleted, created again, and the
deletion of `W1` removes the record of the new `M1`, whose entry stays in the index. -/
theorem C12_history_with_failing_query :
    (succeedAll crossKindCalls initialised = true ∧
      (getMaterialsByType (runAll crossKindCalls initialised) ["wood"]).1 =
        Response.Error [Frag.str "Material not found: ", Frag.str "M1"]) ∧
    (succeedAll recreatedCalls initialised = true ∧
      runAll (recreatedCalls.take 2) initialised "M1" =
        some (Bytes.material ⟨"Material", "M1", "wood", "S1"⟩) ∧
      runAll (recreatedCalls.take 4) initialised "W1" =
        some (Bytes.wand ⟨"Wand", "W1", "standard", "brown", 10, some ["M1"]⟩) ∧
      storedList (runAll recreatedCalls initialised) "materialIndexList" =
        some [typeIDKey "wood" "M1"] ∧
      (getMaterialsByType (runAll recreatedCalls initialised) ["wood"]).1 =
        Response.Error [Frag.str "Material not found: ", Frag.str "M1"]) := by
  decide

/-- C12 (amended): in every store reached from the initialised store by a sequence of
successful `initMaterial`, `deleteMaterial`, `initWand` and `deleteWand` calls in which
each delete is applied to an id of its own kind and no wand is deleted while an id it
lists has an entry in the material index list, `getMaterialsByType(t)` returns exactly the
materials that were created with type `t` and have not since been deleted nor consumed by
a wand creation, each once, in the order in which they were created. -/
theorem C12_getMaterialsByType_history (calls : List Call) (stub : Store) (t : String)
    (h : runCalls calls initialised = some stub) :
    getMaterialsByType stub [t] =
      (Response.Success (Payload.materials
        (sliceOf ((booksAfter calls).available.filter (fun m => m.Typ = t)))), stub) ∧
    ((booksAfter calls).available.map (fun m => m.ID)).Nodup := by
  have hA := agrees_reached calls stub h
  refine ⟨?_, hA.nodup⟩
  obtain ⟨ml, hml, hmll⟩ := storedList_some _ _ _ hA.index
  unfold getMaterialsByType
  simp only [GetState, hml]
  have hall : ∀ e, e ∈ Slice.toList ml → (entryMaterial stub e).isSome = true := by
    intro e he
    rw [hmll] at he
    obtain ⟨m, hm, hme⟩ := List.mem_map.mp he
    rw [← hme, entryMaterial_of_agrees stub _ hA m hm]
    rfl
  rw [materialsByTypeLoop_total stub t _ none hall, foldl_append_none, hmll,
    filterMap_entryMaterial_of_agrees stub _ hA]

/-- C13 (as stated, refuted): in scenario B two materials were created and none was
deleted, yet the material index list is empty and `getTotalNumberOfMaterials` returns 0. -/
theorem C13_count_is_not_creations_minus_deletions :
    succeedAll scenarioBCalls initialised = true ∧
    (booksAfter scenarioBCalls).created = 2 ∧
    storedList (runAll scenarioBCalls initialised) "materialIndexList" = some [] ∧
    (getTotalNumberOfMaterials (runAll scenarioBCalls initialised)).1 =
      Response.Success (Payload.numMaterials 0) := by
  decide

end Studio

namespace Studio

/-! ## The wand index list along a history -/

theorem wandIndex_congr (s1 s2 : Store) (h : s1 "wandsIndexList" = s2 "wandsIndexList") :
    wandIndex s1 = wandIndex s2 := by
  simp [wandIndex, storedList, h]

theorem wandIndex_of_marshal (s1 : Store) (l : Slice String)
    (h : s1 "wandsIndexList" = some (marshalStrings l)) : wandIndex s1 = Slice.toList l := by
  cases l with
  | none => simp [wandIndex, storedList, h, marshalStrings, unmarshalStrings]
  | some l => simp [wandIndex, storedList, h, marshalStrings, unmarshalStrings]

theorem wandIndex_of_unmarshal (s1 : Store) (l : Slice String)
    (h : unmarshalStrings (s1 "wandsIndexList") = Except.ok l) :
    wandIndex s1 = Slice.toList l := by
  simp [wandIndex, storedList, h]

theorem wandsAgree_initialised : WandsAgree initialised 0 0 := by
  have hs : ∀ k, initialised k =
      if k = "wandsIndexList" then some Bytes.null
      else if k = "materialIndexList" then some Bytes.null else none := by
    intro k
    simp [initialised, Init, GetState, emptyStore, PutState, marshalStrings]
  constructor
  · intro k w hk
    rw [hs] at hk
    split at hk
    · simp at hk
    · split at hk <;> simp at hk
  · simp [wandIndex, storedList, hs, unmarshalStrings, Slice.toList]

/-- A successful `initMaterial` leaves the wand records and the wand index list alone. -/
theorem wandsAgree_initMaterial (stub : Store) (b : Books) (args : List String) (c d : Nat)
    (hA : Agrees stub b) (hW : WandsAgree stub c d)
    (h : (initMaterial stub args).1.isSuccess = true) :
    WandsAgree (initMaterial stub args).2 c d := by
  obtain ⟨p, hp⟩ := isSuccess_exists _ h
  obtain ⟨id, ty, sup, key, indexList, hargs, _, hnone, hkey, hdec, hrun⟩ :=
    initMaterial_success stub args p hp
  obtain ⟨wl, hwl⟩ := storedList_isSome _ _ hA.wandIndexReadable
  have hidw : id ≠ "wandsIndexList" := absent_not_list stub _ _ wl hnone hwl
  have hkw : key ≠ "wandsIndexList" := compositeKey_ne_wandsIndexList _ _ _ _ hkey
  have hk1 : key ≠ "materialIndexList" := compositeKey_ne_materialIndexList _ _ _ _ hkey
  rw [hrun]
  show WandsAgree (PutState (PutState (PutState stub id
    (Bytes.material ⟨"Material", id, ty, sup⟩)) "materialIndexList"
    (marshalStrings (Slice.append indexList key))) key Bytes.sentinel) c d
  have hwi : wandIndex (PutState (PutState (PutState stub id
      (Bytes.material ⟨"Material", id, ty, sup⟩)) "materialIndexList"
      (marshalStrings (Slice.append indexList key))) key Bytes.sentinel) = wandIndex stub :=
    wandIndex_congr _ _ (by simp [PutState, Ne.symm hkw, Ne.symm hidw])
  constructor
  · intro k w hk
    rw [hwi]
    by_cases e1 : k = key
    · simp [PutState, e1] at hk
    · by_cases e2 : k = "materialIndexList"
      · simp [PutState, e2, Ne.symm hk1, marshalStrings, Slice.append] at hk
      · by_cases e3 : k = id
        · subst e3
          simp [PutState, e1, e2] at hk
        · simp only [PutState, e1, e2, e3, if_false] at hk
          exact hW.keys k w hk
  · rw [hwi]
    exact hW.count

/-- A successful `deleteMaterial` on a Material record leaves the wand records and the
wand index list alone. -/
theorem wandsAgree_deleteMaterial (stub : Store) (b : Books) (args : List String) (c d : Nat)
    (hA : Agrees stub b) (hW : WandsAgree stub c d)
    (hadm : (Call.deleteMaterial args).admitted stub = true)
    (h : (deleteMaterial stub args).1.isSuccess = true) :
    WandsAgree (deleteMaterial stub args).2 c d := by
  obtain ⟨id, b0, mat, key, indexList, hargs, hb, hmat, hne, hkey, hdec, hrun⟩ :=
    deleteMaterial_success stub args h
  subst hargs
  obtain ⟨m0, hm0⟩ := admitted_deleteMaterial stub id hadm
  obtain ⟨wl, hwl⟩ := storedList_isSome _ _ hA.wandIndexReadable
  have hidw : id ≠ "wandsIndexList" := material_record_not_list stub _ _ m0 wl hm0 hwl
  rw [hrun]
  show WandsAgree (PutState (DelState stub id) "materialIndexList"
    (marshalStrings (Option.map (fun l => l.erase key) indexList))) c d
  have hwi : wandIndex (PutState (DelState stub id) "materialIndexList"
      (marshalStrings (Option.map (fun l => l.erase key) indexList))) = wandIndex stub :=
    wandIndex_congr _ _ (by simp [PutState, DelState, Ne.symm hidw])
  constructor
  · intro k w hk
    rw [hwi]
    by_cases e1 : k = "materialIndexList"
    · rw [e1, getState_putState_same] at hk
      cases hh : Option.map (fun l => l.erase key) indexList with
      | none => rw [hh] at hk; simp [marshalStrings] at hk
      | some v => rw [hh] at hk; simp [marshalStrings] at hk
    · by_cases e2 : k = id
      · subst e2
        simp [PutState, DelState, e1] at hk
      · simp only [PutState, DelState, e1, e2, if_false] at hk
        exact hW.keys k w hk
  · rw [hwi]
    exact hW.count

/-- A successful `initWand` adds the record of the wand and its key at the end of the
wand index list. -/
theorem wandsAgree_initWand (stub : Store) (b : Books) (args : List String) (c d : Nat)
    (hA : Agrees stub b) (hW : WandsAgree stub c d)
    (h : (initWand stub args).1.isSuccess = true) :
    WandsAgree (initWand stub args).2 (c + 1) d := by
  obtain ⟨wandID, wandType, wandColor, arg3, arg4, arg5, rest, wandSize, num, materials, key,
    wl, ml, updated, hargs, _, hnum, hloop, _, hnone, h1, h2, hkey, hwl, hml, hc, hrun⟩ :=
    initWand_success stub args h
  obtain ⟨wl2, hwl2⟩ := storedList_isSome _ _ hA.wandIndexReadable
  have hwl3 : unmarshalStrings (stub "wandsIndexList") = Except.ok wl := by
    rcases unmarshalIfPresent_ok _ _ hwl with ⟨hn, _⟩ | ⟨_, hh⟩
    · rw [hn] at hwl2
      simp [unmarshalStrings] at hwl2
    · exact hh
  have hv := compositeKey_two_valid _ _ _ _ hkey
  have htk : typeIDKey wandType wandID = key := typeIDKey_of_compositeKey _ _ _ hkey
  rw [hrun]
  show WandsAgree (PutState (PutState (PutState stub wandID
      (Bytes.wand ⟨"Wand", wandID, wandType, wandColor, wandSize, materials⟩))
      "wandsIndexList" (marshalStrings (Slice.append wl key)))
      "materialIndexList" (marshalStrings updated)) (c + 1) d
  have hwi : wandIndex (PutState (PutState (PutState stub wandID
      (Bytes.wand ⟨"Wand", wandID, wandType, wandColor, wandSize, materials⟩))
      "wandsIndexList" (marshalStrings (Slice.append wl key)))
      "materialIndexList" (marshalStrings updated)) = wandIndex stub ++ [key] := by
    rw [wandIndex_of_marshal _ (Slice.append wl key) (by simp [PutState]),
      wandIndex_of_unmarshal stub wl hwl3, toList_append]
  constructor
  · intro k w hk
    rw [hwi]
    by_cases e1 : k = "materialIndexList"
    · rw [e1, getState_putState_same] at hk
      cases updated with
      | none => simp [marshalStrings] at hk
      | some v => simp [marshalStrings] at hk
    · by_cases e2 : k = "wandsIndexList"
      · rw [e2] at hk
        simp [PutState, marshalStrings, Slice.append] at hk
      · by_cases e3 : k = wandID
        · subst e3
          simp only [PutState, e1, e2, if_false, if_true, Option.some.injEq,
            Bytes.wand.injEq] at hk
          subst hk
          exact ⟨rfl, hv.1, hv.2, by simp [htk]⟩
        · simp only [PutState, e1, e2, e3, if_false] at hk
          obtain ⟨r1, r2, r3, r4⟩ := hW.keys k w hk
          exact ⟨r1, r2, r3, by simp [r4]⟩
  · rw [hwi]
    have := hW.count
    simp only [List.length_append, List.length_singleton]
    omega

/-- A successful `deleteWand` on a Wand record that lists no indexed id removes the record
and one entry of the wand index list. -/
theorem wandsAgree_deleteWand (stub : Store) (b : Books) (args : List String) (c d : Nat)
    (hA : Agrees stub b) (hW : WandsAgree stub c d)
    (hadm : (Call.deleteWand args).admitted stub = true)
    (h : (deletewand stub args).1.isSuccess = true) :
    WandsAgree (deletewand stub args).2 c (d + 1) := by
  obtain ⟨id, b0, w, key, indexList, hargs, hb, hw, hne, hkey, hdec, hrun⟩ :=
    deletewand_success stub args h
  subst hargs
  obtain ⟨w0, hw0, hfree⟩ := admitted_deleteWand stub id hadm
  rw [hw0] at hb
  simp only [Option.some.injEq] at hb
  subst hb
  simp only [unmarshalWand, Except.ok.injEq] at hw
  subst hw
  have hlists := hA.wandMaterials id w0 hw0
  obtain ⟨hid0, hv1, hv2, hin⟩ := hW.keys id w0 hw0
  have htk : typeIDKey w0.Typ w0.ID = key := typeIDKey_of_compositeKey _ _ _ hkey
  have hwl : wandIndex stub = Slice.toList indexList := wandIndex_of_unmarshal stub _ hdec
  rw [htk, hwl] at hin
  have hloop : updatedIndexListLoop key (Slice.toList indexList) (Slice.toList indexList) 0 =
      some ((Slice.toList indexList).erase key) := by
    have := updatedIndexListLoop_eq key (Slice.toList indexList) []
    simp only [List.nil_append, List.length_nil] at this
    rw [this, if_pos hin]
  rw [hrun, hloop]
  show WandsAgree (deleteMaterialsLoop (Slice.toList w0.Materials)
    (PutState (DelState stub id) "wandsIndexList" (marshalStrings
      (some ((Slice.toList indexList).erase key))))) c (d + 1)
  have hwi : wandIndex (deleteMaterialsLoop (Slice.toList w0.Materials)
      (PutState (DelState stub id) "wandsIndexList" (marshalStrings
        (some ((Slice.toList indexList).erase key))))) = (Slice.toList indexList).erase key := by
    rw [wandIndex_of_marshal _ (some ((Slice.toList indexList).erase key))]
    · rfl
    · rw [deleteMaterialsLoop_get]
      simp [hlists.2, PutState]
  constructor
  · intro k w hk
    rw [hwi]
    rw [deleteMaterialsLoop_get] at hk
    by_cases e1 : k ∈ Slice.toList w0.Materials
    · simp [e1] at hk
    · by_cases e2 : k = "wandsIndexList"
      · rw [e2] at hk
        simp [hlists.2, PutState, marshalStrings] at hk
      · by_cases e3 : k = id
        · subst e3
          simp [e1, PutState, DelState, e2] at hk
        · simp only [e1, if_false, PutState, e2, DelState, e3] at hk
          obtain ⟨r1, r2, r3, r4⟩ := hW.keys k w hk
          refine ⟨r1, r2, r3, ?_⟩
          rw [hwl] at r4
          have hkne : typeIDKey w.Typ w.ID ≠ key := by
            intro e
            have ha := entryID_typeIDKey w.Typ w.ID r2 r3
            have hb := entryID_typeIDKey w0.Typ w0.ID hv1 hv2
            rw [e, ← htk, hb] at ha
            have : w0.ID = w.ID := Option.some.inj ha
            rw [hid0, r1] at this
            exact e3 this.symm
          exact (List.mem_erase_of_ne hkne).mpr r4
  · rw [hwi]
    have h1 := hW.count
    rw [hwl] at h1
    have h2 := List.length_erase_of_mem hin
    have h3 : 0 < (Slice.toList indexList).length := List.length_pos_of_mem hin
    omega

theorem wandsAgree_runCalls (calls : List Call) :
    ∀ (stub final : Store) (b : Books) (c d : Nat), Agrees stub b → WandsAgree stub c d →
      runCalls calls stub = some final →
      WandsAgree final (c + wandsCreated calls) (d + wandsDeleted calls) := by
  induction calls with
  | nil =>
    intro stub final b c d _ hW h
    simp only [runCalls, Option.some.injEq] at h
    subst h
    exact hW
  | cons call cs ih =>
    intro stub final b c d hA hW h
    simp only [runCalls] at h
    split at h
    · rename_i hc
      simp only [Bool.and_eq_true] at hc
      have hA2 := agrees_step stub b call hA hc.1 hc.2
      cases call with
      | initMaterial args =>
        exact ih _ _ _ _ _ hA2 (wandsAgree_initMaterial stub b args c d hA hW hc.2) h
      | deleteMaterial args =>
        exact ih _ _ _ _ _ hA2 (wandsAgree_deleteMaterial stub b args c d hA hW hc.1 hc.2) h
      | initWand args =>
        have := ih _ _ _ _ _ hA2 (wandsAgree_initWand stub b args c d hA hW hc.2) h
        simp only [wandsCreated, wandsDeleted]
        rw [show c + (wandsCreated cs + 1) = c + 1 + wandsCreated cs by omega]
        exact this
      | deleteWand args =>
        have := ih _ _ _ _ _ hA2 (wandsAgree_deleteWand stub b args c d hA hW hc.1 hc.2) h
        simp only [wandsCreated, wandsDeleted]
        rw [show d + (wandsDeleted cs + 1) = d + 1 + wandsDeleted cs by omega]
        exact this
    · simp at h

end Studio

namespace Studio

/-- C13 (amended): whenever the index list of a kind is readable, the count of that kind
(`getTotalNumberOfMaterials`, `getTotalNumberOfWands`) is the length of the stored list.
In every store reached from the initialised store by a sequence of successful calls in
which each delete is applied to an id of its own kind and no wand is deleted while an id
it lists has an entry in the material index list, both lists are readable; the length of
the wand index list equals the number of `initWand` calls minus the number of
`deleteWand` calls; the length of the material index list equals the number of
`initMaterial` calls minus the number of `deleteMaterial` calls on a material that still
had its entry minus the number of material ids consumed by `initWand` calls. -/
theorem C13_counts_and_history (calls : List Call) (stub : Store)
    (h : runCalls calls initialised = some stub) :
    (∀ (s : Store) (l : List String), storedList s "materialIndexList" = some l →
      getTotalNumberOfMaterials s = (Response.Success (Payload.numMaterials (l.length : Int)), s)) ∧
    (∀ (s : Store) (l : List String), storedList s "wandsIndexList" = some l →
      getTotalNumberOfWands s = (Response.Success (Payload.numWands (l.length : Int)), s)) ∧
    (∃ l wl, storedList stub "materialIndexList" = some l ∧
      storedList stub "wandsIndexList" = some wl ∧
      wl.length + wandsDeleted calls = wandsCreated calls ∧
      l.length + (booksAfter calls).deletedAvailable + (booksAfter calls).consumed =
        (booksAfter calls).created) := by
  have hA := agrees_reached calls stub h
  have hW := wandsAgree_runCalls calls initialised stub Books.empty 0 0 agrees_initialised
    wandsAgree_initialised h
  refine ⟨?_, ?_, ?_⟩
  · intro s l hl
    obtain ⟨ml, hml, hmll⟩ := storedList_some _ _ _ hl
    simp [getTotalNumberOfMaterials, GetState, hml, Slice.len, hmll]
  · intro s l hl
    obtain ⟨ml, hml, hmll⟩ := storedList_some _ _ _ hl
    simp [getTotalNumberOfWands, GetState, hml, Slice.len, hmll]
  · obtain ⟨wl, hwl⟩ := Option.isSome_iff_exists.mp hA.wandIndexReadable
    refine ⟨_, wl, hA.index, hwl, ?_, ?_⟩
    · have := hW.count
      simp only [wandIndex, hwl, Option.getD_some] at this
      omega
    · rw [List.length_map]
      exact hA.count

/-! ## The theorems of the queries at concrete inputs -/

/-- Witness of C11 (amended): the materials of type `wood` of scenario B before the wand. -/
theorem C11_getMaterialsByType_by_record_type_witness :
    storedList scenarioB2 "materialIndexList" =
      some [typeIDKey "wood" "M1", typeIDKey "wood" "M2"] ∧
    (getMaterialsByType scenarioB2 ["wood"]).1.isSuccess = true ∧
    (getMaterialsByType scenarioB2 ["wood"]).1 =
      Response.Success (Payload.materials
        (sliceOf (([typeIDKey "wood" "M1", typeIDKey "wood" "M2"].filterMap
          (entryMaterial scenarioB2)).filter (fun m => m.Typ = "wood")))) :=
  ⟨by decide, by decide,
   (C11_getMaterialsByType_by_record_type scenarioB2 "wood"
     [typeIDKey "wood" "M1", typeIDKey "wood" "M2"] (by decide) (by decide)).1⟩

/-- Witness of C12 (amended): after `workshopCalls` the materials of type `wood` in the
books are `M3` alone. -/
theorem C12_getMaterialsByType_history_witness :
    runCalls workshopCalls initialised = some workshopStore ∧
    (booksAfter workshopCalls).available = [⟨"Material", "M3", "wood", "S2"⟩] ∧
    getMaterialsByType workshopStore ["wood"] =
      (Response.Success (Payload.materials
        (sliceOf ((booksAfter workshopCalls).available.filter (fun m => m.Typ = "wood")))),
        workshopStore) :=
  ⟨rfl, by decide, (C12_getMaterialsByType_history workshopCalls workshopStore "wood" rfl).1⟩

/-- Witness of C13 (amended): after `workshopCalls` three materials were created, one was
deleted while indexed, one was consumed, one wand was created and deleted. -/
theorem C13_counts_and_history_witness :
    runCalls workshopCalls initialised = some workshopStore ∧
    (booksAfter workshopCalls).created = 3 ∧
    (booksAfter workshopCalls).deletedAvailable = 1 ∧
    (booksAfter workshopCalls).consumed = 1 ∧
    wandsCreated workshopCalls = 1 ∧ wandsDeleted workshopCalls = 1 ∧
    (∃ l wl, storedList workshopStore "materialIndexList" = some l ∧
      storedList workshopStore "wandsIndexList" = some wl ∧
      wl.length + wandsDeleted workshopCalls = wandsCreated workshopCalls ∧
      l.length + (booksAfter workshopCalls).deletedAvailable +
        (booksAfter workshopCalls).consumed = (booksAfter workshopCalls).created) :=
  ⟨rfl, by decide, by decide, by decide, by decide, by decide,
   (C13_counts_and_history workshopCalls workshopStore rfl).2.2⟩

/-- Witness of C14 (amended): in the store left by `initMaterial(M1, wood, S1)` and
`deleteWand(M1)` the only entry decodes to `M1`, which has no record. -/
theorem C14_getMaterialsByType_missing_record_witness :
    storedList (runAll crossKindCalls initialised) "materialIndexList" =
      some [typeIDKey "wood" "M1"] ∧
    entryID (typeIDKey "wood" "M1") = some "M1" ∧
    runAll crossKindCalls initialised "M1" = none ∧
    (getMaterialsByType (runAll crossKindCalls initialised) ["wood"]).1.isSuccess = false ∧
    (getMaterialsByType (runAll crossKindCalls initialised) ["wood"]).1 =
      Response.Error [Frag.str "Material not found: ", Frag.str "M1"] :=
  have h := C14_getMaterialsByType_missing_record (runAll crossKindCalls initialised) "wood"
    [typeIDKey "wood" "M1"] (typeIDKey "wood" "M1") "M1" (by decide) (by decide) (by decide)
    (by decide)
  ⟨by decide, by decide, by decide, h.1, h.2.2 [] [] rfl (by simp)⟩

end Studio

namespace Studio

/-- Witness of C16 (amended): the wand of scenario B is returned; once its record is
removed by `deleteMaterial(W1)` the query fails. -/
theorem C16_getAllWands_requires_records_witness :
    storedList scenarioB3 "wandsIndexList" = some [typeIDKey "standard" "W1"] ∧
    getAllWands scenarioB3 =
      (Response.Success (Payload.wands
        (sliceOf ([typeIDKey "standard" "W1"].filterMap (entryWand scenarioB3)))), scenarioB3) ∧
    (getAllWands scenarioB3).1 =
      Response.Success (Payload.wands
        (some [⟨"Wand", "W1", "standard", "brown", 10, some ["M1", "M2"]⟩])) ∧
    storedList danglingWandStore "wandsIndexList" = some [typeIDKey "standard" "W1"] ∧
    getAllWands danglingWandStore =
      (Response.Error [Frag.str "Wand not found: ", Frag.str "W1"], danglingWandStore) :=
  ⟨by decide,
   ((C16_getAllWands_requires_records scenarioB3 [typeIDKey "standard" "W1"]
      (by decide)).1 (by decide)).1,
   by decide, by decide,
   (C16_getAllWands_requires_records danglingWandStore [typeIDKey "standard" "W1"]
      (by decide)).2 [] [] (typeIDKey "standard" "W1") "W1" rfl (by simp) (by decide)
      (by decide)⟩

/-- Witness of C17: two entries of type `wood` in scenario B before the wand. -/
theorem C17_getNumberMaterialsByType_counts_entries_witness :
    storedList scenarioB2 "materialIndexList" =
      some [typeIDKey "wood" "M1", typeIDKey "wood" "M2"] ∧
    (getNumberMaterialsByType scenarioB2 ["wood"]).1 =
      Response.Success (Payload.numMaterials 2) ∧
    getNumberMaterialsByType scenarioB2 ["wood"] =
      (Response.Success (Payload.numMaterials
        (([typeIDKey "wood" "M1", typeIDKey "wood" "M2"].filter
          (fun e => entryType e = some "wood")).length : Int)), scenarioB2) :=
  ⟨by decide, by decide,
   (C17_getNumberMaterialsByType_counts_entries scenarioB2 "wood"
     [typeIDKey "wood" "M1", typeIDKey "wood" "M2"] (by decide) (by decide)).1⟩

/-- Witness of C18 (amended): one wand of type `standard` in scenario B; once its record is
removed by `deleteMaterial(W1)` the query fails. -/
theorem C18_getNumberWandsByType_reads_records_witness :
    storedList scenarioB3 "wandsIndexList" = some [typeIDKey "standard" "W1"] ∧
    (getNumberwandsByType scenarioB3 ["standard"]).1 = Response.Success (Payload.numWands 1) ∧
    getNumberwandsByType scenarioB3 ["standard"] =
      (Response.Success (Payload.numWands
        ((([typeIDKey "standard" "W1"].filterMap (entryWand scenarioB3)).filter
          (fun w => w.Typ = "standard")).length : Int)), scenarioB3) ∧
    getNumberwandsByType danglingWandStore ["standard"] =
      (Response.Error [Frag.str "wand not found: ", Frag.str "W1"], danglingWandStore) :=
  ⟨by decide, by decide,
   (C18_getNumberWandsByType_reads_records scenarioB3 "standard" [typeIDKey "standard" "W1"]
      (by decide)).1 (by decide),
   (C18_getNumberWandsByType_reads_records danglingWandStore "standard"
      [typeIDKey "standard" "W1"] (by decide)).2 [] [] (typeIDKey "standard" "W1") "W1" rfl
      (by simp) (by decide) (by decide)⟩

/-- Witness of C19: the absent id `M9` and the stored id `M1` after one creation. -/
theorem C19_not_found_iff_absent_witness :
    scenarioB1 "M9" = none ∧
    (deleteMaterial scenarioB1 ["M9"]).1 =
      Response.Error [Frag.str "Material does not exist: ", Frag.str "M9"] ∧
    (deleteMaterial scenarioB1 ["M9"]).2 = scenarioB1 ∧
    scenarioB1 "M1" = some (Bytes.material ⟨"Material", "M1", "wood", "S1"⟩) ∧
    readMaterial scenarioB1 ["M1"] =
      (Response.Success (Payload.bytes (Bytes.material ⟨"Material", "M1", "wood", "S1"⟩)),
        scenarioB1) :=
  ⟨by decide,
   (C19_not_found_iff_absent scenarioB1 "M9").2.2.1.mpr (by decide),
   ((C19_not_found_iff_absent scenarioB1 "M9").2.2.2.2.1 (by decide)).2.2.1,
   by decide,
   ((C19_not_found_iff_absent scenarioB1 "M1").2.2.2.2.2 _ (by decide)).1⟩

/-- Witness of C20: deleting the wand of scenario B does not bring its materials back. -/
theorem C20_only_initMaterial_adds_witness :
    materialIndex scenarioB3 = [] ∧
    List.Sublist (materialIndex (Invoke scenarioB3 "deleteWand" ["W1"]).2)
      (materialIndex scenarioB3) ∧
    (deletewand scenarioB3 ["W1"]).2 "materialIndexList" = scenarioB3 "materialIndexList" :=
  ⟨by decide,
   (C20_only_initMaterial_adds scenarioB3).2.1 "deleteWand" ["W1"] (by decide),
   (C20_only_initMaterial_adds scenarioB3).2.2.2 "W1"
     ⟨"Wand", "W1", "standard", "brown", 10, some ["M1", "M2"]⟩ (by decide) (by decide)
     (by decide)⟩

end Studio

namespace Studio

/-! ## The count argument of `initWand` -/

/-- A value `Atoi` returns lies in the 64-bit range. -/
theorem Atoi_range (s : String) (n : Int) (h : Atoi s = Except.ok n) :
    -(2 : Int) ^ 63 ≤ n ∧ n < (2 : Int) ^ 63 := by
  have e63 : (2 : Int) ^ 63 = 9223372036854775808 := by norm_num
  unfold Atoi at h
  split at h
  · simp at h
  · dsimp only at h
    split at h
    · simp at h
    · split at h
      · simp at h
      · rw [e63] at h ⊢
        split_ifs at h with h1 h2 h3
        · simp only [Except.ok.injEq] at h
          omega
        · simp only [Except.ok.injEq] at h
          omega

theorem wrapInt64_of_fits (x : Int) (h0 : -(2 : Int) ^ 63 ≤ x) (h1 : x < (2 : Int) ^ 63) :
    wrapInt64 x = x := by
  unfold wrapInt64
  have e63 : (2 : Int) ^ 63 = 9223372036854775808 := by norm_num
  have e64 : (2 : Int) ^ 64 = 18446744073709551616 := by norm_num
  rw [e63] at h0 h1
  rw [e63, e64]
  omega

/-- The argument loop of `initWand` runs into the end of the arguments when it is asked
for more iterations than arguments are left. -/
theorem materialsLoop_short (args : List String) :
    ∀ (k i : Nat) (acc : Slice String), i ≤ args.length → args.length < i + k →
      materialsLoop args k i acc = none := by
  intro k
  induction k with
  | zero =>
    intro i acc h1 h2
    omega
  | succ k ih =>
    intro i acc h1 h2
    simp only [materialsLoop]
    by_cases hi : i < args.length
    · rw [List.getElem?_eq_getElem hi]
      exact ih (i + 1) _ (by omega) (by omega)
    · have : args[i]? = none := by
        apply List.getElem?_eq_none
        omega
      rw [this]

/-- The argument loop of `initWand` ends without a panic when the arguments hold every
position it reads. -/
theorem materialsLoop_enough (args : List String) :
    ∀ (k i : Nat) (acc : Slice String), i + k ≤ args.length →
      ∃ r, materialsLoop args k i acc = some r := by
  intro k
  induction k with
  | zero =>
    intro i acc _
    exact ⟨acc, rfl⟩
  | succ k ih =>
    intro i acc h1
    simp only [materialsLoop]
    have hi : i < args.length := by omega
    rw [List.getElem?_eq_getElem hi]
    exact ih (i + 1) _ (by omega)

/-- The argument loop of `initWand` makes no iteration when the count is negative. -/
theorem materialsLoop_negative (args : List String) (n : Int)
    (h0 : -(2 : Int) ^ 63 ≤ n) (hneg : n < 0) :
    materialsLoop args (wrapInt64 (5 + n) - 5).toNat 5 none = some none := by
  have e63 : (2 : Int) ^ 63 = 9223372036854775808 := by norm_num
  have hw : wrapInt64 (5 + n) = 5 + n := by
    apply wrapInt64_of_fits
    · rw [e63] at h0 ⊢
      omega
    · rw [e63]
      omega
  rw [hw]
  have hk : (5 + n - 5).toNat = 0 := by omega
  rw [hk]
  rfl

/-- C21 (as stated, refuted): the count `9223372036854775807` exceeds the number of
arguments, yet `5 + n` wraps to a negative `int`, the argument loop makes no iteration,
and `initWand` succeeds: it stores a wand with a nil material list and its index entry. -/
theorem C21_wrapping_count_creates_wand :
    wrappingCountArgs[4]? = some "9223372036854775807" ∧
    Atoi "9223372036854775807" = Except.ok 9223372036854775807 ∧
    (wrappingCountArgs.length : Int) < 5 + 9223372036854775807 ∧
    (initWand initialised wrappingCountArgs).1 = Response.Success Payload.nil ∧
    (initWand initialised wrappingCountArgs).2 "W1" =
      some (Bytes.wand ⟨"Wand", "W1", "standard", "brown", 10, none⟩) ∧
    storedList (initWand initialised wrappingCountArgs).2 "wandsIndexList" =
      some [typeIDKey "standard" "W1"] ∧
    initialised "W1" = none := by
  refine ⟨rfl, rfl, by decide, ?_, ?_, ?_, rfl⟩
  · decide
  · decide
  · decide

/-- C21 (amended): `initWand` called with a count argument `n` such that `5 + n` exceeds
the number of arguments supplied and still fits the 64-bit `int` does not return success,
and the store is unchanged: no Wand body and no wand index entry is written.  With at
least six arguments and a size that parses, the call ends in the index-out-of-range panic
of the argument loop. -/
theorem C21_initWand_count_beyond_arguments (stub : Store) (args : List String) (s : String)
    (n : Int) (hs : args[4]? = some s) (hn : Atoi s = Except.ok n)
    (hex : (args.length : Int) < 5 + n) (hfit : 5 + n < (2 : Int) ^ 63) :
    (initWand stub args).1.isSuccess = false ∧ (initWand stub args).2 = stub ∧
    (6 ≤ args.length → ∀ s3 size, args[3]? = some s3 → Atoi s3 = Except.ok size →
      (initWand stub args).1 = Response.GoPanic) := by
  have hloop : 5 ≤ args.length →
      materialsLoop args (wrapInt64 (5 + n) - 5).toNat 5 none = none := by
    intro h5
    have hw : wrapInt64 (5 + n) = 5 + n := by
      apply wrapInt64_of_inRange
      · omega
      · exact hfit
    rw [hw]
    apply materialsLoop_short
    · exact h5
    · omega
  match args, hs, hex, hloop with
  | [], hs, _, _ => simp at hs
  | [_], hs, _, _ => simp at hs
  | [_, _], hs, _, _ => simp at hs
  | [_, _, _], hs, _, _ => simp at hs
  | [_, _, _, _], hs, _, _ => simp at hs
  | [_, _, _, _, _], _, _, _ =>
    refine ⟨rfl, rfl, ?_⟩
    intro h6
    simp at h6
  | wandID :: wandType :: wandColor :: arg3 :: arg4 :: arg5 :: rest, hs, hex, hloop =>
    have h4 : arg4 = s := by simpa using hs
    subst h4
    have hl := hloop (by simp)
    unfold initWand
    simp only [hn, hl]
    refine ⟨?_, ?_, ?_⟩
    · split <;> rfl
    · split <;> rfl
    · intro _ s3 size h3 hsize
      have h33 : arg3 = s3 := by simpa using h3
      subst h33
      simp [hsize]

end Studio

namespace Studio

theorem marshal_of_unmarshal (b : Option Bytes) (ml : Slice String)
    (h : unmarshalStrings b = Except.ok ml) : b = some (marshalStrings ml) := by
  cases b with
  | none => simp [unmarshalStrings] at h
  | some v =>
    cases v <;> simp [unmarshalStrings] at h
    · subst h; rfl
    · subst h; rfl

/-- C22 (as stated, refuted): with the count `-1` the call succeeds and stores a wand
whose material list is nil, although the argument `M1` follows the count. -/
theorem C22_negative_count_creates_wand :
    negativeCountArgs[4]? = some "-1" ∧
    Atoi "-1" = Except.ok (-1) ∧
    (initWand initialised negativeCountArgs).1 = Response.Success Payload.nil ∧
    (initWand initialised negativeCountArgs).2 "W1" =
      some (Bytes.wand ⟨"Wand", "W1", "standard", "brown", 10, none⟩) ∧
    storedList (initWand initialised negativeCountArgs).2 "wandsIndexList" =
      some [typeIDKey "standard" "W1"] ∧
    initialised "W1" = none := by
  refine ⟨rfl, rfl, ?_, ?_, ?_, rfl⟩
  · decide
  · decide
  · decide

/-- C22 (amended): `initWand` called with a negative count argument takes no material id
from the arguments and proceeds as with the count `0`: when the id is not empty, is free
and is not the key of the wand index list, the shim accepts the type and the id, and the
index lists are readable, the call succeeds, stores a wand whose material list is nil,
appends its key to the wand index list and leaves the material index list as it was. -/
theorem C22_negative_count_takes_no_material (stub : Store)
    (wandID wandType wandColor arg3 arg4 arg5 : String) (rest : List String)
    (wandSize n : Int)
    (hsize : Atoi arg3 = Except.ok wandSize) (hn : Atoi arg4 = Except.ok n) (hneg : n < 0) :
    initWand stub (wandID :: wandType :: wandColor :: arg3 :: arg4 :: arg5 :: rest) =
      initWand stub (wandID :: wandType :: wandColor :: arg3 :: "0" :: arg5 :: rest) ∧
    (∀ key wl ml, wandID ≠ "" → stub wandID = none → wandID ≠ "wandsIndexList" →
      CreateCompositeKey "type~ID" [wandType, wandID] = Except.ok key →
      unmarshalIfPresent (stub "wandsIndexList") = Except.ok wl →
      unmarshalStrings (stub "materialIndexList") = Except.ok ml →
      initWand stub (wandID :: wandType :: wandColor :: arg3 :: arg4 :: arg5 :: rest) =
        (Response.Success Payload.nil,
          PutState (PutState (PutState stub wandID
            (Bytes.wand ⟨"Wand", wandID, wandType, wandColor, wandSize, none⟩))
            "wandsIndexList" (marshalStrings (Slice.append wl key)))
            "materialIndexList" (marshalStrings ml)) ∧
      (initWand stub (wandID :: wandType :: wandColor :: arg3 :: arg4 :: arg5 :: rest)).2
        "materialIndexList" = stub "materialIndexList") := by
  have hloop := materialsLoop_negative
    (wandID :: wandType :: wandColor :: arg3 :: arg4 :: arg5 :: rest) n (Atoi_range _ _ hn).1 hneg
  have hzero : Atoi "0" = Except.ok 0 := rfl
  have hloop0 : materialsLoop (wandID :: wandType :: wandColor :: arg3 :: "0" :: arg5 :: rest)
      (wrapInt64 (5 + 0) - 5).toNat 5 none = some none := rfl
  have hrun : ∀ key wl ml, wandID ≠ "" → stub wandID = none → wandID ≠ "wandsIndexList" →
      CreateCompositeKey "type~ID" [wandType, wandID] = Except.ok key →
      unmarshalIfPresent (stub "wandsIndexList") = Except.ok wl →
      unmarshalStrings (stub "materialIndexList") = Except.ok ml →
      initWand stub (wandID :: wandType :: wandColor :: arg3 :: arg4 :: arg5 :: rest) =
        (Response.Success Payload.nil,
          PutState (PutState (PutState stub wandID
            (Bytes.wand ⟨"Wand", wandID, wandType, wandColor, wandSize, none⟩))
            "wandsIndexList" (marshalStrings (Slice.append wl key)))
            "materialIndexList" (marshalStrings ml)) := by
    intro key wl ml hid hnone hw hkey hwl hml
    have hm : wandID ≠ "materialIndexList" := absent_not_list stub _ _ ml hnone hml
    have h1 : PutState stub wandID
        (Bytes.wand ⟨"Wand", wandID, wandType, wandColor, wandSize, none⟩) "wandsIndexList" =
        stub "wandsIndexList" := by simp [PutState, Ne.symm hw]
    have h2 : PutState (PutState stub wandID
        (Bytes.wand ⟨"Wand", wandID, wandType, wandColor, wandSize, none⟩))
        "wandsIndexList" (marshalStrings (Slice.append wl key)) "materialIndexList" =
        stub "materialIndexList" := by simp [PutState, Ne.symm hm]
    unfold initWand
    simp only [hsize, hn, hloop, hid, if_false, GetState, hnone, hkey, h1, hwl, h2, hml,
      Slice.toList, consumeMaterials]
  refine ⟨?_, ?_⟩
  · unfold initWand
    simp only [hsize, hn, hloop, hzero, hloop0]
  · intro key wl ml hid hnone hw hkey hwl hml
    refine ⟨hrun key wl ml hid hnone hw hkey hwl hml, ?_⟩
    rw [hrun key wl ml hid hnone hw hkey hwl hml]
    simp [PutState, marshal_of_unmarshal _ _ hml]

/-- C23: `initMaterial` and `initWand` called with the empty string as id do not succeed
and leave the store unchanged, whatever the other arguments; when the other arguments are
well-formed, the response is the error that says the id cannot be empty. -/
theorem C23_empty_id_rejected (stub : Store) (rest : List String) :
    (initMaterial stub ("" :: rest)).1.isSuccess = false ∧
    (initMaterial stub ("" :: rest)).2 = stub ∧
    (initWand stub ("" :: rest)).1.isSuccess = false ∧
    (initWand stub ("" :: rest)).2 = stub ∧
    (∀ ty sup, initMaterial stub ["", ty, sup] =
      (Response.Error [Frag.str "Material ID cannot be empty"], stub)) ∧
    (∀ ty color arg3 arg4 arg5 more size n,
      Atoi arg3 = Except.ok size → Atoi arg4 = Except.ok n → 0 ≤ n →
      5 + n ≤ ((arg5 :: more).length : Int) + 5 →
      initWand stub ("" :: ty :: color :: arg3 :: arg4 :: arg5 :: more) =
        (Response.Error [Frag.str "Wand ID cannot be empty"], stub)) := by
  refine ⟨?_, ?_, ?_, ?_, ?_, ?_⟩
  · unfold initMaterial
    split
    · rename_i id ty sup heq
      have : id = "" := by
        simp only [List.cons.injEq] at heq
        exact heq.1.symm
      simp [this, Response.isSuccess]
    · rfl
  · unfold initMaterial
    split
    · rename_i id ty sup heq
      have : id = "" := by
        simp only [List.cons.injEq] at heq
        exact heq.1.symm
      simp [this]
    · rfl
  · unfold initWand
    split
    · rename_i id ty color a3 a4 a5 more heq
      have : id = "" := by
        simp only [List.cons.injEq] at heq
        exact heq.1.symm
      subst this
      repeat' split
      all_goals first | rfl | simp_all
    · rfl
  · unfold initWand
    split
    · rename_i id ty color a3 a4 a5 more heq
      have : id = "" := by
        simp only [List.cons.injEq] at heq
        exact heq.1.symm
      subst this
      repeat' split
      all_goals first | rfl | simp_all
    · rfl
  · intro ty sup
    simp [initMaterial]
  · intro ty color arg3 arg4 arg5 more size n hsize hn h0 hle
    have hk : (wrapInt64 (5 + n) - 5).toNat ≤ n.toNat := by
      have hr := (Atoi_range _ _ hn).2
      have e63 : (2 : Int) ^ 63 = 9223372036854775808 := by norm_num
      have e64 : (2 : Int) ^ 64 = 18446744073709551616 := by norm_num
      unfold wrapInt64
      rw [e63] at hr ⊢
      rw [e64]
      omega
    obtain ⟨r, hr⟩ := materialsLoop_enough ("" :: ty :: color :: arg3 :: arg4 :: arg5 :: more)
      (wrapInt64 (5 + n) - 5).toNat 5 none (by
        simp only [List.length_cons] at hle ⊢
        omega)
    unfold initWand
    simp only [hsize, hn, hr, if_true]

/-- C24: `initWand` does not succeed when its size argument (`args[3]`) does not parse as
a decimal integer, and then it writes nothing; with at least six arguments the response
is the error `Size must be an integer.`. -/
theorem C24_initWand_size_must_parse (stub : Store) (args : List String) (s : String)
    (e : LibError) (hs : args[3]? = some s) (he : Atoi s = Except.error e) :
    (initWand stub args).1.isSuccess = false ∧ (initWand stub args).2 = stub ∧
    (6 ≤ args.length →
      (initWand stub args).1 = Response.Error [Frag.str "Size must be an integer."]) := by
  match args, hs with
  | [], hs => simp at hs
  | [_], hs => simp at hs
  | [_, _], hs => simp at hs
  | [_, _, _], hs => simp at hs
  | [_, _, _, _], _ =>
    refine ⟨rfl, rfl, ?_⟩
    intro h6
    simp at h6
  | [_, _, _, _, _], _ =>
    refine ⟨rfl, rfl, ?_⟩
    intro h6
    simp at h6
  | wandID :: wandType :: wandColor :: arg3 :: arg4 :: arg5 :: rest, hs =>
    have h3 : arg3 = s := by simpa using hs
    subst h3
    simp [initWand, he, Response.isSuccess]

/-- C25: `Init` succeeds; a record that exists under `materialIndexList` (respectively
`wandsIndexList`) is left unchanged, an absent one becomes the marshalled nil list; `Init`
applied twice leaves the same store as `Init` applied once; and no other key is written. -/
theorem C25_Init_idempotent (stub : Store) :
    (Init stub).1 = Response.Success Payload.nil ∧
    (∀ b, stub "materialIndexList" = some b → (Init stub).2 "materialIndexList" = some b) ∧
    (∀ b, stub "wandsIndexList" = some b → (Init stub).2 "wandsIndexList" = some b) ∧
    (stub "materialIndexList" = none → (Init stub).2 "materialIndexList" = some Bytes.null) ∧
    (stub "wandsIndexList" = none → (Init stub).2 "wandsIndexList" = some Bytes.null) ∧
    (Init (Init stub).2).2 = (Init stub).2 ∧
    (∀ k, k ≠ "materialIndexList" → k ≠ "wandsIndexList" → (Init stub).2 k = stub k) := by
  have hne : ("wandsIndexList" : String) ≠ "materialIndexList" := by decide
  refine ⟨rfl, ?_, ?_, ?_, ?_, ?_, ?_⟩
  · intro b hb
    cases hw : stub "wandsIndexList" <;>
      simp [Init, GetState, PutState, hb, hw, marshalStrings]
  · intro b hb
    cases hm : stub "materialIndexList" <;>
      simp [Init, GetState, PutState, hb, hm, marshalStrings]
  · intro hm
    cases hw : stub "wandsIndexList" <;>
      simp [Init, GetState, PutState, hm, hw, marshalStrings]
  · intro hw
    cases hm : stub "materialIndexList" <;>
      simp [Init, GetState, PutState, hm, hw, marshalStrings]
  · cases hm : stub "materialIndexList" <;> cases hw : stub "wandsIndexList" <;>
      simp [Init, GetState, PutState, hm, hw, marshalStrings]
  · intro k h1 h2
    cases hm : stub "materialIndexList" <;> cases hw : stub "wandsIndexList" <;>
      simp [Init, GetState, PutState, hm, hw, marshalStrings, h1, h2]

end Studio

namespace Studio

/-! ## The round trip of the composite keys -/

/-- C26: when `CreateCompositeKey("type~ID", [type, id])` succeeds, `SplitCompositeKey` of
the key it produced returns the object type `type~ID` and the attributes `[type, id]`, so
the type part and the id part that the index scans read from the entry are the type and
the id the entry was created with; and a key produced for another pair of type and id is
another key. -/
theorem C26_compositeKey_roundTrip (ty id key : String)
    (h : CreateCompositeKey "type~ID" [ty, id] = Except.ok key) :
    SplitCompositeKey key = some ("type~ID", [ty, id]) ∧
    entryType key = some ty ∧ entryID key = some id ∧
    (∀ ty2 id2, CreateCompositeKey "type~ID" [ty2, id2] = Except.ok key →
      ty2 = ty ∧ id2 = id) := by
  have hv := compositeKey_two_valid _ _ _ _ h
  have hk := typeIDKey_of_compositeKey _ _ _ h
  have hsplit : SplitCompositeKey key = some ("type~ID", [ty, id]) := by
    rw [← hk]
    exact split_typeIDKey ty id hv.1 hv.2
  refine ⟨hsplit, ?_, ?_, ?_⟩
  · rw [← hk]
    exact entryType_typeIDKey ty id hv.1 hv.2
  · rw [← hk]
    exact entryID_typeIDKey ty id hv.1 hv.2
  · intro ty2 id2 h2
    have hv2 := compositeKey_two_valid _ _ _ _ h2
    have hk2 := typeIDKey_of_compositeKey _ _ _ h2
    have hsplit2 : SplitCompositeKey key = some ("type~ID", [ty2, id2]) := by
      rw [← hk2]
      exact split_typeIDKey ty2 id2 hv2.1 hv2.2
    rw [hsplit] at hsplit2
    simp only [Option.some.injEq, Prod.mk.injEq, List.cons.injEq, and_true, true_and] at hsplit2
    exact ⟨hsplit2.1.symm, hsplit2.2.symm⟩

end Studio

namespace Studio

/-! ## Every way the deletes can end -/

/-- The ways `deleteMaterial(id)` ends when the record under `id` decodes: the record is
removed, and either the call fails and writes nothing more, or it succeeds and rewrites
the material index list without the first entry equal to the key of the record. -/
theorem deleteMaterial_run (stub : Store) (id : String) (b : Bytes) (mat : Material)
    (hb : stub id = some b) (hmat : unmarshalMaterial b = Except.ok mat) :
    ((deleteMaterial stub [id]).1.isSuccess = false ∧
      (deleteMaterial stub [id]).2 = DelState stub id ∧
      ((∃ e, CreateCompositeKey "type~ID" [mat.Typ, mat.ID] = Except.error e) ∨
       (∃ e, unmarshalStrings (DelState stub id "materialIndexList") = Except.error e))) ∨
    (∃ key indexList,
      CreateCompositeKey "type~ID" [mat.Typ, mat.ID] = Except.ok key ∧
      unmarshalStrings (DelState stub id "materialIndexList") = Except.ok indexList ∧
      deleteMaterial stub [id] =
        (Response.Success Payload.nil,
          PutState (DelState stub id) "materialIndexList"
            (marshalStrings (Option.map (fun l => l.erase key) indexList)))) := by
  unfold deleteMaterial
  simp only [GetState, hb, hmat]
  cases hkey : CreateCompositeKey "type~ID" [mat.Typ, mat.ID] with
  | error e =>
    left
    exact ⟨rfl, rfl, Or.inl ⟨e, rfl⟩⟩
  | ok key =>
    cases hdec : unmarshalStrings (DelState stub id "materialIndexList") with
    | error e =>
      left
      exact ⟨rfl, rfl, Or.inr ⟨e, rfl⟩⟩
    | ok indexList =>
      right
      refine ⟨key, indexList, rfl, rfl, ?_⟩
      cases indexList with
      | none => rfl
      | some l =>
        have := removeIndexLoop_eq_erase key l []
        simp only [List.nil_append, List.length_nil] at this
        simp only [this, Option.map]

/-- The ways `deletewand(id)` ends when the record under `id` decodes: the record is
removed, and either the call fails and writes nothing more, or it succeeds, rewrites the
wand index list and removes the records under the ids the decoded record lists. -/
theorem deletewand_run (stub : Store) (id : String) (b : Bytes) (w : Wand)
    (hb : stub id = some b) (hw : unmarshalWand b = Except.ok w) :
    ((deletewand stub [id]).1.isSuccess = false ∧
      (deletewand stub [id]).2 = DelState stub id) ∨
    (∃ key indexList,
      CreateCompositeKey "type~ID" [w.Typ, w.ID] = Except.ok key ∧
      unmarshalStrings (DelState stub id "wandsIndexList") = Except.ok indexList ∧
      deletewand stub [id] =
        (Response.Success Payload.nil,
          deleteMaterialsLoop (Slice.toList w.Materials)
            (PutState (DelState stub id) "wandsIndexList"
              (marshalStrings
                (updatedIndexListLoop key (Slice.toList indexList)
                  (Slice.toList indexList) 0))))) := by
  unfold deletewand
  simp only [GetState, hb, hw]
  cases hkey : CreateCompositeKey "type~ID" [w.Typ, w.ID] with
  | error e =>
    left
    exact ⟨rfl, rfl⟩
  | ok key =>
    cases hdec : unmarshalStrings (DelState stub id "wandsIndexList") with
    | error e =>
      left
      exact ⟨rfl, rfl⟩
    | ok indexList =>
      right
      exact ⟨key, indexList, rfl, rfl, rfl⟩

theorem wandIndex_delState_wand (stub : Store) (id : String) (w : Wand)
    (h : stub id = some (Bytes.wand w)) : wandIndex (DelState stub id) = wandIndex stub := by
  by_cases e : id = "wandsIndexList"
  · subst e
    simp [wandIndex, storedList, DelState, h, unmarshalStrings]
  · exact wandIndex_congr _ _ (by simp [DelState, Ne.symm e])

theorem materialIndex_delState_material (stub : Store) (id : String) (m : Material)
    (h : stub id = some (Bytes.material m)) :
    materialIndex (DelState stub id) = materialIndex stub := by
  by_cases e : id = "materialIndexList"
  · subst e
    simp [materialIndex, storedList, DelState, h, unmarshalStrings]
  · exact materialIndex_congr _ _ (by simp [DelState, Ne.symm e])

theorem materialIndex_delState_wand (stub : Store) (id : String) (w : Wand)
    (h : stub id = some (Bytes.wand w)) :
    materialIndex (DelState stub id) = materialIndex stub := by
  by_cases e : id = "materialIndexList"
  · subst e
    simp [materialIndex, storedList, DelState, h, unmarshalStrings]
  · exact materialIndex_congr _ _ (by simp [DelState, Ne.symm e])

/-! ## The deletes and the kind of the record -/

/-- C28 (as stated, refuted): in scenario B the record under `W1` is a Wand, and
`deleteMaterial(W1)` succeeds and removes it; after the creation of `M1` the record under
`M1` is a Material, it decodes as a wand that lists no material, and `deleteWand(M1)`
succeeds and removes it; and `deleteWand(M3)`, applied to the id of a Material, changes
the wand index list. -/
theorem C28_deletes_remove_the_other_kind :
    scenarioB3 "W1" =
      some (Bytes.wand ⟨"Wand", "W1", "standard", "brown", 10, some ["M1", "M2"]⟩) ∧
    (deleteMaterial scenarioB3 ["W1"]).1 = Response.Success Payload.nil ∧
    (deleteMaterial scenarioB3 ["W1"]).2 "W1" = none ∧
    scenarioB1 "M1" = some (Bytes.material ⟨"Material", "M1", "wood", "S1"⟩) ∧
    unmarshalWand (Bytes.material ⟨"Material", "M1", "wood", "S1"⟩) =
      Except.ok ⟨"Material", "M1", "wood", "", 0, none⟩ ∧
    (deletewand scenarioB1 ["M1"]).1 = Response.Success Payload.nil ∧
    (deletewand scenarioB1 ["M1"]).2 "M1" = none ∧
    (initMaterial scenarioB3 ["M3", "wood", "S1"]).2 "M3" =
      some (Bytes.material ⟨"Material", "M3", "wood", "S1"⟩) ∧
    (initMaterial scenarioB3 ["M3", "wood", "S1"]).2 "wandsIndexList" =
      some (Bytes.strings [typeIDKey "standard" "W1"]) ∧
    (deletewand (initMaterial scenarioB3 ["M3", "wood", "S1"]).2 ["M3"]).2 "wandsIndexList" =
      some Bytes.null := by
  refine ⟨?_, ?_, ?_, ?_, rfl, ?_, ?_, ?_, ?_, ?_⟩ <;> decide

/-- C28 (amended): the delete operations do not check the docType of the record under the
id they are given.  `deleteMaterial(id)` removes the record under `id` also when it is a
Wand, and `deleteWand(id)` removes it also when it is a Material.  Apart from the record
under `id`, `deleteMaterial` writes only the material index list, and `deleteWand` writes
only the wand index list and removes the records under the ids listed in the Materials of
the record it deletes (none when that record is a Material).  A `deleteMaterial` applied
to the id of a Wand leaves the wand index list unchanged and takes from the material index
list at most the first entry equal to the composite key of the type and the id of the
wand; a `deleteWand` applied to the id of a Material leaves the material index list
unchanged. -/
theorem C28_deletes_do_not_check_kind (stub : Store) (id : String) :
    (∀ w, stub id = some (Bytes.wand w) →
      (deleteMaterial stub [id]).2 id = none ∧
      wandIndex (deleteMaterial stub [id]).2 = wandIndex stub ∧
      (materialIndex (deleteMaterial stub [id]).2 = materialIndex stub ∨
        materialIndex (deleteMaterial stub [id]).2 =
          (materialIndex stub).erase (typeIDKey w.Typ w.ID))) ∧
    (∀ m, stub id = some (Bytes.material m) →
      (deletewand stub [id]).2 id = none ∧
      materialIndex (deletewand stub [id]).2 = materialIndex stub ∧
      (∀ k, k ≠ id → k ≠ "wandsIndexList" → (deletewand stub [id]).2 k = stub k)) ∧
    (∀ k, k ≠ id → k ≠ "materialIndexList" → (deleteMaterial stub [id]).2 k = stub k) ∧
    (∀ w, stub id = some (Bytes.wand w) → ∀ k, k ≠ id → k ≠ "wandsIndexList" →
      k ∉ Slice.toList w.Materials → (deletewand stub [id]).2 k = stub k) := by
  refine ⟨?_, ?_, ?_, ?_⟩
  · intro w hw
    have hmat : unmarshalMaterial (Bytes.wand w) =
        Except.ok ⟨w.ObjectType, w.ID, w.Typ, ""⟩ := rfl
    rcases deleteMaterial_run stub id _ _ hw hmat with ⟨_, hst, _⟩ | ⟨key, il, hkey, hdec, hrun⟩
    · rw [hst]
      refine ⟨by simp [DelState], wandIndex_delState_wand stub id w hw, Or.inl ?_⟩
      exact materialIndex_delState_wand stub id w hw
    · have hidm : id ≠ "materialIndexList" := by
        intro e
        rw [e] at hdec
        simp [DelState, unmarshalStrings] at hdec
      have hdec2 : unmarshalStrings (stub "materialIndexList") = Except.ok il := by
        rw [← hdec]
        simp [DelState, Ne.symm hidm]
      rw [hrun]
      refine ⟨by simp [PutState, DelState, hidm], ?_, Or.inr ?_⟩
      · rw [wandIndex_congr _ (DelState stub id) (by simp [PutState])]
        exact wandIndex_delState_wand stub id w hw
      · rw [materialIndex_of_marshal _ (Option.map (fun l => l.erase key) il)
          (by simp [PutState]), materialIndex_of_unmarshal stub il hdec2, toList_map_erase]
        have hk : typeIDKey w.Typ w.ID = key := typeIDKey_of_compositeKey _ _ _ hkey
        rw [hk]
  · intro m hm
    have hwd : unmarshalWand (Bytes.material m) =
        Except.ok ⟨m.ObjectType, m.ID, m.Typ, "", 0, none⟩ := rfl
    rcases deletewand_run stub id _ _ hm hwd with ⟨_, hst⟩ | ⟨key, il, hkey, hdec, hrun⟩
    · rw [hst]
      refine ⟨by simp [DelState], materialIndex_delState_material stub id m hm, ?_⟩
      intro k h1 _
      simp [DelState, h1]
    · have hidw : id ≠ "wandsIndexList" := by
        intro e
        rw [e] at hdec
        simp [DelState, unmarshalStrings] at hdec
      rw [hrun]
      simp only [Slice.toList, deleteMaterialsLoop]
      refine ⟨by simp [PutState, DelState, hidw], ?_, ?_⟩
      · rw [materialIndex_congr _ (DelState stub id) (by simp [PutState])]
        exact materialIndex_delState_material stub id m hm
      · intro k h1 h2
        simp [PutState, DelState, h1, h2]
  · intro k h1 h2
    cases hb : stub id with
    | none => simp [deleteMaterial, GetState, hb]
    | some b =>
      cases hmat : unmarshalMaterial b with
      | error e => simp [deleteMaterial, GetState, hb, hmat]
      | ok mat =>
        rcases deleteMaterial_run stub id b mat hb hmat with
          ⟨_, hst, _⟩ | ⟨key, il, _, _, hrun⟩
        · rw [hst]
          simp [DelState, h1]
        · rw [hrun]
          simp [PutState, DelState, h1, h2]
  · intro w hw k h1 h2 h3
    have hwd : unmarshalWand (Bytes.wand w) = Except.ok w := rfl
    rcases deletewand_run stub id _ _ hw hwd with ⟨_, hst⟩ | ⟨key, il, _, _, hrun⟩
    · rw [hst]
      simp [DelState, h1]
    · rw [hrun]
      dsimp only
      rw [deleteMaterialsLoop_get]
      simp [h3, PutState, DelState, h1, h2]

end Studio

namespace Studio

/-! ## The queries write nothing -/

/-- C29: each of the twelve queries returns the store it was given, whatever the arguments
and whether it succeeds or fails; so does `Invoke` under each of their function names; and
the result of an invocation is the same in two stores that hold the same record under
every key: it depends on the store and the arguments only. -/
theorem C29_queries_leave_store (stub : Store) (args : List String) :
    (readMaterial stub args).2 = stub ∧
    (readWand stub args).2 = stub ∧
    (getMaterialIndexList stub).2 = stub ∧
    (getMaterialsByType stub args).2 = stub ∧
    (getAllMaterials stub).2 = stub ∧
    (getNumberMaterialsByType stub args).2 = stub ∧
    (getTotalNumberOfMaterials stub).2 = stub ∧
    (getAllMaterialsAndIndexList stub).2 = stub ∧
    (getWandsByType stub args).2 = stub ∧
    (getAllWands stub).2 = stub ∧
    (getNumberwandsByType stub args).2 = stub ∧
    (getTotalNumberOfWands stub).2 = stub ∧
    (∀ function, function ∈ queryNames → (Invoke stub function args).2 = stub) ∧
    (∀ function stub2, (∀ k, stub2 k = stub k) →
      Invoke stub2 function args = Invoke stub function args) := by
  refine ⟨readMaterial_store stub args, readWand_store stub args,
    getMaterialIndexList_store stub, getMaterialsByType_store stub args,
    getAllMaterials_store stub, getNumberMaterialsByType_store stub args,
    getTotalNumberOfMaterials_store stub, getAllMaterialsAndIndexList_store stub,
    getWandsByType_store stub args, getAllWands_store stub,
    getNumberwandsByType_store stub args, getTotalNumberOfWands_store stub, ?_, ?_⟩
  · intro function hf
    have hne : function ≠ "initMaterial" ∧ function ≠ "deleteMaterial" ∧
        function ≠ "initWand" ∧ function ≠ "deleteWand" := by
      simp only [queryNames, List.mem_cons, List.mem_singleton, List.not_mem_nil,
        or_false] at hf
      rcases hf with h | h | h | h | h | h | h | h | h | h | h | h <;> subst h <;> decide
    apply Invoke_cases (fun r => r.2 = stub) stub function args
    · intro e; exact absurd e hne.1
    · intro _; exact readMaterial_store stub args
    · intro _; exact getMaterialsByType_store stub args
    · intro _; exact getAllMaterials_store stub
    · intro _; exact getNumberMaterialsByType_store stub args
    · intro _; exact getTotalNumberOfMaterials_store stub
    · intro e; exact absurd e hne.2.1
    · intro _; exact getAllMaterialsAndIndexList_store stub
    · intro _; exact getMaterialIndexList_store stub
    · intro e; exact absurd e hne.2.2.1
    · intro _; exact readWand_store stub args
    · intro _; exact getWandsByType_store stub args
    · intro _; exact getAllWands_store stub
    · intro _; exact getNumberwandsByType_store stub args
    · intro _; exact getTotalNumberOfWands_store stub
    · intro e; exact absurd e hne.2.2.2
    · rfl
  · intro function stub2 h
    have : stub2 = stub := funext h
    rw [this]

end Studio

namespace Studio

/-! ## Every way the creations can end -/

/-- The stores `initMaterial` can leave behind: the store it was given, that store with
the record of the material under an id that was free (when the composite key or the index
list then fails), or the store of a successful call. -/
theorem initMaterial_run (stub : Store) (args : List String) :
    (initMaterial stub args).2 = stub ∨
    (∃ id ty sup, stub id = none ∧
      (initMaterial stub args).2 =
        PutState stub id (Bytes.material ⟨"Material", id, ty, sup⟩)) ∨
    (∃ p, (initMaterial stub args).1 = Response.Success p) := by
  unfold initMaterial
  split
  · rename_i id ty sup
    split
    · exact Or.inl rfl
    · simp only [GetState]
      cases hnone : stub id with
      | some b => exact Or.inl rfl
      | none =>
        dsimp only
        split
        · exact Or.inr (Or.inl ⟨id, ty, sup, hnone, rfl⟩)
        · split
          · exact Or.inr (Or.inl ⟨id, ty, sup, hnone, rfl⟩)
          · exact Or.inr (Or.inr ⟨_, rfl⟩)
  · exact Or.inl rfl

/-- The stores `initWand` can leave behind: the store it was given, that store with the
record of the wand under an id that was free, the same with the wand index list
rewritten, or the store of a successful call. -/
theorem initWand_run (stub : Store) (args : List String) :
    (initWand stub args).2 = stub ∨
    (∃ id w, stub id = none ∧ (initWand stub args).2 = PutState stub id (Bytes.wand w)) ∨
    (∃ id w wl key, stub id = none ∧
      unmarshalIfPresent (PutState stub id (Bytes.wand w) "wandsIndexList") = Except.ok wl ∧
      (initWand stub args).2 =
        PutState (PutState stub id (Bytes.wand w)) "wandsIndexList"
          (marshalStrings (Slice.append wl key))) ∨
    (initWand stub args).1.isSuccess = true := by
  unfold initWand
  split
  · rename_i wandID wandType wandColor arg3 arg4 arg5 rest
    split
    · exact Or.inl rfl
    · split
      · exact Or.inl rfl
      · split
        · exact Or.inl rfl
        · split
          · exact Or.inl rfl
          · simp only [GetState]
            cases hnone : stub wandID with
            | some b => exact Or.inl rfl
            | none =>
              dsimp only
              split
              · exact Or.inr (Or.inl ⟨_, _, hnone, rfl⟩)
              · split
                · exact Or.inr (Or.inl ⟨_, _, hnone, rfl⟩)
                · rename_i wl hwl
                  split
                  · exact Or.inr (Or.inr (Or.inl ⟨_, _, _, _, hnone, hwl, rfl⟩))
                  · split
                    · exact Or.inr (Or.inr (Or.inl ⟨_, _, _, _, hnone, hwl, rfl⟩))
                    · exact Or.inr (Or.inr (Or.inr rfl))
  · exact Or.inl rfl

/-! ## Writes that keep the material index list sound -/

theorem materialIndex_of_ifPresent (s1 : Store) (l : Slice String)
    (h : unmarshalIfPresent (s1 "materialIndexList") = Except.ok l) :
    materialIndex s1 = Slice.toList l := by
  cases hs : s1 "materialIndexList" with
  | none =>
    rw [hs] at h
    simp only [unmarshalIfPresent, Except.ok.injEq] at h
    subst h
    exact materialIndex_of_none s1 hs
  | some b =>
    rw [hs] at h
    simp only [unmarshalIfPresent] at h
    rw [← hs] at h
    exact materialIndex_of_unmarshal s1 l h

theorem materialIndex_not_list (s1 : Store) (e : LibError)
    (h : unmarshalStrings (s1 "materialIndexList") = Except.error e) :
    materialIndex s1 = [] := by
  simp [materialIndex, storedList, h]

/-- A store whose material index list has no entry is sound as soon as its Material
records are stored under their own ids. -/
theorem indexSound_nil (stub : Store)
    (hids : ∀ k m, stub k = some (Bytes.material m) → m.ID = k ∧ m.ObjectType = "Material")
    (hidx : materialIndex stub = []) : IndexSound stub [] := by
  constructor
  · simpa using hidx
  · intro m hm
    simp at hm
  · intro m hm
    simp at hm
  · simp
  · exact hids

/-- No listed material is stored under the key of the material index list. -/
theorem indexSound_id_ne_list (stub : Store) (ms : List Material) (hS : IndexSound stub ms)
    (m : Material) (hm : m ∈ ms) : m.ID ≠ "materialIndexList" := by
  intro e
  have hb := hS.body m hm
  rw [e] at hb
  have hidx : materialIndex stub = [] := by
    simp [materialIndex, storedList, hb, unmarshalStrings]
  have := hS.index
  rw [hidx] at this
  cases ms with
  | nil => simp at hm
  | cons a rest => simp at this

/-- Writing the record of an entity under a free id keeps the index sound. -/
theorem indexSound_put_record (stub : Store) (ms : List Material) (hS : IndexSound stub ms)
    (id : String) (v : Bytes) (hfree : stub id = none)
    (hv : ∀ m, v = Bytes.material m → m.ID = id ∧ m.ObjectType = "Material")
    (hnl : ∀ l, unmarshalStrings (some v) ≠ Except.ok l) :
    IndexSound (PutState stub id v) ms := by
  have hne : ∀ m, m ∈ ms → m.ID ≠ id := by
    intro m hm e
    have hb := hS.body m hm
    rw [e, hfree] at hb
    simp at hb
  have hids : ∀ k m, PutState stub id v k = some (Bytes.material m) →
      m.ID = k ∧ m.ObjectType = "Material" := by
    intro k m hk
    by_cases e : k = id
    · subst e
      simp only [PutState, if_true, Option.some.injEq] at hk
      exact hv m hk
    · simp only [PutState, e, if_false] at hk
      exact hS.ids k m hk
  constructor
  · by_cases e : id = "materialIndexList"
    · have h1 : materialIndex (PutState stub id v) = [] := by
        cases hd : unmarshalStrings (some v) with
        | ok l => exact absurd hd (hnl l)
        | error err =>
          apply materialIndex_not_list _ err
          rw [← hd]
          simp [PutState, e]
      have h2 : materialIndex stub = [] := materialIndex_of_none stub (by rw [← e]; exact hfree)
      rw [h1, ← hS.index, h2]
    · rw [materialIndex_congr _ stub (by simp [PutState, Ne.symm e])]
      exact hS.index
  · exact hS.valid
  · intro m hm
    simp only [PutState, hne m hm, if_false]
    exact hS.body m hm
  · exact hS.nodup
  · exact hids

/-- Rewriting the wand index list keeps the material index sound, when no Material record
is stored under the key of the wand index list. -/
theorem indexSound_put_wandList (stub : Store) (ms : List Material) (hS : IndexSound stub ms)
    (l : Slice String) (hnm : ∀ m, stub "wandsIndexList" ≠ some (Bytes.material m)) :
    IndexSound (PutState stub "wandsIndexList" (marshalStrings l)) ms := by
  have hne : ∀ m, m ∈ ms → m.ID ≠ "wandsIndexList" := by
    intro m hm e
    have hb := hS.body m hm
    rw [e] at hb
    exact hnm m hb
  constructor
  · rw [materialIndex_congr _ stub (by simp [PutState])]
    exact hS.index
  · exact hS.valid
  · intro m hm
    simp only [PutState, hne m hm, if_false]
    exact hS.body m hm
  · exact hS.nodup
  · intro k m hk
    by_cases e : k = "wandsIndexList"
    · subst e
      cases l <;> simp [PutState, marshalStrings] at hk
    · simp only [PutState, e, if_false] at hk
      exact hS.ids k m hk

/-- Writing the material index list as the keys of materials that have their records
makes the index sound for these materials. -/
theorem indexSound_put_materialList (stub : Store) (ms : List Material)
    (hids : ∀ k m, stub k = some (Bytes.material m) → m.ID = k ∧ m.ObjectType = "Material")
    (hnm : ∀ m, stub "materialIndexList" ≠ some (Bytes.material m))
    (hvalid : ∀ m, m ∈ ms →
      validateCompositeKeyAttribute m.Typ = Except.ok () ∧
      validateCompositeKeyAttribute m.ID = Except.ok ())
    (hbody : ∀ m, m ∈ ms → stub m.ID = some (Bytes.material m))
    (hnodup : (ms.map (fun m => m.ID)).Nodup)
    (l : Slice String) (hl : Slice.toList l = ms.map materialKey) :
    IndexSound (PutState stub "materialIndexList" (marshalStrings l)) ms := by
  have hne : ∀ m, m ∈ ms → m.ID ≠ "materialIndexList" := by
    intro m hm e
    have hb := hbody m hm
    rw [e] at hb
    exact hnm m hb
  constructor
  · rw [materialIndex_of_marshal _ l (by simp [PutState]), hl]
  · exact hvalid
  · intro m hm
    simp only [PutState, hne m hm, if_false]
    exact hbody m hm
  · exact hnodup
  · intro k m hk
    by_cases e : k = "materialIndexList"
    · subst e
      cases l <;> simp [PutState, marshalStrings] at hk
    · simp only [PutState, e, if_false] at hk
      exact hids k m hk

/-- Writing the sentinel under a composite key keeps the index sound. -/
theorem indexSound_put_sentinel (stub : Store) (ms : List Material) (hS : IndexSound stub ms)
    (a b key : String) (hkey : CreateCompositeKey "type~ID" [a, b] = Except.ok key) :
    IndexSound (PutState stub key Bytes.sentinel) ms := by
  have hk1 : key ≠ "materialIndexList" := compositeKey_ne_materialIndexList _ _ _ _ hkey
  constructor
  · rw [materialIndex_congr _ stub (by simp [PutState, Ne.symm hk1])]
    exact hS.index
  · exact hS.valid
  · intro m hm
    have : m.ID ≠ key := valid_ne_compositeKey _ _ _ _ _ (hS.valid m hm).2 hkey
    simp only [PutState, this, if_false]
    exact hS.body m hm
  · exact hS.nodup
  · intro k m hk
    by_cases e : k = key
    · subst e
      simp [PutState] at hk
    · simp only [PutState, e, if_false] at hk
      exact hS.ids k m hk

/-- Removing records under keys that are the id of no listed material keeps the index
sound, for the same materials or, when the list itself is removed, for none. -/
theorem indexSound_delete_keys (stub : Store) (ms : List Material) (hS : IndexSound stub ms)
    (keys : List String) (hno : ∀ m, m ∈ ms → m.ID ∉ keys)
    (s2 : Store) (hs2 : ∀ k, s2 k = if k ∈ keys then none else stub k) :
    ∃ ms2, IndexSound s2 ms2 ∧ ∀ m, m ∈ ms2 → m ∈ ms := by
  have hids : ∀ k m, s2 k = some (Bytes.material m) →
      m.ID = k ∧ m.ObjectType = "Material" := by
    intro k m hk
    rw [hs2] at hk
    split at hk
    · simp at hk
    · exact hS.ids k m hk
  by_cases e : "materialIndexList" ∈ keys
  · refine ⟨[], indexSound_nil s2 hids ?_, ?_⟩
    · apply materialIndex_of_none
      rw [hs2]
      simp [e]
    · intro m hm
      simp at hm
  · refine ⟨ms, ?_, fun m hm => hm⟩
    constructor
    · rw [materialIndex_congr s2 stub (by rw [hs2]; simp [e])]
      exact hS.index
    · exact hS.valid
    · intro m hm
      rw [hs2]
      simp only [hno m hm, if_false]
      exact hS.body m hm
    · exact hS.nodup
    · exact hids

end Studio

namespace Studio

/-! ## Every admitted call keeps the material index list sound -/

theorem indexSound_initMaterial (stub : Store) (ms : List Material) (args : List String)
    (hS : IndexSound stub ms) : ∃ ms2, IndexSound (initMaterial stub args).2 ms2 := by
  rcases initMaterial_run stub args with h | ⟨id, ty, sup, hnone, h⟩ | ⟨p, hp⟩
  · rw [h]
    exact ⟨ms, hS⟩
  · rw [h]
    refine ⟨ms, indexSound_put_record stub ms hS id _ hnone ?_ ?_⟩
    · intro m hm
      simp only [Bytes.material.injEq] at hm
      subst hm
      exact ⟨rfl, rfl⟩
    · intro l
      simp [unmarshalStrings]
  · obtain ⟨id, ty, sup, key, indexList, hargs, _, hnone, hkey, hdec, hrun⟩ :=
      initMaterial_success stub args p hp
    rw [hrun]
    have hS1 : IndexSound (PutState stub id (Bytes.material ⟨"Material", id, ty, sup⟩)) ms := by
      refine indexSound_put_record stub ms hS id _ hnone ?_ ?_
      · intro m hm
        simp only [Bytes.material.injEq] at hm
        subst hm
        exact ⟨rfl, rfl⟩
      · intro l
        simp [unmarshalStrings]
    have hv := compositeKey_two_valid _ _ _ _ hkey
    have htk : typeIDKey ty id = key := typeIDKey_of_compositeKey _ _ _ hkey
    have hidx := materialIndex_of_ifPresent _ indexList hdec
    refine ⟨ms ++ [⟨"Material", id, ty, sup⟩], ?_⟩
    apply indexSound_put_sentinel _ _ _ ty id key hkey
    apply indexSound_put_materialList _ _ hS1.ids
    · intro m hm
      rw [hm] at hdec
      simp [unmarshalIfPresent, unmarshalStrings] at hdec
    · intro m hm
      simp only [List.mem_append, List.mem_singleton] at hm
      rcases hm with hm | hm
      · exact hS.valid m hm
      · subst hm
        exact hv
    · intro m hm
      simp only [List.mem_append, List.mem_singleton] at hm
      rcases hm with hm | hm
      · exact hS1.body m hm
      · subst hm
        simp [PutState]
    · simp only [List.map_append, List.map_cons, List.map_nil]
      rw [List.nodup_append]
      refine ⟨hS.nodup, by simp, ?_⟩
      intro x hx hx2
      simp only [List.mem_singleton] at hx2
      subst hx2
      obtain ⟨m, hm, hmx⟩ := List.mem_map.mp hx
      have hb := hS.body m hm
      rw [hmx, hnone] at hb
      simp at hb
    · rw [toList_append, ← hidx, hS1.index]
      simp [materialKey, htk]

theorem indexSound_deleteMaterial (stub : Store) (ms : List Material) (args : List String)
    (hS : IndexSound stub ms) (hadm : (Call.deleteMaterial args).admitted stub = true) :
    ∃ ms2, IndexSound (deleteMaterial stub args).2 ms2 := by
  match args, hadm with
  | [], hadm => simp [Call.admitted] at hadm
  | _ :: _ :: _, hadm => simp [Call.admitted] at hadm
  | [id], hadm =>
    obtain ⟨m0, hm0⟩ := admitted_deleteMaterial stub id hadm
    have hid : m0.ID = id := (hS.ids id m0 hm0).1
    have hmat : unmarshalMaterial (Bytes.material m0) = Except.ok m0 := rfl
    have huniq : ∀ a, a ∈ ms → a.ID = m0.ID → a = m0 := by
      intro a ha e
      have hb := hS.body a ha
      rw [e, hid, hm0] at hb
      simp only [Option.some.injEq, Bytes.material.injEq] at hb
      exact hb.symm
    have hids1 : ∀ k m, DelState stub id k = some (Bytes.material m) →
        m.ID = k ∧ m.ObjectType = "Material" := by
      intro k m hk
      by_cases e : k = id
      · simp [DelState, e] at hk
      · simp only [DelState, e, if_false] at hk
        exact hS.ids k m hk
    rcases deleteMaterial_run stub id _ m0 hm0 hmat with
      ⟨_, hst, hwhy⟩ | ⟨key, il, hkey, hdec, hrun⟩
    · rw [hst]
      rcases hwhy with ⟨e, hkey⟩ | ⟨e, hdec⟩
      · have hno : ∀ m, m ∈ ms → m.ID ∉ [id] := by
          intro m hm hin
          simp only [List.mem_singleton] at hin
          have hmm : m = m0 := huniq m hm (by rw [hin, hid])
          have hv := hS.valid m hm
          rw [hmm] at hv
          rw [compositeKey_typeID_of_valid _ _ hv.1 hv.2] at hkey
          simp at hkey
        obtain ⟨ms2, h2, _⟩ := indexSound_delete_keys stub ms hS [id] hno (DelState stub id)
          (by intro k; simp [DelState])
        exact ⟨ms2, h2⟩
      · exact ⟨[], indexSound_nil _ hids1 (materialIndex_not_list _ e hdec)⟩
    · rw [hrun]
      have hidm : id ≠ "materialIndexList" := by
        intro e
        rw [e] at hdec
        simp [DelState, unmarshalStrings] at hdec
      have hdec2 : unmarshalStrings (stub "materialIndexList") = Except.ok il := by
        rw [← hdec]
        simp [DelState, Ne.symm hidm]
      have hv0 := compositeKey_two_valid _ _ _ _ hkey
      have hk0 : materialKey m0 = key := typeIDKey_of_compositeKey _ _ _ hkey
      have hil : Slice.toList il = ms.map materialKey := by
        rw [← materialIndex_of_unmarshal stub il hdec2]
        exact hS.index
      refine ⟨ms.filter (fun m => m.ID ≠ m0.ID), ?_⟩
      apply indexSound_put_materialList _ _ hids1
      · intro m hm
        rw [hm] at hdec
        simp [unmarshalStrings] at hdec
      · intro m hm
        exact hS.valid m (List.mem_of_mem_filter hm)
      · intro m hm
        have hm2 : m ∈ ms.filter (fun m => m.ID ≠ m0.ID) := hm
        have hmid : ¬ m.ID = m0.ID := of_decide_eq_true (List.mem_filter.mp hm2).2
        rw [hid] at hmid
        simp only [DelState, hmid, if_false]
        exact hS.body m (List.mem_of_mem_filter hm)
      · exact nodup_ids_filter ms _ hS.nodup
      · rw [toList_map_erase, hil, ← hk0]
        exact erase_map_key m0 hv0 ms hS.valid hS.nodup huniq

theorem indexSound_initWand (stub : Store) (ms : List Material) (args : List String)
    (hS : IndexSound stub ms) : ∃ ms2, IndexSound (initWand stub args).2 ms2 := by
  have hrec : ∀ id w, stub id = none → IndexSound (PutState stub id (Bytes.wand w)) ms := by
    intro id w hnone
    refine indexSound_put_record stub ms hS id _ hnone ?_ ?_
    · intro m hm
      simp at hm
    · intro l
      simp [unmarshalStrings]
  rcases initWand_run stub args with h | ⟨id, w, hnone, h⟩ | ⟨id, w, wl, key, hnone, hwl, h⟩ | h
  · rw [h]
    exact ⟨ms, hS⟩
  · rw [h]
    exact ⟨ms, hrec id w hnone⟩
  · rw [h]
    refine ⟨ms, indexSound_put_wandList _ ms (hrec id w hnone) _ ?_⟩
    intro m hm
    rw [hm] at hwl
    simp [unmarshalIfPresent, unmarshalStrings] at hwl
  · obtain ⟨wandID, wandType, wandColor, arg3, arg4, arg5, rest, wandSize, num, materials,
      key, wl, ml, updated, _, _, _, _, _, hnone, hidw, hidm, hkey, hwl, hml, hc, hrun⟩ :=
      initWand_success stub args h
    rw [hrun]
    have hS1 := hrec wandID ⟨"Wand", wandID, wandType, wandColor, wandSize, materials⟩ hnone
    have hS2 := indexSound_put_wandList _ ms hS1 (Slice.append wl key) (by
      intro m hm
      rw [getState_putState_other _ _ _ _ (Ne.symm hidw)] at hm
      rw [hm] at hwl
      simp [unmarshalIfPresent, unmarshalStrings] at hwl)
    have hil : Slice.toList ml = ms.map materialKey := by
      rw [← materialIndex_of_unmarshal stub ml hml]
      exact hS.index
    obtain ⟨r1, _, _⟩ := consumeMaterials_books (Slice.toList materials) ms ml updated
      hS.valid hS.nodup hil hc
    refine ⟨ms.filter (fun m => m.ID ∉ Slice.toList materials), ?_⟩
    apply indexSound_put_materialList _ _ hS2.ids
    · intro m hm
      simp only [PutState, Ne.symm hidm, if_false] at hm
      have : ("materialIndexList" : String) ≠ "wandsIndexList" := by decide
      simp only [this, if_false] at hm
      rw [hm] at hml
      simp [unmarshalStrings] at hml
    · intro m hm
      exact hS.valid m (List.mem_of_mem_filter hm)
    · intro m hm
      exact hS2.body m (List.mem_of_mem_filter hm)
    · exact nodup_ids_filter ms _ hS.nodup
    · exact r1

theorem indexedIDs_of_sound (stub : Store) (ms : List Material) (hS : IndexSound stub ms) :
    indexedIDs stub = ms.map (fun m => m.ID) := by
  simp only [indexedIDs, hS.index]
  exact filterMap_entryID_keys _ hS.valid

theorem indexSound_deleteWand (stub : Store) (ms : List Material) (args : List String)
    (hS : IndexSound stub ms) (hadm : (Call.deleteWand args).admitted stub = true) :
    ∃ ms2, IndexSound (deletewand stub args).2 ms2 := by
  match args, hadm with
  | [], hadm => simp [Call.admitted] at hadm
  | _ :: _ :: _, hadm => simp [Call.admitted] at hadm
  | [id], hadm =>
    obtain ⟨w, hw, hlisted⟩ := admitted_deleteWand stub id hadm
    have hwd : unmarshalWand (Bytes.wand w) = Except.ok w := rfl
    have hno : ∀ m, m ∈ ms → m.ID ∉ [id] := by
      intro m hm hin
      simp only [List.mem_singleton] at hin
      have hb := hS.body m hm
      rw [hin, hw] at hb
      simp at hb
    obtain ⟨ms1, hS1, hsub⟩ := indexSound_delete_keys stub ms hS [id] hno (DelState stub id)
      (by intro k; simp [DelState])
    rcases deletewand_run stub id _ w hw hwd with ⟨_, hst⟩ | ⟨key, il, hkey, hdec, hrun⟩
    · rw [hst]
      exact ⟨ms1, hS1⟩
    · rw [hrun]
      have hS2 := indexSound_put_wandList _ ms1 hS1
        (updatedIndexListLoop key (Slice.toList il) (Slice.toList il) 0) (by
          intro m hm
          rw [hm] at hdec
          simp [unmarshalStrings] at hdec)
      have hno2 : ∀ m, m ∈ ms1 → m.ID ∉ Slice.toList w.Materials := by
        intro m hm hin
        apply hlisted m.ID hin
        rw [indexedIDs_of_sound stub ms hS]
        exact List.mem_map_of_mem (fun m => m.ID) (hsub m hm)
      obtain ⟨ms3, hS3, _⟩ := indexSound_delete_keys _ ms1 hS2 (Slice.toList w.Materials) hno2
        (deleteMaterialsLoop (Slice.toList w.Materials)
          (PutState (DelState stub id) "wandsIndexList"
            (marshalStrings (updatedIndexListLoop key (Slice.toList il) (Slice.toList il) 0))))
        (by intro k; exact deleteMaterialsLoop_get _ _ k)
      exact ⟨ms3, hS3⟩

/-- The index of the initialised store has no entry and is sound. -/
theorem indexSound_initialised : IndexSound initialised [] := by
  have hs : ∀ k, initialised k =
      if k = "wandsIndexList" then some Bytes.null
      else if k = "materialIndexList" then some Bytes.null else none := by
    intro k
    simp [initialised, Init, GetState, emptyStore, PutState, marshalStrings]
  apply indexSound_nil
  · intro k m hk
    rw [hs] at hk
    split at hk
    · simp at hk
    · split at hk <;> simp at hk
  · simp [materialIndex, storedList, hs, unmarshalStrings, Slice.toList]

/-- One admitted call, whatever its response, keeps the material index list sound. -/
theorem indexSound_step (stub : Store) (ms : List Material) (c : Call)
    (hS : IndexSound stub ms) (hadm : c.admitted stub = true) :
    ∃ ms2, IndexSound (c.run stub).2 ms2 := by
  cases c with
  | initMaterial args => exact indexSound_initMaterial stub ms args hS
  | deleteMaterial args => exact indexSound_deleteMaterial stub ms args hS hadm
  | initWand args => exact indexSound_initWand stub ms args hS
  | deleteWand args => exact indexSound_deleteWand stub ms args hS hadm

theorem indexSound_runAdmitted (calls : List Call) :
    ∀ (stub s2 : Store) (ms : List Material), IndexSound stub ms →
      runAdmitted calls stub = some s2 → ∃ ms2, IndexSound s2 ms2 := by
  induction calls with
  | nil =>
    intro stub s2 ms hS h
    simp only [runAdmitted, Option.some.injEq] at h
    subst h
    exact ⟨ms, hS⟩
  | cons c cs ih =>
    intro stub s2 ms hS h
    simp only [runAdmitted] at h
    split at h
    · rename_i hadm
      obtain ⟨ms1, hS1⟩ := indexSound_step stub ms c hS hadm
      exact ih _ s2 ms1 hS1 h
    · simp at h

end Studio

namespace Studio

/-! ## The entries of the material index list and the records -/

/-- C27 (as stated, refuted): in `recreatedCalls` every delete is applied to an id of its
own kind and every call succeeds, yet the store reached holds the index entry of
`(wood, M1)` while no record is stored under `M1`. -/
theorem C27_own_kind_history_with_dangling_entry :
    ownKindAll recreatedCalls initialised = true ∧
    succeedAll recreatedCalls initialised = true ∧
    materialIndex (runAll recreatedCalls initialised) = [typeIDKey "wood" "M1"] ∧
    SplitCompositeKey (typeIDKey "wood" "M1") = some ("type~ID", ["wood", "M1"]) ∧
    runAll recreatedCalls initialised "M1" = none := by
  decide

/-- C27 (amended): in every store reached from the initialised store by any sequence of
`initMaterial`, `deleteMaterial`, `initWand` and `deleteWand` calls, successful or not, in
which each delete is applied to an id of its own kind and no wand is deleted while an id
it lists has an entry in the material index list, every entry of the material index list
decodes to a type and an id such that a Material record with that id and that type is
stored under the id, and no id occurs in two entries of the list. -/
theorem C27_index_entries_have_records (calls : List Call) (stub : Store)
    (h : runAdmitted calls initialised = some stub) :
    (∀ e, e ∈ materialIndex stub → ∃ m : Material,
      SplitCompositeKey e = some ("type~ID", [m.Typ, m.ID]) ∧
      stub m.ID = some (Bytes.material m) ∧ m.ObjectType = "Material") ∧
    ((materialIndex stub).map entryID).Nodup := by
  obtain ⟨ms, hS⟩ := indexSound_runAdmitted calls initialised stub [] indexSound_initialised h
  refine ⟨?_, ?_⟩
  · intro e he
    rw [hS.index] at he
    obtain ⟨m, hm, hme⟩ := List.mem_map.mp he
    refine ⟨m, ?_, hS.body m hm, (hS.ids _ m (hS.body m hm)).2⟩
    rw [← hme]
    exact split_typeIDKey m.Typ m.ID (hS.valid m hm).1 (hS.valid m hm).2
  · have hmap : (ms.map materialKey).map entryID = (ms.map (fun m => m.ID)).map some := by
      rw [List.map_map, List.map_map]
      apply List.map_congr_left
      intro m hm
      exact entryID_materialKey m (hS.valid m hm)
    rw [hS.index, hmap]
    exact List.Nodup.map (Option.some_injective _) hS.nodup

end Studio

namespace Studio

/-! ## The last theorems at concrete inputs -/

/-- Witness of C21 (amended): the count `2` with one material id supplied; the call ends
in the panic of the argument loop and the store is the initialised one. -/
theorem C21_initWand_count_beyond_arguments_witness :
    (initWand initialised ["W1", "standard", "brown", "10", "2", "M1"]).1 = Response.GoPanic ∧
    (initWand initialised ["W1", "standard", "brown", "10", "2", "M1"]).2 = initialised :=
  ⟨(C21_initWand_count_beyond_arguments initialised
      ["W1", "standard", "brown", "10", "2", "M1"] "2" 2 rfl rfl (by decide)
      (by norm_num)).2.2 (by decide) "10" 10 rfl rfl,
   (C21_initWand_count_beyond_arguments initialised
      ["W1", "standard", "brown", "10", "2", "M1"] "2" 2 rfl rfl (by decide)
      (by norm_num)).2.1⟩

/-- Witness of C22 (amended): the count `-1` in the initialised store. -/
theorem C22_negative_count_takes_no_material_witness :
    initWand initialised negativeCountArgs =
      initWand initialised ["W1", "standard", "brown", "10", "0", "M1"] ∧
    initWand initialised negativeCountArgs =
      (Response.Success Payload.nil,
        PutState (PutState (PutState initialised "W1"
          (Bytes.wand ⟨"Wand", "W1", "standard", "brown", 10, none⟩))
          "wandsIndexList" (marshalStrings (Slice.append none (typeIDKey "standard" "W1"))))
          "materialIndexList" (marshalStrings none)) ∧
    (initWand initialised negativeCountArgs).2 "materialIndexList" =
      initialised "materialIndexList" :=
  ⟨(C22_negative_count_takes_no_material initialised "W1" "standard" "brown" "10" "-1" "M1" []
      10 (-1) rfl rfl (by decide)).1,
   ((C22_negative_count_takes_no_material initialised "W1" "standard" "brown" "10" "-1" "M1" []
      10 (-1) rfl rfl (by decide)).2 (typeIDKey "standard" "W1") none none (by decide)
      (by decide) (by decide) rfl rfl rfl).1,
   ((C22_negative_count_takes_no_material initialised "W1" "standard" "brown" "10" "-1" "M1" []
      10 (-1) rfl rfl (by decide)).2 (typeIDKey "standard" "W1") none none (by decide)
      (by decide) (by decide) rfl rfl rfl).2⟩

/-- Witness of C23: the empty id in scenario B. -/
theorem C23_empty_id_rejected_witness :
    initMaterial scenarioB3 ["", "wood", "S1"] =
      (Response.Error [Frag.str "Material ID cannot be empty"], scenarioB3) ∧
    initWand scenarioB3 ["", "standard", "brown", "10", "1", "M1"] =
      (Response.Error [Frag.str "Wand ID cannot be empty"], scenarioB3) ∧
    (initWand scenarioB3 ["", "standard", "brown", "ten", "1", "M1"]).2 = scenarioB3 :=
  ⟨(C23_empty_id_rejected scenarioB3 ["wood", "S1"]).2.2.2.2.1 "wood" "S1",
   (C23_empty_id_rejected scenarioB3 ["wood", "S1"]).2.2.2.2.2 "standard" "brown" "10" "1" "M1"
     [] 10 1 rfl rfl (by decide) (by decide),
   (C23_empty_id_rejected scenarioB3 ["standard", "brown", "ten", "1", "M1"]).2.2.2.1⟩

/-- Witness of C24: the size `ten`. -/
theorem C24_initWand_size_must_parse_witness :
    Atoi "ten" = Except.error LibError.atoiSyntax ∧
    (initWand scenarioB2 ["W1", "standard", "brown", "ten", "2", "M1", "M2"]).1 =
      Response.Error [Frag.str "Size must be an integer."] ∧
    (initWand scenarioB2 ["W1", "standard", "brown", "ten", "2", "M1", "M2"]).2 = scenarioB2 :=
  ⟨rfl,
   (C24_initWand_size_must_parse scenarioB2 ["W1", "standard", "brown", "ten", "2", "M1", "M2"]
     "ten" LibError.atoiSyntax rfl rfl).2.2 (by decide),
   (C24_initWand_size_must_parse scenarioB2 ["W1", "standard", "brown", "ten", "2", "M1", "M2"]
     "ten" LibError.atoiSyntax rfl rfl).2.1⟩

/-- Witness of C25: `Init` on the store of scenario B keeps both lists, and on the store
with no record it creates them. -/
theorem C25_Init_idempotent_witness :
    scenarioB3 "wandsIndexList" = some (Bytes.strings [typeIDKey "standard" "W1"]) ∧
    (Init scenarioB3).2 "wandsIndexList" = some (Bytes.strings [typeIDKey "standard" "W1"]) ∧
    (Init scenarioB3).2 "materialIndexList" = some (Bytes.strings []) ∧
    (Init emptyStore).2 "materialIndexList" = some Bytes.null ∧
    (Init (Init emptyStore).2).2 = (Init emptyStore).2 :=
  ⟨by decide,
   (C25_Init_idempotent scenarioB3).2.2.1 _ (by decide),
   (C25_Init_idempotent scenarioB3).2.1 _ (by decide),
   (C25_Init_idempotent emptyStore).2.2.2.1 rfl,
   (C25_Init_idempotent emptyStore).2.2.2.2.2.1⟩

/-- Witness of C26: the key of `(wood, M1)`. -/
theorem C26_compositeKey_roundTrip_witness :
    CreateCompositeKey "type~ID" ["wood", "M1"] = Except.ok (typeIDKey "wood" "M1") ∧
    SplitCompositeKey (typeIDKey "wood" "M1") = some ("type~ID", ["wood", "M1"]) ∧
    entryType (typeIDKey "wood" "M1") = some "wood" ∧
    entryID (typeIDKey "wood" "M1") = some "M1" :=
  ⟨rfl,
   (C26_compositeKey_roundTrip "wood" "M1" (typeIDKey "wood" "M1") rfl).1,
   (C26_compositeKey_roundTrip "wood" "M1" (typeIDKey "wood" "M1") rfl).2.1,
   (C26_compositeKey_roundTrip "wood" "M1" (typeIDKey "wood" "M1") rfl).2.2.1⟩

/-- Witness of C27 (amended): a history with a failed wand creation; the entry of `M1`
stays in the index with its record. -/
theorem C27_index_entries_have_records_witness :
    runAdmitted failedWandCalls initialised = some (runAll failedWandCalls initialised) ∧
    succeedAll failedWandCalls initialised = false ∧
    materialIndex (runAll failedWandCalls initialised) = [typeIDKey "wood" "M1"] ∧
    (∀ e, e ∈ materialIndex (runAll failedWandCalls initialised) → ∃ m : Material,
      SplitCompositeKey e = some ("type~ID", [m.Typ, m.ID]) ∧
      runAll failedWandCalls initialised m.ID = some (Bytes.material m) ∧
      m.ObjectType = "Material") ∧
    ((materialIndex (runAll failedWandCalls initialised)).map entryID).Nodup :=
  ⟨rfl, by decide, by decide,
   (C27_index_entries_have_records failedWandCalls (runAll failedWandCalls initialised) rfl).1,
   (C27_index_entries_have_records failedWandCalls (runAll failedWandCalls initialised) rfl).2⟩

/-- Witness of C28 (amended): `deleteMaterial(W1)` in scenario B and `deleteWand(M1)`
after the creation of `M1`. -/
theorem C28_deletes_do_not_check_kind_witness :
    (deleteMaterial scenarioB3 ["W1"]).2 "W1" = none ∧
    wandIndex (deleteMaterial scenarioB3 ["W1"]).2 = wandIndex scenarioB3 ∧
    (deletewand scenarioB1 ["M1"]).2 "M1" = none ∧
    materialIndex (deletewand scenarioB1 ["M1"]).2 = materialIndex scenarioB1 :=
  ⟨((C28_deletes_do_not_check_kind scenarioB3 "W1").1
      ⟨"Wand", "W1", "standard", "brown", 10, some ["M1", "M2"]⟩ (by decide)).1,
   ((C28_deletes_do_not_check_kind scenarioB3 "W1").1
      ⟨"Wand", "W1", "standard", "brown", 10, some ["M1", "M2"]⟩ (by decide)).2.1,
   ((C28_deletes_do_not_check_kind scenarioB1 "M1").2.1
      ⟨"Material", "M1", "wood", "S1"⟩ (by decide)).1,
   ((C28_deletes_do_not_check_kind scenarioB1 "M1").2.1
      ⟨"Material", "M1", "wood", "S1"⟩ (by decide)).2.1⟩

/-- Witness of C29: queries on the store of scenario B, one that succeeds and one that
fails. -/
theorem C29_queries_leave_store_witness :
    (getAllWands scenarioB3).2 = scenarioB3 ∧
    (readMaterial scenarioB3 ["M9"]).1 =
      Response.Error [Frag.str "Material does not exist: ", Frag.str "M9"] ∧
    (readMaterial scenarioB3 ["M9"]).2 = scenarioB3 ∧
    (Invoke scenarioB3 "getNumberWandsByType" ["standard"]).2 = scenarioB3 :=
  ⟨(C29_queries_leave_store scenarioB3 ["M9"]).2.2.2.2.2.2.2.2.2.1,
   by decide,
   (C29_queries_leave_store scenarioB3 ["M9"]).1,
   (C29_queries_leave_store scenarioB3 ["standard"]).2.2.2.2.2.2.2.2.2.2.2.2.1
     "getNumberWandsByType" (by decide)⟩

end Studio

namespace Studio

/-! ## The materials a wand creation consumes -/

/-- The ids `initWand` reads when the count is the number of the trailing arguments. -/
theorem wandMaterials_exact (id ty color sizeArg numArg : String) (ms : List String)
    (hnum : Atoi numArg = Except.ok (ms.length : Int))
    (hlen : (ms.length : Int) + 5 < (2 : Int) ^ 63) :
    wandMaterials (id :: ty :: color :: sizeArg :: numArg :: ms) = ms := by
  cases ms with
  | nil =>
    have h0 : Atoi numArg = Except.ok 0 := hnum
    have hl : materialsLoop [id, ty, color, sizeArg, numArg] (wrapInt64 (5 + 0) - 5).toNat 5 none =
        some none := rfl
    unfold wandMaterials
    simp only [h0, hl]
    rfl
  | cons a rest =>
    have hw : wrapInt64 (5 + ((a :: rest).length : Int)) = 5 + ((a :: rest).length : Int) := by
      apply wrapInt64_of_inRange
      · omega
      · omega
    have hk : (wrapInt64 (5 + ((a :: rest).length : Int)) - 5).toNat = (a :: rest).length := by
      rw [hw]
      omega
    obtain ⟨r, hr⟩ := materialsLoop_enough (id :: ty :: color :: sizeArg :: numArg :: a :: rest)
      (wrapInt64 (5 + ((a :: rest).length : Int)) - 5).toNat 5 none (by
        rw [hk]
        simp only [List.length_cons]
        omega)
    rw [wandMaterials_of_loop id ty color sizeArg numArg a rest _ r hnum hr,
      materialsLoop_exact id ty color sizeArg numArg (a :: rest) r hlen (by simp) hr]
    rfl
/-- C2: for every store in which the material index list is readable and every successful
`initWand`, whatever its argument list, the material index list persisted afterwards is
the previous list with, for each material id the call references (the ids the argument
loop reads, which are the ones stored in the wand), in order, the first entry whose decoded
id part equals it removed and the other entries kept in their order; every Material body
stored before the call is stored under the same key with the same bytes after it.  When
the count is the number of the trailing arguments, the referenced ids are these arguments. -/
theorem C2_initWand_consumes_index_only (stub : Store) (args : List String)
    (previous : List String)
    (hprev : storedList stub "materialIndexList" = some previous)
    (h : (initWand stub args).1.isSuccess = true) :
    storedList (initWand stub args).2 "materialIndexList" =
        some ((wandMaterials args).foldl (fun acc m => removeFirstWithID m acc) previous) ∧
    (∀ k mat, stub k = some (Bytes.material mat) →
        (initWand stub args).2 k = some (Bytes.material mat)) ∧
    (∃ id w, args[0]? = some id ∧ (initWand stub args).2 id = some (Bytes.wand w) ∧
        Slice.toList w.Materials = wandMaterials args) ∧
    (∀ id ty color sizeArg numArg ms,
        args = id :: ty :: color :: sizeArg :: numArg :: ms →
        Atoi numArg = Except.ok (ms.length : Int) →
        (ms.length : Int) + 5 < (2 : Int) ^ 63 → wandMaterials args = ms) := by
  obtain ⟨wandID, wandType, wandColor, arg3, arg4, arg5, rest, wandSize, num, materials, key,
    wl, ml, updated, hargs, hsize, hnum, hloop, hid, hnone, h1, h2, hkey, hwl, hml, hc,
    hrun⟩ := initWand_success stub args h
  have hwm : wandMaterials args = Slice.toList materials := by
    rw [hargs]
    rw [hargs] at hloop
    exact wandMaterials_of_loop _ _ _ _ _ _ _ num materials hnum hloop
  have hprev2 : Slice.toList ml = previous := by
    have := storedList_of_unmarshal stub "materialIndexList" ml hml
    rw [hprev] at this
    exact (Option.some.inj this).symm
  refine ⟨?_, ?_, ?_, ?_⟩
  · rw [hrun, hwm]
    have hfold := consumeMaterials_ok _ _ _ hc
    rw [storedList_putState_same, hfold, hprev2]
  · intro k mat hk
    rw [hrun]
    have hk0 : k ≠ wandID := by
      intro heq
      rw [heq, hnone] at hk
      simp at hk
    have hk1 : k ≠ "wandsIndexList" := by
      intro heq
      rw [heq] at hk
      rw [hk] at hwl
      simp [unmarshalIfPresent, unmarshalStrings] at hwl
    have hk2 : k ≠ "materialIndexList" := by
      intro heq
      rw [heq] at hk
      rw [hk] at hml
      simp [unmarshalStrings] at hml
    simp [PutState, hk0, hk1, hk2, hk]
  · refine ⟨wandID, ⟨"Wand", wandID, wandType, wandColor, wandSize, materials⟩, ?_, ?_, ?_⟩
    · rw [hargs]
      rfl
    · rw [hrun]
      simp [PutState, h1, h2]
    · exact hwm.symm
  · intro id ty color sizeArg numArg ms hshape hn hlen
    rw [hshape]
    exact wandMaterials_exact id ty color sizeArg numArg ms hn hlen

/-- Witness of C2: the wand of scenario B, which consumes `M1` and `M2`, and a wand whose
count `1` is followed by two arguments, which consumes `M1` alone. -/
theorem C2_initWand_consumes_index_only_witness :
    (initWand scenarioB2 wandW1Args).1.isSuccess = true ∧
    storedList scenarioB2 "materialIndexList" =
      some [typeIDKey "wood" "M1", typeIDKey "wood" "M2"] ∧
    wandMaterials wandW1Args = ["M1", "M2"] ∧
    storedList (initWand scenarioB2 wandW1Args).2 "materialIndexList" =
      some ((wandMaterials wandW1Args).foldl (fun acc m => removeFirstWithID m acc)
        [typeIDKey "wood" "M1", typeIDKey "wood" "M2"]) ∧
    (initWand scenarioB2 wandW1Args).2 "M1" =
      some (Bytes.material ⟨"Material", "M1", "wood", "S1"⟩) ∧
    wandMaterials ["W1", "standard", "brown", "10", "1", "M1", "pad"] = ["M1"] ∧
    storedList (initWand scenarioB2 ["W1", "standard", "brown", "10", "1", "M1", "pad"]).2
        "materialIndexList" =
      some ((wandMaterials ["W1", "standard", "brown", "10", "1", "M1", "pad"]).foldl
        (fun acc m => removeFirstWithID m acc)
        [typeIDKey "wood" "M1", typeIDKey "wood" "M2"]) ∧
    storedList (initWand scenarioB2 ["W1", "standard", "brown", "10", "1", "M1", "pad"]).2
        "materialIndexList" = some [typeIDKey "wood" "M2"] :=
  ⟨by decide, by decide, by decide,
   (C2_initWand_consumes_index_only scenarioB2 wandW1Args
     [typeIDKey "wood" "M1", typeIDKey "wood" "M2"] (by decide) (by decide)).1,
   (C2_initWand_consumes_index_only scenarioB2 wandW1Args
     [typeIDKey "wood" "M1", typeIDKey "wood" "M2"] (by decide) (by decide)).2.1 "M1"
     ⟨"Material", "M1", "wood", "S1"⟩ (by decide),
   by decide,
   (C2_initWand_consumes_index_only scenarioB2
     ["W1", "standard", "brown", "10", "1", "M1", "pad"]
     [typeIDKey "wood" "M1", typeIDKey "wood" "M2"] (by decide) (by decide)).1,
   by decide⟩

end Studio

namespace Studio

/-! ## The entries the chaincode writes to the material index list -/

theorem materialIndex_putMaterial (stub : Store) (k : String) (m : Material) :
    List.Sublist (materialIndex (PutState stub k (Bytes.material m))) (materialIndex stub) := by
  by_cases h : k = "materialIndexList"
  · have : materialIndex (PutState stub k (Bytes.material m)) = [] := by
      simp [materialIndex, storedList, PutState, h, unmarshalStrings]
    rw [this]
    exact List.nil_sublist _
  · rw [materialIndex_congr (PutState stub k (Bytes.material m)) stub
      (by simp [PutState, Ne.symm h])]

/-- An entry of the material index list after `initMaterial` was in the list before or is
the composite key the call made from its type and id. -/
theorem initMaterial_materialIndex_mem (stub : Store) (args : List String) (e : String)
    (he : e ∈ materialIndex (initMaterial stub args).2) :
    e ∈ materialIndex stub ∨
    ∃ ty id, CreateCompositeKey "type~ID" [ty, id] = Except.ok e := by
  rcases initMaterial_run stub args with h | ⟨id, ty, sup, _, h⟩ | ⟨p, hp⟩
  · rw [h] at he
    exact Or.inl he
  · rw [h] at he
    exact Or.inl ((materialIndex_putMaterial stub id _).subset he)
  · obtain ⟨id, ty, sup, key, indexList, _, _, _, hkey, hdec, hrun⟩ :=
      initMaterial_success stub args p hp
    rw [hrun] at he
    have hk1 : key ≠ "materialIndexList" := compositeKey_ne_materialIndexList _ _ _ _ hkey
    rw [materialIndex_congr _ (PutState (PutState stub id
        (Bytes.material ⟨"Material", id, ty, sup⟩)) "materialIndexList"
        (marshalStrings (Slice.append indexList key))) (by simp [PutState, Ne.symm hk1]),
      materialIndex_of_marshal _ (Slice.append indexList key) (by simp [PutState]),
      toList_append, ← materialIndex_of_ifPresent _ indexList hdec] at he
    rcases List.mem_append.mp he with he | he
    · exact Or.inl ((materialIndex_putMaterial stub id _).subset he)
    · simp only [List.mem_singleton] at he
      subst he
      exact Or.inr ⟨ty, id, hkey⟩

/-- Serving a request leaves every entry of the material index list a composite key of a
type and an id, when the entries were such keys before. -/
theorem request_entries_keyed (r : Request) (stub : Store)
    (h : ∀ e, e ∈ materialIndex stub →
      ∃ ty id, SplitCompositeKey e = some ("type~ID", [ty, id])) :
    ∀ e, e ∈ materialIndex (r.run stub).2 →
      ∃ ty id, SplitCompositeKey e = some ("type~ID", [ty, id]) := by
  have hsub : ∀ s2 : Store, List.Sublist (materialIndex s2) (materialIndex stub) →
      ∀ e, e ∈ materialIndex s2 →
        ∃ ty id, SplitCompositeKey e = some ("type~ID", [ty, id]) :=
    fun s2 hs e he => h e (hs.subset he)
  have hsame : ∀ s2 : Store, s2 = stub →
      ∀ e, e ∈ materialIndex s2 →
        ∃ ty id, SplitCompositeKey e = some ("type~ID", [ty, id]) := by
    intro s2 hs
    rw [hs]
    exact h
  cases r with
  | init => exact hsub _ (init_materialIndex stub)
  | invoke function args =>
    show ∀ e, e ∈ materialIndex (Invoke stub function args).2 → _
    apply Invoke_cases
      (fun r => ∀ e, e ∈ materialIndex r.2 →
        ∃ ty id, SplitCompositeKey e = some ("type~ID", [ty, id])) stub function args
    · intro _ e he
      rcases initMaterial_materialIndex_mem stub args e he with h1 | ⟨ty, id, hkey⟩
      · exact h e h1
      · have hv := compositeKey_two_valid _ _ _ _ hkey
        have hk := typeIDKey_of_compositeKey _ _ _ hkey
        exact ⟨ty, id, by rw [← hk]; exact split_typeIDKey ty id hv.1 hv.2⟩
    · intro _; exact hsame _ (readMaterial_store stub args)
    · intro _; exact hsame _ (getMaterialsByType_store stub args)
    · intro _; exact hsame _ (getAllMaterials_store stub)
    · intro _; exact hsame _ (getNumberMaterialsByType_store stub args)
    · intro _; exact hsame _ (getTotalNumberOfMaterials_store stub)
    · intro _; exact hsub _ (deleteMaterial_materialIndex stub args)
    · intro _; exact hsame _ (getAllMaterialsAndIndexList_store stub)
    · intro _; exact hsame _ (getMaterialIndexList_store stub)
    · intro _; exact hsub _ (initWand_materialIndex stub args)
    · intro _; exact hsame _ (readWand_store stub args)
    · intro _; exact hsame _ (getWandsByType_store stub args)
    · intro _; exact hsame _ (getAllWands_store stub)
    · intro _; exact hsame _ (getNumberwandsByType_store stub args)
    · intro _; exact hsame _ (getTotalNumberOfWands_store stub)
    · intro _; exact hsub _ (deletewand_materialIndex stub args)
    · exact h

/-- In every store reached from the store with no record by a sequence of requests, every
entry of the material index list is a composite key of a type and an id. -/
theorem requests_entries_keyed (reqs : List Request) :
    ∀ stub : Store,
      (∀ e, e ∈ materialIndex stub →
        ∃ ty id, SplitCompositeKey e = some ("type~ID", [ty, id])) →
      ∀ e, e ∈ materialIndex (runRequests reqs stub) →
        ∃ ty id, SplitCompositeKey e = some ("type~ID", [ty, id]) := by
  induction reqs with
  | nil =>
    intro stub h
    exact h
  | cons r rs ih =>
    intro stub h
    exact ih _ (request_entries_keyed r stub h)

theorem materialIndex_of_storedList (stub : Store) (l : List String)
    (h : storedList stub "materialIndexList" = some l) : materialIndex stub = l := by
  simp [materialIndex, h]

/-- C15: for every store the chaincode can be in (a store reached from the store with no
record by any sequence of `Init` and `Invoke` requests) and, more generally, for every
store in which every entry of the material index list has an id part: when the material
index list is readable and the records present under the ids of its entries decode,
`getAllMaterials` succeeds, writes nothing, and returns, in the order of the index list,
the decoded records of exactly the entries whose id has a record in the store; an entry
whose record is missing contributes nothing. -/
theorem C15_getAllMaterials_skips_missing (stub : Store) (l : List String)
    (hl : storedList stub "materialIndexList" = some l)
    (hstore : (∃ reqs, runRequests reqs emptyStore = stub) ∨
      (∀ e, e ∈ l → (entryID e).isSome = true))
    (hdec : ∀ e id b, e ∈ l → entryID e = some id → stub id = some b →
      ∃ m, unmarshalMaterial b = Except.ok m) :
    getAllMaterials stub =
      (Response.Success (Payload.materials (sliceOf (l.filterMap (entryMaterial stub)))), stub) ∧
    (∀ e, e ∈ l → ∃ id, entryID e = some id ∧
      (stub id = none → entryMaterial stub e = none) ∧
      (stub id ≠ none → (entryMaterial stub e).isSome = true)) := by
  have hids : ∀ e, e ∈ l → (entryID e).isSome = true := by
    rcases hstore with ⟨reqs, hreq⟩ | hids
    · intro e he
      have hempty : ∀ e, e ∈ materialIndex emptyStore →
          ∃ ty id, SplitCompositeKey e = some ("type~ID", [ty, id]) := by
        intro e he
        simp [materialIndex, storedList, emptyStore, unmarshalStrings] at he
      have hmem : e ∈ materialIndex (runRequests reqs emptyStore) := by
        rw [hreq, materialIndex_of_storedList stub l hl]
        exact he
      obtain ⟨ty, id, hsplit⟩ := requests_entries_keyed reqs emptyStore hempty e hmem
      simp [entryID, hsplit]
    · exact hids
  obtain ⟨h1, h2⟩ := getAllMaterials_of_entries stub l hl hids hdec
  refine ⟨h1, ?_⟩
  intro e he
  obtain ⟨id, hid⟩ := Option.isSome_iff_exists.mp (hids e he)
  exact ⟨id, hid, h2 e id he hid⟩

/-- Witness of C15: after `missingRecordRequests` the entry of `M1` has no record and is
passed over. -/
theorem C15_getAllMaterials_skips_missing_witness :
    storedList (runRequests missingRecordRequests emptyStore) "materialIndexList" =
      some [typeIDKey "wood" "M1", typeIDKey "wood" "M2"] ∧
    runRequests missingRecordRequests emptyStore "M1" = none ∧
    (getAllMaterials (runRequests missingRecordRequests emptyStore)).1 =
      Response.Success (Payload.materials (some [⟨"Material", "M2", "wood", "S1"⟩])) ∧
    getAllMaterials (runRequests missingRecordRequests emptyStore) =
      (Response.Success (Payload.materials
        (sliceOf ([typeIDKey "wood" "M1", typeIDKey "wood" "M2"].filterMap
          (entryMaterial (runRequests missingRecordRequests emptyStore))))),
        runRequests missingRecordRequests emptyStore) :=
  ⟨by decide, by decide, by decide,
   (C15_getAllMaterials_skips_missing (runRequests missingRecordRequests emptyStore)
     [typeIDKey "wood" "M1", typeIDKey "wood" "M2"] (by decide)
     (Or.inl ⟨missingRecordRequests, rfl⟩)
     (by
       intro e id b he hid hb
       simp only [List.mem_cons, List.mem_singleton, List.not_mem_nil, or_false] at he
       rcases he with he | he
       · subst he
         have h1 : entryID (typeIDKey "wood" "M1") = some "M1" := by decide
         rw [h1] at hid
         have h2 : runRequests missingRecordRequests emptyStore "M1" = none := by decide
         rw [← Option.some.inj hid, h2] at hb
         simp at hb
       · subst he
         have h1 : entryID (typeIDKey "wood" "M2") = some "M2" := by decide
         rw [h1] at hid
         have h2 : runRequests missingRecordRequests emptyStore "M2" =
             some (Bytes.material ⟨"Material", "M2", "wood", "S1"⟩) := by decide
         rw [← Option.some.inj hid, h2] at hb
         rw [← Option.some.inj hb]
         exact ⟨_, rfl⟩)).1⟩

end Studio
